import Mathlib

/-!
# gta-draw-call: the offline baker (main_baker.cpp)

A shallow embedding of the parts of `src/source/main_baker.cpp` that decide the
properties below: the item catalog loader (`add_item_definition_objs`,
`add_item_definition_tobj`, `parse_ipl`), the mesh extractor (`read_dff_mesh`), the
texture bucketer (`read_txd`) and serialiser (`upload_textures`), the instance buffer
and the draw-call batching loop of `main`, and the packed 64-bit sort key.

Conventions.
* `std::string` is `String`; `std::map<K, V>` is an association list kept in
  ascending key order (`map_find`, `map_set`); `std::unordered_map` and
  `std::unordered_set` are association lists / lists in insertion order
  (`map_find`, `umap_set`, `uset_insert`), their iteration order is never used.
* Machine integers are `Nat` / `Int`; conversions that can wrap are explicit
  (`u32_of_int`, `u64_of_int`, `i32_of_int`, `% 2 ^ 16`, `% 2 ^ 32`).
* `float` values are `F32`: a finite value carried as a rational, the two
  infinities, or NaN.  Only comparisons with integer constants are evaluated.
* libc `sscanf`, the glm library and the RenderWare reader library are not part of
  the repository: a scanned line carries the outcome of the `sscanf` calls made on it,
  the glm operations are the fields of a `Glm` parameter, the library's constants and
  pixel conversions the fields of an `Environment` parameter.
* A `while` loop that may not end takes a fuel argument and answers
  `BakeError.out_of_fuel` when the fuel is used up; a failed `assert` is
  `BakeError.assert_failed`.  An unchecked read past the end of a lookup table yields
  the unspecified value the `Environment` gives for it.
-/

namespace GtaBaker

/-! ## Primitive types -/

/-- A `float`: finite (as the rational it denotes), plus or minus infinity, or NaN. -/
inductive F32 where
  | fin (q : ℚ)
  | pinf
  | ninf
  | nan
  deriving DecidableEq

/-- The C comparison `x >= n` of a float with an integer constant
(false for NaN, as every ordered comparison with NaN). -/
def F32.ge_int (x : F32) (n : Int) : Bool :=
  match x with
  | F32.fin q => decide ((n : ℚ) ≤ q)
  | F32.pinf => true
  | F32.ninf => false
  | F32.nan => false

/-- Conversion of an `int` to `uint32_t`. -/
def u32_of_int (x : Int) : Nat := (x % 2 ^ 32).toNat

/-- Conversion of an `int` to `uint64_t` (sign extension, then modulo 2^64). -/
def u64_of_int (x : Int) : Nat := (x % 2 ^ 64).toNat

/-- Conversion of an integer value to `int` (two's complement wrap). -/
def i32_of_int (x : Int) : Int := (x + 2 ^ 31) % 2 ^ 32 - 2 ^ 31

/-! ## Containers -/

/-- Lookup in a `std::map` / `std::unordered_map` (`find`). -/
def map_find {K V : Type} [DecidableEq K] : List (K × V) → K → Option V
  | [], _ => none
  | (k, v) :: rest, key => if k = key then some v else map_find rest key

/-- The assignment `m[key] = v` on a `std::map`: insert or overwrite, keeping the
keys in ascending order. -/
def map_set {K V : Type} [LT K] [DecidableRel (fun a b : K => a < b)] [DecidableEq K] :
    List (K × V) → K → V → List (K × V)
  | [], key, v => [(key, v)]
  | (k, w) :: rest, key, v =>
    if key < k then (key, v) :: (k, w) :: rest
    else if key = k then (k, v) :: rest
    else (k, w) :: map_set rest key v

/-- The assignment `m[key] = v` on a `std::unordered_map`. -/
def umap_set {K V : Type} [DecidableEq K] : List (K × V) → K → V → List (K × V)
  | [], key, v => [(key, v)]
  | (k, w) :: rest, key, v =>
    if k = key then (k, v) :: rest else (k, w) :: umap_set rest key v

/-- The call `s.insert(x)` on a `std::unordered_set`. -/
def uset_insert {K : Type} [DecidableEq K] (s : List K) (x : K) : List K :=
  if x ∈ s then s else s ++ [x]

/-- The call `m[key].push_back(x)` on a `std::map<K, std::vector<V>>`. -/
def map_push_back {K V : Type} [LT K] [DecidableRel (fun a b : K => a < b)] [DecidableEq K]
    (m : List (K × List V)) (key : K) (x : V) : List (K × List V) :=
  match map_find m key with
  | none => map_set m key [x]
  | some xs => map_set m key (xs ++ [x])

/-- Check, if given string starts with given prefix:
`0 == haystack.compare(0, needle.size(), needle)`. -/
def starts_with (haystack needle : String) : Bool :=
  decide (haystack.data.take needle.data.length = needle.data)

/-! ## Data model -/

def MAX_ARRAY_TEXTURE_LAYERS : Nat := 2048

structure Vec3 where
  x : F32
  y : F32
  z : F32

structure Quat where
  x : F32
  y : F32
  z : F32
  w : F32

/-- A `glm::mat4`: its 16 floats in storage order. -/
abbrev Mat4 := List F32

/-- The glm operations used by `parse_ipl` (external library). -/
structure Glm where
  normalize : Quat → Quat
  eulerAngles : Quat → Vec3
  rotate : Mat4 → F32 → Vec3 → Mat4
  translate : Mat4 → Vec3 → Mat4
  mul : Mat4 → Mat4 → Mat4
  neg : F32 → F32
  identity : Mat4

structure DrawCall where
  texture_array : Nat
  tex_index : Nat
  index_offset : Nat
  num_vertices : Nat
  base_vertex : Nat
  num_instances : Nat
  base_instance : Nat
  deriving DecidableEq

structure Instance where
  id : Int
  num_instances : Nat
  base_instance : Nat
  deriving DecidableEq

/-- An entry from an IDE file (OBJS and TOBJ sections). -/
structure ItemDefinitionEntry where
  id : Int
  model_name : String
  txd_name : String
  mesh_count : Int
  draw_distance : Fin 3 → F32
  flags : Int
  time_on : Int
  time_off : Int

/-- An entry from an IPL file (INST section). -/
structure ItemPlacementEntry where
  position : Vec3
  scale : Vec3
  rotation : Quat
  world_from_object : Mat4
  model_name : String
  interior : Int
  id : Int

/-- A decoded native texture (the fields of `rw::NativeTexture` the baker reads). -/
structure NativeTexture where
  platform : Nat
  name : String
  rasterFormat : Nat
  width : List Nat
  height : List Nat
  dxtCompression : Nat
  hasAlpha : Bool
  dataSizes : List Nat
  texels : List (List Nat)
  palette : List Nat

structure TextureBucket where
  tex_array : List Nat
  natives : List NativeTexture

structure TextureRef where
  index : Nat
  bucket_key : Nat

structure MeshTableEntry where
  id : Nat
  num_splits : Nat
  base_vertex : Nat
  offset : Nat

structure MaterialSplit where
  mat_name : String
  num_indices : Nat
  material_idx : Nat

/-- The global state written by the catalog loader. -/
structure Catalog where
  ide_lookup : List (String × Nat)
  item_definitions : List (Int × ItemDefinitionEntry)
  item_placements : List (Int × List ItemPlacementEntry)
  dependent_dff : List String
  dependent_txd : List String

/-- The state at program start: every container empty. -/
def Catalog.empty : Catalog :=
  { ide_lookup := [], item_definitions := [], item_placements := [],
    dependent_dff := [], dependent_txd := [] }

/-! ## Item catalog loader -/

/-- The tail shared by both `add_item_definition_*` functions: record the definition. -/
def store_item_definition (st : Catalog) (item : ItemDefinitionEntry) : Catalog :=
  { st with
    item_definitions := map_set st.item_definitions item.id item
    ide_lookup := umap_set st.ide_lookup item.model_name (u32_of_int item.id)
    dependent_dff := uset_insert st.dependent_dff (item.model_name ++ ".dff")
    dependent_txd := uset_insert st.dependent_txd (item.txd_name ++ ".txd") }

/-- `bool add_item_definition_objs(ItemDefinitionEntry &item)`. -/
def add_item_definition_objs (st : Catalog) (item : ItemDefinitionEntry) : Bool × Catalog :=
  -- Check, if model name is valid
  if item.model_name.length = 0 ∨ item.model_name = "" then (false, st)
  -- HACK: Skip LODs (distance greater than 900)
  else if (item.draw_distance 0).ge_int 900 then (false, st)
  else if starts_with item.model_name "lod" || starts_with item.model_name "LOD" then (false, st)
  else
    (true, store_item_definition st { item with time_on := 0, time_off := 24 })

def RENDER_HOUR : Int := 12

/-- The `visible` flag computed by `add_item_definition_tobj`. -/
def tobj_visible (item : ItemDefinitionEntry) : Bool :=
  if item.time_off > item.time_on then
    decide (RENDER_HOUR ≥ item.time_on ∧ RENDER_HOUR < item.time_off) -- e.g. 5 - 20
  else
    !(decide (RENDER_HOUR ≥ item.time_off ∧ RENDER_HOUR < item.time_on)) -- e.g. 20 - 5

/-- `bool add_item_definition_tobj(ItemDefinitionEntry &item)`. -/
def add_item_definition_tobj (st : Catalog) (item : ItemDefinitionEntry) : Bool × Catalog :=
  if item.model_name.length = 0 ∨ item.model_name = "" then (false, st)
  else if (item.draw_distance 0).ge_int 900 then (false, st)
  else if starts_with item.model_name "lod" || starts_with item.model_name "LOD" then (false, st)
  -- Skip all meshes that are not visible at 12:00
  else if !(tobj_visible item) then (false, st)
  else (true, store_item_definition st item)

/-- One call of the catalog loader on a scanned definition line. -/
inductive DefinitionOp where
  | objs (item : ItemDefinitionEntry)
  | tobj (item : ItemDefinitionEntry)

/-- A catalog built only through the two `add_item_definition_*` operations. -/
def run_definition_ops (st : Catalog) : List DefinitionOp → Catalog
  | [] => st
  | DefinitionOp.objs item :: rest => run_definition_ops (add_item_definition_objs st item).2 rest
  | DefinitionOp.tobj item :: rest => run_definition_ops (add_item_definition_tobj st item).2 rest

/-! ## Placement parser (`parse_ipl`) -/

/-- A line read by `fgets` from an IPL file together with what the two `sscanf`
calls of `parse_ipl` yield on it: the return value and the item after the call
(`model_name` holding the scanned `dff_name`).  `scan12` is the second call, made
on the item the first one left. -/
structure IplLine where
  buf : String
  scan13 : Int × ItemPlacementEntry
  scan12 : Int × ItemPlacementEntry

/-- The scanning stage of the loop body of `parse_ipl`: `none` is the branch that
prints "Cannot parse as IPL line" and continues with the next line. -/
def scan_ipl_line (line : IplLine) : Option ItemPlacementEntry :=
  if 13 ≠ line.scan13.1 then
    if 12 ≠ line.scan12.1 then
      some { line.scan12.2 with interior := 0 }
    else
      none
  else
    some line.scan13.2

/-- The world transform `parse_ipl` composes for a placement. -/
def compose_world_from_object (glm : Glm) (position : Vec3) (rotation : Quat) : Mat4 :=
  let ea := glm.eulerAngles rotation
  let transformX := glm.rotate glm.identity ea.x ⟨F32.fin 1, F32.fin 0, F32.fin 0⟩
  let transformY := glm.rotate glm.identity ea.y ⟨F32.fin 0, F32.fin 1, F32.fin 0⟩
  let transformZ := glm.rotate glm.identity (glm.neg ea.z) ⟨F32.fin 0, F32.fin 0, F32.fin 1⟩
  let rotation := glm.mul (glm.mul transformX transformY) transformZ
  glm.mul (glm.translate glm.identity position) rotation

/-- The placement as `parse_ipl` stores it: rotation normalised, world transform set. -/
def place_item (glm : Glm) (item : ItemPlacementEntry) : ItemPlacementEntry :=
  let rotation := glm.normalize item.rotation
  { item with
    rotation := rotation
    world_from_object := compose_world_from_object glm item.position rotation }

/-- The "Add item placement" stage of the loop body of `parse_ipl`, returning the
new state and the new value of `num_entries`. -/
def add_item_placement (glm : Glm) (st : Catalog) (num_entries : Int)
    (item : ItemPlacementEntry) : Catalog × Int :=
  match map_find st.ide_lookup item.model_name with
  | none => (st, num_entries) -- references UNLOADED DFF
  | some _ =>
    -- WE ARE INTERESTED ONLY IN INTERIOR 0 AND 13
    if 0 ≠ item.interior ∧ 13 ≠ item.interior then (st, num_entries)
    else
      let placed := place_item glm item
      ({ st with
          item_placements := map_push_back st.item_placements placed.id placed
          ide_lookup := umap_set st.ide_lookup placed.model_name (u32_of_int placed.id) },
        num_entries + 1)

/-- The loop body of `parse_ipl` on one line that is neither "end" nor a comment. -/
def parse_ipl_line (glm : Glm) (st : Catalog) (num_entries : Int) (line : IplLine) :
    Catalog × Int :=
  match scan_ipl_line line with
  | none => (st, num_entries)
  | some item => add_item_placement glm st num_entries item

/-- The second loop of `parse_ipl`: line by line until "end". -/
def parse_ipl_lines (glm : Glm) : Catalog → Int → List IplLine → Catalog × Int
  | st, num_entries, [] => (st, num_entries)
  | st, num_entries, line :: rest =>
    if line.buf = "end\n" then (st, num_entries)
    else if line.buf.data.head? = some '#' then parse_ipl_lines glm st num_entries rest
    else
      let r := parse_ipl_line glm st num_entries line
      parse_ipl_lines glm r.1 r.2 rest

/-- `int parse_ipl(const char *basename)` on the lines of the opened file: locate
the "inst" section, then parse until "end"; returns the number of parsed entries. -/
def parse_ipl (glm : Glm) (st : Catalog) (lines : List IplLine) : Catalog × Int :=
  parse_ipl_lines glm st 0 (lines.dropWhile (fun l => l.buf != "inst\n")).tail

/-! ## Draw-call batcher (`main`) -/

/-- The instance-buffer loop of `main`, with its two accumulators. -/
def fill_instance_buffer :
    List (Int × List ItemPlacementEntry) → List Instance → List Mat4 → List Instance × List Mat4
  | [], instances, xforms => (instances, xforms)
  | (id, placements) :: rest, instances, xforms =>
    let inst : Instance :=
      { id := id
        num_instances := placements.length % 2 ^ 32
        base_instance := xforms.length % 2 ^ 32 }
    fill_instance_buffer rest (instances ++ [inst])
      (xforms ++ placements.map (fun ipl => ipl.world_from_object))

/-- The instance list and the flattened transform array built from `item_placements`. -/
def build_instances (item_placements : List (Int × List ItemPlacementEntry)) :
    List Instance × List Mat4 :=
  fill_instance_buffer item_placements [] []

/-- The 64-bit sort key of a draw call:
`TTTT TTTTTTTT SSSSSSSS ---IIIII IIIIIIII -MMMMMMM`. -/
def sort_key (bucket_key slice_index : Nat) (def_id : Int) (mat_split_idx : Nat) : Nat :=
  0 ||| ((bucket_key &&& 0xFFF) <<< 32) -- 12-bit bucket key
    ||| ((slice_index &&& 0xFF) <<< 24) -- 8-bit slice key (texture array within bucket)
    ||| ((u64_of_int def_id &&& 0xFFF) <<< 8) -- Item definition ID
    ||| (mat_split_idx &&& 0xFF) -- Mesh/Material split index

/-- The texture lookup at the head of the split loop: `none` on either `continue`. -/
def resolve_split (named_textures : List (String × TextureRef))
    (texture_buckets : List (Nat × TextureBucket)) (batch : MaterialSplit) :
    Option (TextureRef × TextureBucket) :=
  match map_find named_textures batch.mat_name with
  | none => none
  | some ref =>
    match map_find texture_buckets ref.bucket_key with
    | none => none
    | some bucket => some (ref, bucket)

/-- The inner loop of the batching: the splits of one instance from index
`mat_split_idx` on, with the running `int offset` and the draw-call map.
An unchecked `bucket.tex_array[slice_index]` reads 0 when out of range. -/
def batch_splits (named_textures : List (String × TextureRef))
    (texture_buckets : List (Nat × TextureBucket)) (def_id : Int) (mesh : MeshTableEntry)
    (inst : Instance) :
    List MaterialSplit → Nat → Int → List (Nat × DrawCall) → List (Nat × DrawCall)
  | [], _, _, ordered_draw_calls => ordered_draw_calls
  | batch :: rest, mat_split_idx, offset, ordered_draw_calls =>
    match resolve_split named_textures texture_buckets batch with
    | none => -- skip not present materials / textures
      batch_splits named_textures texture_buckets def_id mesh inst rest
        (mat_split_idx + 1) offset ordered_draw_calls
    | some (ref, bucket) =>
      let slice_index := (ref.index / MAX_ARRAY_TEXTURE_LAYERS) % 2 ^ 16
      let texture_id := (ref.index % MAX_ARRAY_TEXTURE_LAYERS) % 2 ^ 16
      let key := sort_key ref.bucket_key slice_index def_id mat_split_idx
      let dc : DrawCall :=
        { texture_array := bucket.tex_array.getD slice_index 0
          tex_index := texture_id
          num_instances := inst.num_instances
          base_instance := inst.base_instance
          num_vertices := batch.num_indices
          base_vertex := mesh.base_vertex
          index_offset := u32_of_int ((mesh.offset : Int) + offset) }
      batch_splits named_textures texture_buckets def_id mesh inst rest
        (mat_split_idx + 1) (i32_of_int (offset + (batch.num_indices : Int) * 2))
        (map_set ordered_draw_calls key dc)

/-- The tables the batching loop reads. -/
structure BakedTables where
  item_definitions : List (Int × ItemDefinitionEntry)
  material_splits : List (Nat × List MaterialSplit)
  mesh_table : List (Nat × MeshTableEntry)
  named_textures : List (String × TextureRef)
  texture_buckets : List (Nat × TextureBucket)

/-- The member `def.id` of `item_definitions[instance.id]`: a missing key yields a
value-initialised entry, whose id is 0. -/
def definition_id (item_definitions : List (Int × ItemDefinitionEntry)) (id : Int) : Int :=
  match map_find item_definitions id with
  | some d => d.id
  | none => 0

/-- The splits `material_splits[instance.id]` (empty for a missing key). -/
def mesh_splits_of (material_splits : List (Nat × List MaterialSplit)) (id : Int) :
    List MaterialSplit :=
  (map_find material_splits (u32_of_int id)).getD []

/-- The entry `mesh_table[instance.id]` (all zero for a missing key). -/
def mesh_of (mesh_table : List (Nat × MeshTableEntry)) (id : Int) : MeshTableEntry :=
  (map_find mesh_table (u32_of_int id)).getD
    { id := 0, num_splits := 0, base_vertex := 0, offset := 0 }

/-- The body of the outer batching loop for one instance. -/
def batch_instance (t : BakedTables) (inst : Instance)
    (ordered_draw_calls : List (Nat × DrawCall)) : List (Nat × DrawCall) :=
  batch_splits t.named_textures t.texture_buckets
    (definition_id t.item_definitions inst.id) (mesh_of t.mesh_table inst.id) inst
    (mesh_splits_of t.material_splits inst.id) 0 0 ordered_draw_calls

/-- The batching loop of `main` over all instances. -/
def batch_draw_calls (t : BakedTables) :
    List Instance → List (Nat × DrawCall) → List (Nat × DrawCall)
  | [], ordered_draw_calls => ordered_draw_calls
  | inst :: rest, ordered_draw_calls =>
    batch_draw_calls t rest (batch_instance t inst ordered_draw_calls)

/-- The number of material splits of the instances whose texture resolves to a bucket. -/
def resolved_split_count (t : BakedTables) (instances : List Instance) : Nat :=
  (instances.map (fun i =>
    ((mesh_splits_of t.material_splits i.id).filter
      (fun b => (resolve_split t.named_textures t.texture_buckets b).isSome)).length)).sum

/-! ## Concrete inputs used by the evaluations below -/

/-- A definition entry with the given id and model name (distance 50, always visible). -/
def sample_definition (id : Int) (model_name : String) : ItemDefinitionEntry :=
  { id := id, model_name := model_name, txd_name := "bar", mesh_count := 1,
    draw_distance := fun _ => F32.fin 50, flags := 0, time_on := 0, time_off := 24 }

/-- A placement at (1, 2, 3) with identity rotation and the given world transform. -/
def sample_placement (id : Int) (model_name : String) (m : Mat4) : ItemPlacementEntry :=
  { position := ⟨F32.fin 1, F32.fin 2, F32.fin 3⟩
    scale := ⟨F32.fin 1, F32.fin 1, F32.fin 1⟩
    rotation := ⟨F32.fin 0, F32.fin 0, F32.fin 0, F32.fin 1⟩
    world_from_object := m, model_name := model_name, interior := 0, id := id }

/-- Two placed definitions, ids 1 and 4097, one placement each. -/
def collision_placements : List (Int × List ItemPlacementEntry) :=
  [(1, [sample_placement 1 "foo" []]), (4097, [sample_placement 4097 "baz" []])]

/-- Both meshes have one split, textured by the same loaded texture "tex". -/
def collision_tables : BakedTables :=
  { item_definitions := [(1, sample_definition 1 "foo"), (4097, sample_definition 4097 "baz")]
    material_splits := [(1, [{ mat_name := "tex", num_indices := 3, material_idx := 0 }]),
                        (4097, [{ mat_name := "tex", num_indices := 6, material_idx := 0 }])]
    mesh_table := [(1, { id := 1, num_splits := 1, base_vertex := 0, offset := 0 }),
                   (4097, { id := 4097, num_splits := 1, base_vertex := 3, offset := 6 })]
    named_textures := [("tex", { index := 0, bucket_key := 0x644 })]
    texture_buckets := [(0x644, { tex_array := [1], natives := [] })] }

/-- One mesh (id 7, index bytes from offset 100) with two splits of 3 indices: the
texture of the first is not loaded, the texture of the second is. -/
def skipped_split_tables : BakedTables :=
  { item_definitions := [(7, sample_definition 7 "foo")]
    material_splits := [(7, [{ mat_name := "missing", num_indices := 3, material_idx := 0 },
                             { mat_name := "tex", num_indices := 3, material_idx := 1 }])]
    mesh_table := [(7, { id := 7, num_splits := 2, base_vertex := 0, offset := 100 })]
    named_textures := [("tex", { index := 0, bucket_key := 0x644 })]
    texture_buckets := [(0x644, { tex_array := [1], natives := [] })] }

/-! ## Instance buffer: specification-side definitions -/

/-- Spec: the sum of the placement counts of all ids smaller than `id`. -/
def spec_base_instance : List (Int × List ItemPlacementEntry) → Int → Nat
  | [], _ => 0
  | (k, placements) :: rest, id =>
    (if k < id then placements.length else 0) + spec_base_instance rest id

/-- Spec: the concatenation of the per-id placement transforms, in map order. -/
def spec_transform_array : List (Int × List ItemPlacementEntry) → List Mat4
  | [] => []
  | (_, placements) :: rest =>
    placements.map (fun ipl => ipl.world_from_object) ++ spec_transform_array rest

/-- The total number of placements in the map. -/
def total_placements : List (Int × List ItemPlacementEntry) → Nat
  | [] => 0
  | (_, placements) :: rest => placements.length + total_placements rest

/-- The records the instance loop appends when it starts with `base` transforms. -/
def instances_from : List (Int × List ItemPlacementEntry) → Nat → List Instance
  | [], _ => []
  | (id, placements) :: rest, base =>
    { id := id, num_instances := placements.length % 2 ^ 32, base_instance := base % 2 ^ 32 }
      :: instances_from rest (base + placements.length)

/-- The invariant of `item_placements`: ascending distinct keys, no empty vector. -/
def placements_wf (m : List (Int × List ItemPlacementEntry)) : Prop :=
  m.Pairwise (fun a b => a.1 < b.1) ∧ ∀ p ∈ m, p.2 ≠ []

/-- Two placements of id 5 and one of id 9, with distinguishable transforms. -/
def two_id_placements : List (Int × List ItemPlacementEntry) :=
  [(5, [sample_placement 5 "foo" [F32.fin 1], sample_placement 5 "foo" [F32.fin 2]]),
   (9, [sample_placement 9 "baz" [F32.fin 3]])]

/-! ## Catalog loader: the claim's predicates and concrete inputs -/

/-- The definitions C7 speaks of: primary draw distance >= 900, or a model name that
starts with "lod" or "LOD", or an empty model name. -/
def is_lod_or_unnamed (item : ItemDefinitionEntry) : Prop :=
  (item.draw_distance 0).ge_int 900 = true
    ∨ starts_with item.model_name "lod" = true
    ∨ starts_with item.model_name "LOD" = true
    ∨ item.model_name = ""

/-- A timed definition with the given window (model "foo", distance 50). -/
def sample_tobj (id : Int) (time_on time_off : Int) : ItemDefinitionEntry :=
  { sample_definition id "foo" with time_on := time_on, time_off := time_off }

/-- No stored definition is a LOD or unnamed one. -/
def definitions_clean (st : Catalog) : Prop :=
  ∀ id d, map_find st.item_definitions id = some d → ¬ is_lod_or_unnamed d

/-- A definition at draw distance 1000 (a LOD by distance). -/
def far_definition : ItemDefinitionEntry :=
  { sample_definition 8 "house" with draw_distance := fun _ => F32.fin 1000 }

/-! ## Placement lines: definitions for the evaluations of `parse_ipl` -/

/-- A stand-in for glm that is exact on identity rotations only: `rotate` and `mul`
return their first argument, `translate` overwrites the translation column. -/
def sample_glm : Glm :=
  { normalize := fun q => q
    eulerAngles := fun _ => ⟨F32.fin 0, F32.fin 0, F32.fin 0⟩
    rotate := fun m _ _ => m
    translate := fun m v => m.take 12 ++ [v.x, v.y, v.z, F32.fin 1]
    mul := fun a _ => a
    neg := fun x => x
    identity :=
      [F32.fin 1, F32.fin 0, F32.fin 0, F32.fin 0, F32.fin 0, F32.fin 1, F32.fin 0, F32.fin 0,
       F32.fin 0, F32.fin 0, F32.fin 1, F32.fin 0, F32.fin 0, F32.fin 0, F32.fin 0, F32.fin 1] }

/-- The item `ItemPlacementEntry item = {}` before any field is scanned. -/
def zero_placement : ItemPlacementEntry :=
  { position := ⟨F32.fin 0, F32.fin 0, F32.fin 0⟩
    scale := ⟨F32.fin 0, F32.fin 0, F32.fin 0⟩
    rotation := ⟨F32.fin 0, F32.fin 0, F32.fin 0, F32.fin 0⟩
    world_from_object := List.replicate 16 (F32.fin 0)
    model_name := "", interior := 0, id := 0 }

/-- A line on which both `sscanf` calls convert nothing ("inst", "end"). -/
def text_line (buf : String) : IplLine :=
  { buf := buf, scan13 := (0, zero_placement), scan12 := (0, zero_placement) }

/-- The catalog after loading the static definition id 100, model "foo". -/
def loaded_catalog : Catalog :=
  (add_item_definition_objs Catalog.empty (sample_definition 100 "foo")).2

/-- A placement line in the 12-field layout (no interior id).  The 13-field format
stops after three conversions (its third `%i` reads the 1 of "1.0" and the next
literal comma meets the '.'); the 12-field format converts all twelve fields. -/
def twelve_field_line : IplLine :=
  { buf := "100, foo, 1.0, 2.0, 3.0, 1, 1, 1, 0, 0, 0, 1\n"
    scan13 := (3, { zero_placement with id := 100, model_name := "foo", interior := 1 })
    scan12 := (12, { sample_placement 100 "foo" (List.replicate 16 (F32.fin 0)) with
                     interior := 1 }) }

/-- A placement line in the 13-field layout, interior 0. -/
def thirteen_field_line : IplLine :=
  { buf := "100, foo, 0, 1.0, 2.0, 3.0, 1, 1, 1, 0, 0, 0, 1\n"
    scan13 := (13, sample_placement 100 "foo" (List.replicate 16 (F32.fin 0)))
    scan12 := (12, { zero_placement with
                     id := 100, model_name := "foo"
                     position := ⟨F32.fin 0, F32.fin 1, F32.fin 2⟩
                     scale := ⟨F32.fin 3, F32.fin 1, F32.fin 1⟩
                     rotation := ⟨F32.fin 1, F32.fin 0, F32.fin 0, F32.fin 0⟩ }) }

/-- A truncated line that matches neither layout: the 13-field format converts four
fields, the 12-field format converts four fields. -/
def truncated_line : IplLine :=
  { buf := "100, foo, 0, 1.0\n"
    scan13 := (4, { zero_placement with
                    id := 100, model_name := "foo", interior := 0
                    position := ⟨F32.fin 1, F32.fin 0, F32.fin 0⟩ })
    scan12 := (4, { zero_placement with
                    id := 100, model_name := "foo", interior := 0
                    position := ⟨F32.fin 0, F32.fin 1, F32.fin 0⟩ }) }

/-! ## Texture bucketer (`read_txd`) -/

def NUM_TEX_GROUPS : Nat := 11

def RASTER_DEFAULT : Nat := 0x0000
def RASTER_1555 : Nat := 0x0100
def RASTER_565 : Nat := 0x0200
def RASTER_4444 : Nat := 0x0300
def RASTER_LUM8 : Nat := 0x0400
def RASTER_8888 : Nat := 0x0500
def RASTER_888 : Nat := 0x0600
def RASTER_16 : Nat := 0x0700
def RASTER_24 : Nat := 0x0800
def RASTER_32 : Nat := 0x0900
def RASTER_555 : Nat := 0x0a00

/-- The table `TEXKEY_FORMAT_LUT[NUM_TEX_GROUPS]`, indexed by raster format code >> 8. -/
def TEXKEY_FORMAT_LUT : List Nat :=
  [0, -- RASTER_DEFAULT = 0x0000, not supported
   5, -- RASTER_1555 = 0x0100, alpha!
   2, -- RASTER_565 = 0x0200
   4, -- RASTER_4444 = 0x0300, alpha!
   1, -- RASTER_LUM8 = 0x0400
   6, -- RASTER_8888 = 0x0500, alpha!
   3, -- RASTER_888 = 0x0600
   0, -- RASTER_16 = 0x0700, not supported
   0, -- RASTER_24 = 0x0800, not supported
   0, -- RASTER_32 = 0x0900, not supported
   2] -- RASTER_555 = 0x0a00

/-- The table `TEXPOW_LUT[16]`, with the source's comment on each entry. -/
def TEXPOW_LUT : List Nat :=
  [0, -- might be below or above range
   0, -- 16
   1, -- 32
   0, -- 48 - not power of 2
   2, -- 64
   0, -- 80 - not power of 2
   0, -- 96 - not power of 2
   0, -- 112 - not power of 2
   3, -- 128
   0, -- 144 - not power of 2
   0, -- 160 - not power of 2
   0, -- 176 - not power of 2
   0, -- 192 - not power of 2
   0, -- 208 - not power of 2
   0, -- 224 - not power of 2
   4] -- 256

/-- What lies outside the repository: the constants and pixel conversions of the
RenderWare reader library (`renderware.h`), and the `uint16_t` values an unchecked
read past the end of the two lookup tables finds in memory. -/
structure Environment where
  PLATFORM_PS2 : Nat
  PLATFORM_XBOX : Nat
  RASTER_MASK : Nat
  RASTER_PAL8 : Nat
  RASTER_PAL4 : Nat
  convertFromPS2 : NativeTexture → NativeTexture
  convertFromXbox : NativeTexture → NativeTexture
  beyond_format_lut : Nat → Nat
  beyond_pow_lut : Nat → Nat

/-- The unchecked array read `table[i]` of a `uint16_t` table. -/
def lut_read (table : List Nat) (beyond : Nat → Nat) (i : Nat) : Nat :=
  match table[i]? with
  | some v => v
  | none => beyond i % 2 ^ 16

/-- Element 0 of a per-mipmap vector (`tex.width[0]`, `tex.dataSizes[0]`); 0 for an
empty vector, which the reader library never produces. -/
def mip0 (v : List Nat) : Nat := v.getD 0 0

/-- The index `format_idx` into `TEXKEY_FORMAT_LUT`. -/
def format_idx (tex : NativeTexture) : Nat := ((tex.rasterFormat >>> 8) &&& 0xF) % 2 ^ 16

/-- Create texture key: XAFF WWWW HHHH. -/
def tex_group_key (env : Environment) (tex : NativeTexture) : Nat :=
  (0 ||| (lut_read TEXKEY_FORMAT_LUT env.beyond_format_lut (format_idx tex) <<< 8)
     ||| (lut_read TEXPOW_LUT env.beyond_pow_lut (mip0 tex.width >>> 4) <<< 4)
     ||| (lut_read TEXPOW_LUT env.beyond_pow_lut (mip0 tex.height >>> 4) <<< 0)) % 2 ^ 16

/-- The two global containers of the texture bucketer. -/
structure TextureState where
  texture_buckets : List (Nat × TextureBucket)
  named_textures : List (String × TextureRef)

def TextureState.empty : TextureState := { texture_buckets := [], named_textures := [] }

/-- The body of the second loop of `read_txd` for one texture of the dictionary. -/
def read_txd_texture (env : Environment) (st : TextureState) (tex : NativeTexture) :
    TextureState :=
  if "" = tex.name then st -- Why are unnamed textures in TXD in the first place?
  else
    let key := tex_group_key env tex
    match map_find st.named_textures tex.name with
    | some ref =>
      if ref.bucket_key = key then st -- OK - this texture is already loaded
      else st -- NAME CONFLICT! (warning printed)
    | none =>
      let bucket : TextureBucket :=
        (map_find st.texture_buckets key).getD { tex_array := [], natives := [] }
      let natives := bucket.natives ++ [tex]
      { texture_buckets := map_set st.texture_buckets key { bucket with natives := natives }
        named_textures :=
          umap_set st.named_textures tex.name
            { bucket_key := key, index := (natives.length - 1) % 2 ^ 32 } }

/-- The first loop of `read_txd`: platform conversion of one texture. -/
def convert_texture (env : Environment) (tex : NativeTexture) : NativeTexture :=
  let t1 := if tex.platform = env.PLATFORM_PS2 then env.convertFromPS2 tex else tex
  if t1.platform = env.PLATFORM_XBOX then env.convertFromXbox t1 else t1

/-- `bool read_txd(const std::string &filename)`: `none` is a file that cannot be
opened, `some texList` the dictionary read from it. -/
def read_txd (env : Environment) (st : TextureState) (file : Option (List NativeTexture)) :
    Bool × TextureState :=
  match file with
  | none => (false, st)
  | some texList => (true, ((texList.map (convert_texture env)).foldl (read_txd_texture env) st))

/-- The loop of `main` over the referenced dictionaries (all of them opened). -/
def read_all_txd (env : Environment) (st : TextureState) (files : List (List NativeTexture)) :
    TextureState :=
  files.foldl (fun s texList => (read_txd env s (some texList)).2) st


/-! ## Texture serialisation (`upload_textures`) -/

def GL_RGB : Nat := 0x1907
def GL_RGBA : Nat := 0x1908
def GL_COMPRESSED_RGB_S3TC_DXT1_EXT : Nat := 0x83F0
def GL_COMPRESSED_RGBA_S3TC_DXT1_EXT : Nat := 0x83F1
def GL_COMPRESSED_RGBA_S3TC_DXT3_EXT : Nat := 0x83F2

/-- How a run of the baker ends without a result: a failed `assert` (or the
`default:` case of the format switch), a vector read out of range, or a loop that is
still running when the fuel of the model is used up. -/
inductive BakeError where
  | assert_failed
  | out_of_range
  | out_of_fuel
  deriving DecidableEq

/-- One split record of "texturebuckets.blob": the five header words and the pixel
bytes `fwrite_compressed` writes after them. -/
structure TextureSplit where
  format : Nat
  width : Nat
  height : Nat
  layers : Nat
  byte_size : Int
  data : List Nat
  deriving DecidableEq

/-- The local variables of `upload_textures` that live across buckets, with the split
records written to the blob so far. -/
structure UploadState where
  texarr_id : Nat
  texture_split_count : Nat
  biggest_split_buffer : Nat
  splits : List TextureSplit
  deriving DecidableEq

/-- The file "texturebuckets.blob" once closed: the two header words at offset 0
(written as 0, 0 first and patched after the seek back) and the split records. -/
structure TextureBlob where
  split_count : Nat
  max_split_bytes : Nat
  splits : List TextureSplit
  deriving DecidableEq

/-- The test `tex.rasterFormat & RASTER_PAL8 || tex.rasterFormat & RASTER_PAL4`. -/
def is_palettized (env : Environment) (tex : NativeTexture) : Bool :=
  (tex.rasterFormat &&& env.RASTER_PAL8 != 0) || (tex.rasterFormat &&& env.RASTER_PAL4 != 0)

/-- The flag `tex.hasAlpha || (tex.rasterFormat & (RASTER_PAL8 | RASTER_PAL4))`. -/
def four_bytes (env : Environment) (tex : NativeTexture) : Bool :=
  tex.hasAlpha || (tex.rasterFormat &&& (env.RASTER_PAL8 ||| env.RASTER_PAL4) != 0)

/-- The per-layer byte count `datasize`. -/
def layer_datasize (env : Environment) (tex : NativeTexture) : Nat :=
  if tex.dxtCompression ≠ 0 then mip0 tex.dataSizes
  else mip0 tex.width * mip0 tex.height * (if four_bytes env tex then 4 else 3)

/-- The five assertions on a layer texture `tn` against the representative `tex`. -/
def layer_asserts (env : Environment) (tex tn : NativeTexture) : Bool :=
  mip0 tex.width == mip0 tn.width
    && mip0 tex.height == mip0 tn.height
    && tex.dxtCompression == tn.dxtCompression
    && tex.hasAlpha == tn.hasAlpha
    && (tex.rasterFormat &&& env.RASTER_MASK) == (tn.rasterFormat &&& env.RASTER_MASK)

/-- A write of `data` into the byte buffer at `offset` (inside the allocation). -/
def buffer_write (buffer : List Nat) (offset : Nat) (data : List Nat) : List Nat :=
  buffer.take offset ++ data ++ buffer.drop (offset + data.length)

/-- The bytes the palette branch stores for one layer: for each pixel the four palette
bytes selected by the texel of `tex`. -/
def palette_expansion (tex : NativeTexture) : List Nat :=
  ((List.range ((mip0 tex.width * mip0 tex.height) % 2 ^ 32)).map (fun i =>
    let texel := (tex.texels.getD 0 []).getD i 0
    [tex.palette.getD (texel * 4 + 0) 0, tex.palette.getD (texel * 4 + 1) 0,
     tex.palette.getD (texel * 4 + 2) 0, tex.palette.getD (texel * 4 + 3) 0])).flatten

/-- The loop `for (int i = 0; i < layers; ++i)` from layer `i` on, `remaining` layers
to go: assert, then fill the layer at `buffer + i * datasize`. -/
def fill_layers (env : Environment) (natives : List NativeTexture) (tex : NativeTexture)
    (slice datasize : Nat) : Nat → Nat → List Nat → Except BakeError (List Nat)
  | 0, _, buffer => Except.ok buffer
  | remaining + 1, i, buffer =>
    match natives[slice * MAX_ARRAY_TEXTURE_LAYERS + i]? with
    | none => Except.error BakeError.out_of_range
    | some tn =>
      if !(layer_asserts env tex tn) then Except.error BakeError.assert_failed
      else if is_palettized env tex then
        -- Convert all palettizied textures back to normal encoding...
        fill_layers env natives tex slice datasize remaining (i + 1)
          (buffer_write buffer (i * datasize) (palette_expansion tex))
      else
        fill_layers env natives tex slice datasize remaining (i + 1)
          (buffer_write buffer (i * datasize)
            ((tn.texels.getD 0 []).take (mip0 tn.dataSizes)))

/-- The `switch (tex.rasterFormat & RASTER_MASK)`: the GL format of the split, or the
failed assertion of the case (`default:` asserts false). -/
def split_format (env : Environment) (tex : NativeTexture) : Except BakeError Nat :=
  let fmt := tex.rasterFormat &&& env.RASTER_MASK
  if fmt = RASTER_1555 then -- Used by DXT1 w/ alpha
    if tex.dxtCompression = 1 then Except.ok GL_COMPRESSED_RGBA_S3TC_DXT1_EXT
    else Except.error BakeError.assert_failed
  else if fmt = RASTER_565 then -- Used for DXT1 w/o alpha
    if tex.dxtCompression = 1 then Except.ok GL_COMPRESSED_RGB_S3TC_DXT1_EXT
    else Except.error BakeError.assert_failed
  else if fmt = RASTER_4444 then -- Used for DXT3 (has alpha)
    if tex.dxtCompression = 3 then Except.ok GL_COMPRESSED_RGBA_S3TC_DXT3_EXT
    else Except.error BakeError.assert_failed
  else if fmt = RASTER_888 ∨ fmt = RASTER_8888 then
    Except.ok (if four_bytes env tex then GL_RGBA else GL_RGB)
  else Except.error BakeError.assert_failed -- Unsupported texture format!

/-- One iteration of the slice loop once `SLICE_SIZE` is known: push the texture array
id, fill the buffer, write the split record, count it. -/
def upload_slice (env : Environment) (natives : List NativeTexture) (tex : NativeTexture)
    (slice SLICE_SIZE : Nat) (tex_array : List Nat) (us : UploadState) :
    Except BakeError (List Nat × UploadState) :=
  let texarr_id := (us.texarr_id + 1) % 2 ^ 32
  let width := mip0 tex.width
  let height := mip0 tex.height
  let layers := SLICE_SIZE
  let datasize := layer_datasize env tex
  match fill_layers env natives tex slice datasize layers 0
      (List.replicate (layers * width * height * 4) 0) with
  | Except.error e => Except.error e
  | Except.ok buffer =>
    match split_format env tex with
    | Except.error e => Except.error e
    | Except.ok format =>
      let size := i32_of_int ((layers : Int) * (datasize : Int))
      Except.ok (tex_array ++ [texarr_id],
        { texarr_id := texarr_id
          texture_split_count := (us.texture_split_count + 1) % 2 ^ 32
          biggest_split_buffer := max us.biggest_split_buffer (u32_of_int size)
          splits := us.splits ++
            [{ format := format, width := width, height := height, layers := layers,
               byte_size := size, data := buffer.take (datasize * layers) }] })

/-- The loop `while (0 < textures_left)` of one bucket.  `slice` is declared before the
loop and used in the index of the layer textures; no statement changes it. -/
def slice_loop (env : Environment) (natives : List NativeTexture) (tex : NativeTexture)
    (slice : Nat) : Nat → Nat → List Nat → UploadState → Except BakeError (List Nat × UploadState)
  | fuel, textures_left, tex_array, us =>
    if textures_left = 0 then Except.ok (tex_array, us)
    else
      match fuel with
      | 0 => Except.error BakeError.out_of_fuel
      | fuel + 1 =>
        let SLICE_SIZE := min (textures_left % 2 ^ 16) (MAX_ARRAY_TEXTURE_LAYERS % 2 ^ 16)
        match upload_slice env natives tex slice SLICE_SIZE tex_array us with
        | Except.error e => Except.error e
        | Except.ok (tex_array1, us1) =>
          slice_loop env natives tex slice fuel (textures_left - SLICE_SIZE) tex_array1 us1

/-- The body of the bucket loop of `upload_textures` for one bucket. -/
def upload_bucket (env : Environment) (fuel : Nat) (bucket : TextureBucket) (us : UploadState) :
    Except BakeError (TextureBucket × UploadState) :=
  match bucket.natives with
  | [] => Except.ok (bucket, us) -- Why there is an empty bucket in the first place?
  | tex :: _ => -- Get a "representative" texture
    match slice_loop env bucket.natives tex 0 fuel bucket.natives.length bucket.tex_array us with
    | Except.error e => Except.error e
    | Except.ok (tex_array, us1) => Except.ok ({ bucket with tex_array := tex_array }, us1)

/-- The loop `for (auto &bucket_pair : texture_buckets)`. -/
def upload_buckets (env : Environment) (fuel : Nat) :
    List (Nat × TextureBucket) → UploadState →
      Except BakeError (List (Nat × TextureBucket) × UploadState)
  | [], us => Except.ok ([], us)
  | (key, bucket) :: rest, us =>
    match upload_bucket env fuel bucket us with
    | Except.error e => Except.error e
    | Except.ok (bucket1, us1) =>
      match upload_buckets env fuel rest us1 with
      | Except.error e => Except.error e
      | Except.ok (rest1, us2) => Except.ok ((key, bucket1) :: rest1, us2)

/-- `bool upload_textures()`: the buckets with their texture arrays and the blob
written.  Each slice loop may run `fuel` iterations. -/
def upload_textures (env : Environment) (fuel : Nat)
    (texture_buckets : List (Nat × TextureBucket)) :
    Except BakeError (List (Nat × TextureBucket) × TextureBlob) :=
  match upload_buckets env fuel texture_buckets
      { texarr_id := 0, texture_split_count := 0, biggest_split_buffer := 0, splits := [] } with
  | Except.error e => Except.error e
  | Except.ok (buckets, us) =>
    Except.ok (buckets,
      { split_count := us.texture_split_count -- patch number of texture splits
        max_split_bytes := us.biggest_split_buffer -- patch the biggest split buffer size
        splits := us.splits })


/-! ## Concrete textures used by the evaluations of the bucketer -/

/-- Sample values for what lies outside the repository: the constants as the
RenderWare reader library publishes them, conversions that leave a texture as it is
(the sample textures are no PS2 or Xbox textures), and zero beyond both tables. -/
def sample_env : Environment :=
  { PLATFORM_PS2 := 4
    PLATFORM_XBOX := 5
    RASTER_MASK := 0x0F00
    RASTER_PAL8 := 0x2000
    RASTER_PAL4 := 0x4000
    convertFromPS2 := fun t => t
    convertFromXbox := fun t => t
    beyond_format_lut := fun _ => 0
    beyond_pow_lut := fun _ => 0 }

/-- An uncompressed square texture of the given raster format with 4 bytes a pixel. -/
def plain_texture (name : String) (rasterFormat size : Nat) (hasAlpha : Bool) : NativeTexture :=
  { platform := 8, name := name, rasterFormat := rasterFormat, width := [size], height := [size]
    dxtCompression := 0, hasAlpha := hasAlpha, dataSizes := [size * size * 4]
    texels := [List.replicate (size * size * 4) 255], palette := [] }

/-- A 1 x 1 texture with an 8-bit palette whose only pixel has palette entry 0. -/
def palette_texture (name : String) (r g b a : Nat) : NativeTexture :=
  { platform := 8, name := name, rasterFormat := 0x2500, width := [1], height := [1]
    dxtCompression := 0, hasAlpha := true, dataSizes := [1]
    texels := [[0]], palette := [r, g, b, a] }

/-- 65535 textures of one format and size, named "t1" .. "t65535". -/
def crowded_rest : List NativeTexture :=
  (List.range 65535).map (fun i => plain_texture ("t" ++ toString (i + 1)) 0x0500 1 true)

/-- A bucket of 65536 textures of one format and size, with distinct names. -/
def crowded_bucket : TextureBucket :=
  { tex_array := [], natives := plain_texture "t0" 0x0500 1 true :: crowded_rest }

/-- The invariant of the bucketer state before `upload_textures`: every registered
reference points into its bucket, and no bucket has a texture array yet. -/
def texture_state_wf (st : TextureState) : Prop :=
  (∀ (name : String) (ref : TextureRef), map_find st.named_textures name = some ref →
      ∃ b, map_find st.texture_buckets ref.bucket_key = some b ∧ ref.index < b.natives.length)
    ∧ (∀ (key : Nat) (b : TextureBucket), map_find st.texture_buckets key = some b →
        b.tex_array = [])

/-- Spec: the maximum byte_size field (read as an unsigned 32-bit word) over the split
records, 0 when there is none. -/
def spec_max_split_bytes (splits : List TextureSplit) : Nat :=
  splits.foldl (fun m s => max m (u32_of_int s.byte_size)) 0

/-- The two counters of `upload_textures` agree with the records written so far. -/
def upload_counters_true (us : UploadState) : Prop :=
  us.texture_split_count = us.splits.length % 2 ^ 32
    ∧ us.biggest_split_buffer = spec_max_split_bytes us.splits

/-- The size fields of a split record written for a bucket with representative `tex`. -/
def split_sized_for (env : Environment) (tex : NativeTexture) (s : TextureSplit) : Prop :=
  s.byte_size = i32_of_int ((s.layers : Int) * (layer_datasize env tex : Int))
    ∧ s.width = mip0 tex.width ∧ s.height = mip0 tex.height

/-! ## Mesh extractor (`read_dff_mesh`) -/

structure Vec4 where
  x : F32
  y : F32
  z : F32
  w : F32
  deriving DecidableEq

/-- A `glm::u8vec4` vertex colour. -/
structure U8Vec4 where
  x : Nat
  y : Nat
  z : Nat
  w : Nat
  deriving DecidableEq

/-- A material split of a native geometry (`rw::Split`). -/
structure Split where
  matIndex : Nat
  indices : List Nat

/-- The fields of `rw::Geometry` the baker reads; `materialList` holds the texture
name of each material. -/
structure Geometry where
  vertexCount : Nat
  vertices : List F32
  vertexColors : List Nat
  texCoords : List (List F32)
  splits : List Split
  materialList : List String

/-- A chunk header as the loop of `read_dff_mesh` meets it. -/
inductive DffChunk where
  | clump (geometryList : List Geometry)
  | naobject
  | other

/-- The global buffers and tables the mesh extractor fills. -/
structure MeshState where
  baked_vert_pos : List Vec3
  baked_vert_rgba : List U8Vec4
  baked_vert_uv : List Vec4
  baked_indices : List Nat
  mesh_table : List (Nat × MeshTableEntry)
  material_splits : List (Nat × List MaterialSplit)

/-- The position of vertex `v` (reads past the end of `vertices` yield 0). -/
def vertex_pos (geo : Geometry) (v : Nat) : Vec3 :=
  ⟨geo.vertices.getD (3 * v + 0) (F32.fin 0), geo.vertices.getD (3 * v + 1) (F32.fin 0),
    geo.vertices.getD (3 * v + 2) (F32.fin 0)⟩

/-- The colour of vertex `v`, each component cast to `uint8_t`. -/
def vertex_rgba (geo : Geometry) (v : Nat) : U8Vec4 :=
  ⟨geo.vertexColors.getD (4 * v + 0) 0 % 2 ^ 8, geo.vertexColors.getD (4 * v + 1) 0 % 2 ^ 8,
    geo.vertexColors.getD (4 * v + 2) 0 % 2 ^ 8, geo.vertexColors.getD (4 * v + 3) 0 % 2 ^ 8⟩

/-- The merged UV attribute of vertex `v`: (0, 0, 0, 0), overwritten by the channels
that are present. -/
def vertex_uv (geo : Geometry) (v : Nat) : Vec4 :=
  let uv : Vec4 := ⟨F32.fin 0, F32.fin 0, F32.fin 0, F32.fin 0⟩
  let uv :=
    if 0 < (geo.texCoords.getD 0 []).length then
      { uv with
        x := (geo.texCoords.getD 0 []).getD (2 * v + 0) (F32.fin 0)
        y := (geo.texCoords.getD 0 []).getD (2 * v + 1) (F32.fin 0) }
    else uv
  if 0 < (geo.texCoords.getD 1 []).length then
    { uv with
      z := (geo.texCoords.getD 1 []).getD (2 * v + 0) (F32.fin 0)
      w := (geo.texCoords.getD 1 []).getD (2 * v + 1) (F32.fin 0) }
  else uv

/-- The record `MaterialSplit batch` the split loop fills for one split. -/
def material_split_of (geo : Geometry) (split : Split) : MaterialSplit :=
  { material_idx := split.matIndex
    mat_name := geo.materialList.getD split.matIndex ""
    num_indices := split.indices.length % 2 ^ 32 }

/-- The body of the split loop: append the indices of the split to `baked_indices`
(each cast to `uint16_t`) and its record to `material_splits[id]`. -/
def bake_split (id : Nat) (geo : Geometry) (st : MeshState) (split : Split) : MeshState :=
  { st with
    baked_indices := st.baked_indices ++ split.indices.map (fun idx => idx % 2 ^ 16)
    material_splits := map_push_back st.material_splits id (material_split_of geo split) }

/-- The block of `read_dff_mesh` that bakes the first geometry of a clump. -/
def bake_geometry (id : Nat) (geo : Geometry) (st : MeshState) : MeshState :=
  if 0 = geo.vertexCount then st
  else
    let mesh : MeshTableEntry :=
      { id := id
        base_vertex := st.baked_vert_pos.length % 2 ^ 32
        offset := (2 * st.baked_indices.length) % 2 ^ 32
        num_splits := geo.splits.length % 2 ^ 32 }
    -- Load vertex data
    let st1 : MeshState :=
      { st with
        baked_vert_pos := st.baked_vert_pos ++ (List.range geo.vertexCount).map (vertex_pos geo)
        baked_vert_rgba :=
          st.baked_vert_rgba ++ (List.range geo.vertexCount).map (vertex_rgba geo)
        baked_vert_uv := st.baked_vert_uv ++ (List.range geo.vertexCount).map (vertex_uv geo) }
    -- Load optimized indices from 'Bin Mesh PLG' chunk
    let st2 : MeshState :=
      { st1 with -- material_splits[id].reserve(mesh.num_splits)
        material_splits :=
          map_set st1.material_splits id ((map_find st1.material_splits id).getD []) }
    let st3 := geo.splits.foldl (bake_split id geo) st2
    { st3 with mesh_table := map_set st3.mesh_table id mesh }

/-- The chunk loop of `read_dff_mesh`. -/
def read_dff_chunks (id : Nat) : List DffChunk → MeshState → MeshState
  | [], st => st
  | DffChunk.naobject :: _, st => st
  | DffChunk.other :: rest, st => read_dff_chunks id rest st
  | DffChunk.clump geometryList :: rest, st =>
    match geometryList with
    | [] => read_dff_chunks id rest st -- This shall not happen... Invalid data!
    | geo :: _ => read_dff_chunks id rest (bake_geometry id geo st)

/-- `bool read_dff_mesh(uint32_t id, const std::string &filename)`: `none` is a file
that cannot be opened. -/
def read_dff_mesh (id : Nat) (file : Option (List DffChunk)) (st : MeshState) :
    Bool × MeshState :=
  match file with
  | none => (false, st)
  | some chunks => (true, read_dff_chunks id chunks st)


/-! ## Draw-call batcher: the keys an instance writes -/

/-- The sort key the split loop computes for split `mat_split_idx` resolved to `ref`. -/
def split_sort_key (def_id : Int) (mat_split_idx : Nat) (ref : TextureRef) : Nat :=
  sort_key ref.bucket_key ((ref.index / MAX_ARRAY_TEXTURE_LAYERS) % 2 ^ 16) def_id mat_split_idx

/-- The sort keys of the splits of one instance whose texture resolves, in split order,
for the splits from index `mat_split_idx` on. -/
def emitted_keys (named_textures : List (String × TextureRef))
    (texture_buckets : List (Nat × TextureBucket)) (def_id : Int) :
    List MaterialSplit → Nat → List Nat
  | [], _ => []
  | batch :: rest, mat_split_idx =>
    match resolve_split named_textures texture_buckets batch with
    | none => emitted_keys named_textures texture_buckets def_id rest (mat_split_idx + 1)
    | some (ref, _) =>
      split_sort_key def_id mat_split_idx ref
        :: emitted_keys named_textures texture_buckets def_id rest (mat_split_idx + 1)

/-- The empty buffers and tables before the first `read_dff_mesh`. -/
def MeshState.empty : MeshState :=
  { baked_vert_pos := [], baked_vert_rgba := [], baked_vert_uv := [], baked_indices := []
    mesh_table := [], material_splits := [] }

/-- A triangle with vertex colours, one UV channel and one split of material "tex". -/
def sample_geometry : Geometry :=
  { vertexCount := 3
    vertices := [F32.fin 0, F32.fin 0, F32.fin 0, F32.fin 1, F32.fin 0, F32.fin 0,
                 F32.fin 0, F32.fin 1, F32.fin 0]
    vertexColors := [255, 0, 0, 255, 0, 255, 0, 255, 0, 0, 255, 255]
    texCoords := [[F32.fin 0, F32.fin 0, F32.fin 1, F32.fin 0, F32.fin 0, F32.fin 1], []]
    splits := [{ matIndex := 0, indices := [0, 1, 2] }]
    materialList := ["tex"] }


/-- One mesh (id 7) with three splits: the first and the third use the loaded texture
"tex", the texture of the second is not loaded. -/
def three_split_tables : BakedTables :=
  { item_definitions := [(7, sample_definition 7 "foo")]
    material_splits := [(7, [{ mat_name := "tex", num_indices := 3, material_idx := 0 },
                             { mat_name := "missing", num_indices := 3, material_idx := 1 },
                             { mat_name := "tex", num_indices := 6, material_idx := 2 }])]
    mesh_table := [(7, { id := 7, num_splits := 3, base_vertex := 40, offset := 100 })]
    named_textures := [("tex", { index := 0, bucket_key := 0x644 })]
    texture_buckets := [(0x644, { tex_array := [1], natives := [] })] }

/-- The `visible` flag of `add_item_definition_tobj` with the hour written in the
source as `RENDER_HOUR` left open. -/
def tobj_visible_at (hour : Int) (item : ItemDefinitionEntry) : Bool :=
  if item.time_off > item.time_on then
    decide (hour ≥ item.time_on ∧ hour < item.time_off) -- e.g. 5 - 20
  else
    !(decide (hour ≥ item.time_off ∧ hour < item.time_on)) -- e.g. 20 - 5

/-- In-range reads of the three lookups behind a bucket key. -/
def lookups_in_range (tex : NativeTexture) : Prop :=
  format_idx tex < NUM_TEX_GROUPS ∧ mip0 tex.width >>> 4 < 16 ∧ mip0 tex.height >>> 4 < 16

instance (tex : NativeTexture) : Decidable (lookups_in_range tex) := by
  unfold lookups_in_range
  infer_instance

/-- A 128 x 128 RASTER_8888 texture. -/
def wide_texture : NativeTexture :=
  plain_texture "wide" RASTER_8888 128 true

/-! ## Endianness transcoder (`main_ps3rebake.cpp`) -/

/-- `SWAP_ENDIANNESS_8BYTES(x)` on a `uint64_t`. -/
def SWAP_ENDIANNESS_8BYTES (x : Nat) : Nat :=
  (((x &&& 0x00000000000000FF) <<< 56)
    ||| ((x &&& 0x000000000000FF00) <<< 40)
    ||| ((x &&& 0x0000000000FF0000) <<< 24)
    ||| ((x &&& 0x00000000FF000000) <<< 8)
    ||| ((x &&& 0x000000FF00000000) >>> 8)
    ||| ((x &&& 0x0000FF0000000000) >>> 24)
    ||| ((x &&& 0x00FF000000000000) >>> 40)
    ||| ((x &&& 0xFF00000000000000) >>> 56)) % 2 ^ 64

/-- `SWAP_ENDIANNESS_4BYTES(x)` on a `uint32_t`. -/
def SWAP_ENDIANNESS_4BYTES (x : Nat) : Nat :=
  (((x &&& 0x000000FF) <<< 24)
    ||| ((x &&& 0x0000FF00) <<< 8)
    ||| ((x &&& 0x00FF0000) >>> 8)
    ||| ((x &&& 0xFF000000) >>> 24)) % 2 ^ 32

/-- The value of an object from its bytes in memory order (the host that runs the
tools is little-endian). -/
def of_le_bytes : List Nat → Nat
  | [] => 0
  | b :: bs => b % 256 + 256 * of_le_bytes bs

/-- The `n` bytes of an object of value `x` in memory order. -/
def le_bytes : Nat → Nat → List Nat
  | 0, _ => []
  | n + 1, x => x % 256 :: le_bytes n (x / 256)

/-- `fread` of up to `size` bytes into an object whose bytes are `obj`: the bytes the
stream still holds overwrite the object from its first byte on, the bytes the stream
cannot supply keep their value.  Returns the object's bytes and the rest of the
stream. -/
def fread_bytes (size : Nat) (obj : List Nat) (f : List Nat) : List Nat × List Nat :=
  (f.take size ++ obj.drop (f.take size).length, f.drop size)

/-- `fread(&x, sizeof(x), 1, f)` into an integer variable of `size` bytes that holds
`x` before the call. -/
def fread (size : Nat) (x : Nat) (f : List Nat) : Nat × List Nat :=
  (of_le_bytes (fread_bytes size (le_bytes size x) f).1, f.drop size)

/-- The seven `uint32_t` members of a `DrawCall` in declaration order. -/
def draw_call_words (dc : DrawCall) : List Nat :=
  [dc.texture_array, dc.tex_index, dc.index_offset, dc.num_vertices, dc.base_vertex,
    dc.num_instances, dc.base_instance]

/-- The 28 bytes of a `DrawCall` in memory. -/
def draw_call_bytes (dc : DrawCall) : List Nat :=
  ((draw_call_words dc).map (le_bytes 4)).flatten

/-- The `DrawCall` a 28-byte object holds. -/
def draw_call_of_bytes (b : List Nat) : DrawCall :=
  { texture_array := of_le_bytes (b.take 4)
    tex_index := of_le_bytes ((b.drop 4).take 4)
    index_offset := of_le_bytes ((b.drop 8).take 4)
    num_vertices := of_le_bytes ((b.drop 12).take 4)
    base_vertex := of_le_bytes ((b.drop 16).take 4)
    num_instances := of_le_bytes ((b.drop 20).take 4)
    base_instance := of_le_bytes ((b.drop 24).take 4) }

/-- The file "drawables.blob" as `main` of the baker writes it: the count, the keys
of `ordered_draw_calls` in map order, then the draw calls in map order. -/
def write_drawables (ordered_draw_calls : List (Nat × DrawCall)) : List Nat :=
  le_bytes 4 (ordered_draw_calls.length % 2 ^ 32)
    ++ (ordered_draw_calls.map fun pair => le_bytes 8 pair.1).flatten
    ++ (ordered_draw_calls.map fun pair => draw_call_bytes pair.2).flatten

/-- The loop "Read sort keys" of `rebake_drawables`, `n` iterations to go: the rest
of the input and the output. -/
def rebake_keys : Nat → List Nat → List Nat → List Nat × List Nat
  | 0, in_blob, out_blob => (in_blob, out_blob)
  | n + 1, in_blob, out_blob =>
    let key := fread 8 0xFFFFFFFF in_blob
    rebake_keys n key.2 (out_blob ++ le_bytes 8 (SWAP_ENDIANNESS_8BYTES key.1))

/-- The second loop of `rebake_drawables`, `n` iterations to go at iteration `i`.
`uninit i` is what the uninitialised local `dc` holds in iteration `i`. -/
def rebake_draw_calls (uninit : Nat → List Nat) :
    Nat → Nat → List Nat → List Nat → List Nat × List Nat
  | 0, _, in_blob, out_blob => (in_blob, out_blob)
  | n + 1, i, in_blob, out_blob =>
    let r := fread_bytes 28 ((uninit i).take 28) in_blob
    let dc := draw_call_of_bytes r.1
    -- Swap endianness
    let dc : DrawCall :=
      { texture_array := SWAP_ENDIANNESS_4BYTES dc.texture_array
        tex_index := SWAP_ENDIANNESS_4BYTES dc.tex_index
        index_offset := SWAP_ENDIANNESS_4BYTES dc.index_offset
        num_vertices := SWAP_ENDIANNESS_4BYTES dc.num_vertices
        base_vertex := SWAP_ENDIANNESS_4BYTES dc.base_vertex
        num_instances := SWAP_ENDIANNESS_4BYTES dc.num_instances
        base_instance := SWAP_ENDIANNESS_4BYTES dc.base_instance }
    rebake_draw_calls uninit n (i + 1) r.2 (out_blob ++ draw_call_bytes dc)

/-- `int rebake_drawables(out_filename, in_filename)` with both files open: the bytes
written to the output file. -/
def rebake_drawables (uninit : Nat → List Nat) (in_blob : List Nat) : List Nat :=
  -- Read file header
  let num_draw_calls := fread 4 0 in_blob
  let num_draw_calls2 := SWAP_ENDIANNESS_4BYTES num_draw_calls.1
  let out_blob := le_bytes 4 num_draw_calls2
  let keys := rebake_keys num_draw_calls.1 num_draw_calls.2 out_blob
  (rebake_draw_calls uninit num_draw_calls.1 0 keys.1 keys.2).2

/-- The inner loop of `rebake_instances` over `temp[0..15]`: each float is read into
its slot and its word swapped in place. -/
def read_floats : List Nat → List Nat → List Nat × List Nat
  | [], in_blob => ([], in_blob)
  | t :: temp, in_blob =>
    let v := fread 4 t in_blob
    let rest := read_floats temp v.2
    (SWAP_ENDIANNESS_4BYTES v.1 :: rest.1, rest.2)

/-- The transposition `temp2[4*r + c].f = temp[4*c + r].f` (a `float` assignment,
taken to copy the 32-bit pattern). -/
def transpose_matrix (temp : List Nat) : List Nat :=
  ((List.range 4).map fun r => (List.range 4).map fun c => temp.getD (4 * c + r) 0).flatten

/-- The matrix loop of `rebake_instances`, `n` iterations to go. -/
def rebake_matrices : Nat → List Nat → List Nat → List Nat → List Nat
  | 0, _, _, out_blob => out_blob
  | n + 1, temp, in_blob, out_blob =>
    let r := read_floats temp in_blob
    -- transpose the model matrix...
    let temp2 := transpose_matrix r.1
    rebake_matrices n temp2 r.2 (out_blob ++ (temp2.map (le_bytes 4)).flatten)

/-- `int rebake_instances(out_filename, in_filename)` with both files open: the bytes
written to the output file.  `uninit j` is what `temp[j]` holds before the loop. -/
def rebake_instances (uninit : Nat → Nat) (in_blob : List Nat) : List Nat :=
  -- Read file header
  let num_instances := fread 4 0 in_blob
  let num_instances2 := SWAP_ENDIANNESS_4BYTES num_instances.1
  rebake_matrices num_instances.1 ((List.range 16).map fun j => uninit j % 2 ^ 32)
    num_instances.2 (le_bytes 4 num_instances2)

/-- The layout of "instances.blob": the count, then 16 four-byte words per matrix
(the bit patterns of its floats). -/
def instances_blob (matrices : List (List Nat)) : List Nat :=
  le_bytes 4 (matrices.length % 2 ^ 32)
    ++ (matrices.map fun m => (m.map (le_bytes 4)).flatten).flatten

/-- One draw call under key 0x644030FFF07. -/
def sample_draw_calls : List (Nat × DrawCall) :=
  [(0x644030FFF07,
    { texture_array := 1, tex_index := 2, index_offset := 6, num_vertices := 300,
      base_vertex := 3, num_instances := 1, base_instance := 0x01020304 })]

/-- The bit patterns of a matrix whose entry at position p is p + 1. -/
def counting_matrix : List Nat := (List.range 16).map fun p => p + 1

/-- The `whence` values of `<stdio.h>`. -/
def SEEK_SET : Nat := 0

def SEEK_CUR : Nat := 1

def SEEK_END : Nat := 2

/-- An output stream that is also repositioned: its bytes and the file position. -/
structure OutFile where
  data : List Nat
  pos : Nat
  deriving DecidableEq

/-- `fwrite` of `bytes` at the file position. -/
def OutFile.write (out : OutFile) (bytes : List Nat) : OutFile :=
  { data := (out.data ++ List.replicate (out.pos - out.data.length) 0).take out.pos ++ bytes
      ++ out.data.drop (out.pos + bytes.length)
    pos := out.pos + bytes.length }

/-- `fseek(file, offset, whence)`: with a `whence` that is none of the three values
the call fails and the position stays. -/
def OutFile.fseek (out : OutFile) (offset : Nat) (whence : Nat) : OutFile :=
  if whence = SEEK_SET then { out with pos := offset }
  else if whence = SEEK_CUR then { out with pos := out.pos + offset }
  else if whence = SEEK_END then { out with pos := out.data.length + offset }
  else out

structure TextureBucketData where
  format : Nat
  width : Nat
  height : Nat
  layers : Nat
  size : Nat
  deriving DecidableEq

/-- The test of `assert(4 * tb.width * tb.height == tb.size)` in `uint32_t`. -/
def size_assertion (tb : TextureBucketData) : Bool :=
  (4 * tb.width * tb.height) % 2 ^ 32 == tb.size

/-- The loop `for (size_t j=0; j < num_pixels; j++)` of `rebake_textures`, `n`
iterations to go at pixel `j`.  `uninit j` is what the uninitialised array `rgba`
holds; `fread` fills its first three bytes. -/
def transcode_pixels (uninit : Nat → List Nat) :
    Nat → Nat → List Nat → OutFile → List Nat × OutFile
  | 0, _, in_blob, out_blob => (in_blob, out_blob)
  | n + 1, j, in_blob, out_blob =>
    let rgba := fread_bytes 3 ((uninit j).take 4) in_blob
    let out_blob := out_blob.write [rgba.1.getD 3 0] -- A
    let out_blob := out_blob.write [rgba.1.getD 2 0] -- B
    let out_blob := out_blob.write [rgba.1.getD 1 0] -- G
    let out_blob := out_blob.write [rgba.1.getD 0 0] -- R
    transcode_pixels uninit n (j + 1) rgba.2 out_blob

/-- The loop `for (size_t l=0; l < tb.layers; l++)`, `n` iterations to go at layer `l`. -/
def transcode_layers (uninit : Nat → Nat → List Nat) (num_pixels : Nat) :
    Nat → Nat → List Nat → OutFile → List Nat × OutFile
  | 0, _, in_blob, out_blob => (in_blob, out_blob)
  | n + 1, l, in_blob, out_blob =>
    let r := transcode_pixels (uninit l) num_pixels 0 in_blob out_blob
    transcode_layers uninit num_pixels n (l + 1) r.1 r.2

/-- What `rebake_textures` carries from one split to the next: both streams, the
struct `tb` declared before the loop and the bytes of `texture_storage_ptr`. -/
structure RebakeState where
  in_blob : List Nat
  out_blob : OutFile
  tb : TextureBucketData
  storage : List Nat

/-- The body of the split loop of `rebake_textures` (with `CONVERT_RGB_TO_RGBA`
defined, as it is in the source). -/
def rebake_texture_split (uninit : Nat → Nat → List Nat)
    (biggest_split_buffer biggest_split_offset : Nat) (st : RebakeState) :
    Except BakeError RebakeState :=
  let format := fread 4 st.tb.format st.in_blob
  let width := fread 4 st.tb.width format.2
  let height := fread 4 st.tb.height width.2
  let layers := fread 4 st.tb.layers height.2
  let size := fread 4 st.tb.size layers.2
  let tb : TextureBucketData :=
    { format := format.1, width := width.1, height := height.1, layers := layers.1,
      size := size.1 }
  -- Keep a copy of size before endianness conversion since its used after conversion!
  let orig_size := tb.size
  let transcode : Bool := decide (GL_RGB = tb.format)
  if transcode && !(size_assertion tb) then Except.error BakeError.assert_failed
  else
    let tb : TextureBucketData :=
      if transcode then
        { tb with format := GL_RGBA, size := (4 * tb.width * tb.height) % 2 ^ 32 }
      else tb
    let out_blob :=
      if transcode && decide (tb.size > biggest_split_buffer) then
        -- patch the size!
        let biggest_split_buffer2 := SWAP_ENDIANNESS_4BYTES tb.size
        let cur_pos := st.out_blob.pos
        let out_blob := st.out_blob.fseek SEEK_SET biggest_split_offset
        let out_blob := out_blob.write (le_bytes 4 biggest_split_buffer2)
        out_blob.fseek SEEK_SET cur_pos
      else st.out_blob
    let tb : TextureBucketData :=
      { format := SWAP_ENDIANNESS_4BYTES tb.format
        width := SWAP_ENDIANNESS_4BYTES tb.width
        height := SWAP_ENDIANNESS_4BYTES tb.height
        layers := SWAP_ENDIANNESS_4BYTES tb.layers
        size := SWAP_ENDIANNESS_4BYTES tb.size }
    let out_blob := out_blob.write (le_bytes 4 tb.format)
    let out_blob := out_blob.write (le_bytes 4 tb.width)
    let out_blob := out_blob.write (le_bytes 4 tb.height)
    let out_blob := out_blob.write (le_bytes 4 tb.layers)
    let out_blob := out_blob.write (le_bytes 4 tb.size)
    if transcode then
      let num_pixels := (tb.width * tb.height) % 2 ^ 32
      let r := transcode_layers uninit num_pixels tb.layers 0 size.2 out_blob
      Except.ok { in_blob := r.1, out_blob := r.2, tb := tb, storage := st.storage }
    else if orig_size > st.storage.length then
      Except.error BakeError.out_of_range -- read past the allocation
    else
      -- Read texture data to allocated memory
      let r := fread_bytes orig_size st.storage size.2
      Except.ok { in_blob := r.2, out_blob := out_blob.write (r.1.take orig_size), tb := tb,
                  storage := r.1 }

/-- The split loop of `rebake_textures`, `n` iterations to go. -/
def rebake_texture_splits (uninit : Nat → Nat → List Nat)
    (biggest_split_buffer biggest_split_offset : Nat) :
    Nat → RebakeState → Except BakeError RebakeState
  | 0, st => Except.ok st
  | n + 1, st =>
    match rebake_texture_split uninit biggest_split_buffer biggest_split_offset st with
    | Except.error e => Except.error e
    | Except.ok st1 =>
      rebake_texture_splits uninit biggest_split_buffer biggest_split_offset n st1

/-- `int rebake_textures(out_filename, in_filename)` with both files open: the bytes
of the output file, or the failed assertion.  `heap` gives what the `malloc`ed
storage holds, `uninit l j` what the array `rgba` holds at layer `l`, pixel `j`. -/
def rebake_textures (uninit : Nat → Nat → List Nat) (heap : Nat → Nat) (in_blob : List Nat) :
    Except BakeError (List Nat) :=
  -- Read the file header
  let num_texture_splits := fread 4 0 in_blob
  let biggest_split_buffer := fread 4 0 num_texture_splits.2
  let num_texture_splits2 := SWAP_ENDIANNESS_4BYTES num_texture_splits.1
  let biggest_split_buffer2 := SWAP_ENDIANNESS_4BYTES biggest_split_buffer.1
  let out_blob : OutFile := { data := [], pos := 0 }
  let out_blob := out_blob.write (le_bytes 4 num_texture_splits2)
  let out_blob := out_blob.write (le_bytes 4 biggest_split_buffer2)
  -- this is needed just in case when transcoded texture is bigger
  let biggest_split_offset := out_blob.pos - 4
  let storage := (List.range (2 * biggest_split_buffer.1)).map fun i => heap i % 256
  match rebake_texture_splits uninit biggest_split_buffer.1 biggest_split_offset
      num_texture_splits.1
      { in_blob := biggest_split_buffer.2, out_blob := out_blob
        tb := { format := 0, width := 0, height := 0, layers := 0, size := 0 }
        storage := storage } with
  | Except.error e => Except.error e
  | Except.ok st => Except.ok st.out_blob.data

/-- The bytes of one split record as `upload_textures` writes them. -/
def texture_split_bytes (s : TextureSplit) : List Nat :=
  le_bytes 4 s.format ++ le_bytes 4 s.width ++ le_bytes 4 s.height ++ le_bytes 4 s.layers
    ++ le_bytes 4 (u32_of_int s.byte_size) ++ s.data

/-- The bytes of "texturebuckets.blob". -/
def texture_blob_bytes (blob : TextureBlob) : List Nat :=
  le_bytes 4 blob.split_count ++ le_bytes 4 blob.max_split_bytes
    ++ (blob.splits.map texture_split_bytes).flatten

/-- One bucket holding one 16 x 16 RASTER_888 texture without alpha. -/
def rgb_buckets : List (Nat × TextureBucket) :=
  [(0x300, { tex_array := [], natives := [plain_texture "c" 0x0600 16 false] })]

/-- A blob with one GL_RGB split of one layer of 2 x 1 pixels, (10, 20, 30) and
(40, 50, 60), as the baker sizes it: 6 bytes. -/
def two_pixel_blob : TextureBlob :=
  { split_count := 1, max_split_bytes := 6
    splits := [{ format := GL_RGB, width := 2, height := 1, layers := 1, byte_size := 6
                 data := [10, 20, 30, 40, 50, 60] }] }

/-- The same split with the size field at 4 * width * height = 8. -/
def two_pixel_blob_sized_as_rgba : TextureBlob :=
  { split_count := 1, max_split_bytes := 8
    splits := [{ format := GL_RGB, width := 2, height := 1, layers := 1, byte_size := 8
                 data := [10, 20, 30, 40, 50, 60] }] }

/-! ## Renderer (`app_renderer.cpp`) -/

def UINT64_MAX : Nat := 2 ^ 64 - 1

/-- `const uint64_t TEXTURE_ARRAY_MASK = 0xFFFFF000000ULL;` -/
def TEXTURE_ARRAY_MASK : Nat := 0xFFFFF000000

/-- Represents single indirect draw call. -/
structure DrawElementsIndirectCommand where
  count : Nat
  instance_count : Nat
  first_index : Nat
  base_vertex : Nat
  base_instance : Nat
  deriving DecidableEq

structure MultiDrawCall where
  indirect_buffer : Nat
  indirect_offset : Nat
  indirect_count : Nat
  tex_array : Nat
  texid_offset : Nat
  deriving DecidableEq

/-- The locals of `post_load` and the global `multicalls`; `uploads` records the
`glBufferSubData` calls on the indirect buffer (byte offset and commands). -/
structure PostLoadState where
  prev_key : Nat
  texture_idx : List Nat
  texture_handles : List Nat
  call_args : List DrawElementsIndirectCommand
  indirect_offset : Nat
  texid_offset : Nat
  mdc : MultiDrawCall
  multicalls : List MultiDrawCall
  uploads : List (Nat × List DrawElementsIndirectCommand)
  deriving DecidableEq

/-- The body of the batching loop of `post_load` for one draw call.
`ssbo_alignment` is the value after `ssbo_alignment--`; `tex_handles` is the global
vector of bindless handles. -/
def post_load_step (has_bindless_textures has_shader_draw_params : Bool)
    (ssbo_alignment : Nat) (tex_handles : Nat → Nat) (st : PostLoadState)
    (draw_call_pair : Nat × DrawCall) : Except BakeError PostLoadState :=
  let dc := draw_call_pair.2
  let key := draw_call_pair.1
  let changes := key ^^^ st.prev_key
  -- If there is a change in texture array then we have to flush the batch and start a new one
  let flushed : Except BakeError PostLoadState :=
    if changes &&& TEXTURE_ARRAY_MASK ≠ 0 then
      let st1 : PostLoadState :=
        if ¬ st.call_args = [] then
          -- Upload MultiDraw arguments
          let mdc : MultiDrawCall :=
            { st.mdc with
              texid_offset := st.texid_offset
              indirect_count := st.call_args.length % 2 ^ 32
              indirect_offset := st.indirect_offset }
          let args_size := i32_of_int (20 * (st.call_args.length : Int))
          { st with
            mdc := mdc
            uploads := st.uploads ++ [(st.indirect_offset, st.call_args)]
            indirect_offset := u32_of_int ((st.indirect_offset : Int) + args_size)
            multicalls := st.multicalls ++ [mdc] }
        else st
      -- Start a new batch from scratch
      let texid_offset := (4 * st1.texture_idx.length) % 2 ^ 32
      let st2 : PostLoadState :=
        { st1 with
          prev_key := key
          mdc := { indirect_buffer := 0, indirect_offset := 0, indirect_count := 0,
                   tex_array := dc.texture_array, texid_offset := 0 }
          call_args := []
          texid_offset := texid_offset }
      -- Align the offset to meet the SSBO alignment requirements
      if !has_bindless_textures then
        let aligned_offset :=
          ((texid_offset + ssbo_alignment) % 2 ^ 32) &&& ((2 ^ 32 - 1) ^^^ (ssbo_alignment % 2 ^ 32))
        let padding := (aligned_offset + 2 ^ 32 - texid_offset) % 2 ^ 32
        if padding % 4 ≠ 0 then Except.error BakeError.assert_failed
        else
          Except.ok { st2 with
            texture_idx := st2.texture_idx ++ List.replicate (padding / 4) 0
            texid_offset := aligned_offset }
      else Except.ok st2
    else Except.ok st
  match flushed with
  | Except.error e => Except.error e
  | Except.ok st3 =>
    let cmd : DrawElementsIndirectCommand :=
      { count := dc.num_vertices
        instance_count := dc.num_instances
        first_index := dc.index_offset / 2 -- firstIndex = indexOffset / sizeofType
        base_vertex := dc.base_vertex
        base_instance := dc.base_instance }
    Except.ok { st3 with
      texture_idx :=
        if has_shader_draw_params then st3.texture_idx ++ [dc.tex_index] else st3.texture_idx
      texture_handles :=
        if has_bindless_textures then st3.texture_handles ++ [tex_handles dc.texture_array]
        else st3.texture_handles
      call_args := st3.call_args ++ [cmd] }

/-- The loop `for (const auto &draw_call_pair : ordered_draw_calls)` of `post_load`. -/
def post_load_loop (has_bindless_textures has_shader_draw_params : Bool)
    (ssbo_alignment : Nat) (tex_handles : Nat → Nat) :
    PostLoadState → List (Nat × DrawCall) → Except BakeError PostLoadState
  | st, [] => Except.ok st
  | st, pair :: rest =>
    match post_load_step has_bindless_textures has_shader_draw_params ssbo_alignment
        tex_handles st pair with
    | Except.error e => Except.error e
    | Except.ok st1 =>
      post_load_loop has_bindless_textures has_shader_draw_params ssbo_alignment tex_handles
        st1 rest

/-- `int post_load()` from the declaration of `prev_key` on: the locals and
`multicalls` when the function returns. -/
def post_load (has_multi_draw_indirect has_bindless_textures has_shader_draw_params : Bool)
    (ssbo_alignment : Nat) (tex_handles : Nat → Nat)
    (ordered_draw_calls : List (Nat × DrawCall)) : Except BakeError PostLoadState :=
  let st : PostLoadState :=
    { prev_key := UINT64_MAX, texture_idx := [], texture_handles := [], call_args := []
      indirect_offset := 0, texid_offset := 0
      mdc := { indirect_buffer := 0, indirect_offset := 0, indirect_count := 0, tex_array := 0,
               texid_offset := 0 }
      multicalls := [], uploads := [] }
  if has_multi_draw_indirect && has_shader_draw_params then
    -- Batch the hell out of those instanced draw calls...
    post_load_loop has_bindless_textures has_shader_draw_params ssbo_alignment tex_handles st
      ordered_draw_calls
  else Except.ok st

/-- The calls `render` makes in its multi-draw path without bindless textures: one
(texture array bound, indirect offset, indirect count) per entry of `multicalls`. -/
def render_multicalls (multicalls : List MultiDrawCall) : List (Nat × Nat × Nat) :=
  multicalls.map fun mdc => (mdc.tex_array, mdc.indirect_offset, mdc.indirect_count)

/-- A draw call of texture array `tex_array` that draws `n` vertices. -/
def sample_draw_call (tex_array n : Nat) : DrawCall :=
  { texture_array := tex_array, tex_index := 0, index_offset := 0, num_vertices := n,
    base_vertex := 0, num_instances := 1, base_instance := 0 }

/-- Three draw calls in key order: two of bucket 0x300 slice 0 (texture array 1), one
of bucket 0x644 slice 0 (texture array 2). -/
def three_draw_calls : List (Nat × DrawCall) :=
  [(sort_key 0x300 0 1 0, sample_draw_call 1 3), (sort_key 0x300 0 2 0, sample_draw_call 1 6),
   (sort_key 0x644 0 3 0, sample_draw_call 2 9)]

/-- The calls the fallback path of `render` makes for the draw calls. -/
inductive GlCommand where
  | bind_texture (tex_array : Nat)
  | uniform_tex_index (tex_index : Nat)
  | draw (dc : DrawCall)
  deriving DecidableEq

/-- The loop of the fallback path of `render`, `previous_key` being the local of that
name. -/
def render_fallback_loop : Nat → List (Nat × DrawCall) → List GlCommand
  | _, [] => []
  | previous_key, draw_call_pair :: rest =>
    let dc := draw_call_pair.2
    let key := draw_call_pair.1
    let changes := key ^^^ previous_key
    if changes &&& TEXTURE_ARRAY_MASK ≠ 0 then
      GlCommand.bind_texture dc.texture_array :: GlCommand.uniform_tex_index dc.tex_index
        :: GlCommand.draw dc :: render_fallback_loop key rest
    else
      GlCommand.uniform_tex_index dc.tex_index :: GlCommand.draw dc
        :: render_fallback_loop previous_key rest

/-- The outcome of the test `changes & TEXTURE_ARRAY_MASK` at each key, in the loops
of `post_load` and `render`: on a change the previous key becomes the current one. -/
def state_change_flags : Nat → List Nat → List Bool
  | _, [] => []
  | previous_key, key :: rest =>
    if (key ^^^ previous_key) &&& TEXTURE_ARRAY_MASK ≠ 0 then
      true :: state_change_flags key rest
    else false :: state_change_flags previous_key rest

def GlCommand.is_bind : GlCommand → Bool
  | GlCommand.bind_texture _ => true
  | _ => false

/-- The number of `glBindTexture` calls of one frame on the fallback path. -/
def texture_switches (ordered_draw_calls : List (Nat × DrawCall)) : Nat :=
  ((render_fallback_loop UINT64_MAX ordered_draw_calls).filter GlCommand.is_bind).length

/-- The (bucket key, slice index) fields of a sort key. -/
def texture_pair (key : Nat) : Nat × Nat := ((key >>> 32) &&& 0xFFF, (key >>> 24) &&& 0xFF)

/-- Bits 24..43 of a key as one number. -/
def pair_code (key : Nat) : Nat := (key >>> 24) % 2 ^ 20

/-- The assignments `ordered_draw_calls[sort_key] = dc` the inner batching loop makes
for one instance, in loop order (the loop of `batch_splits` with the writes listed
instead of applied). -/
def emitted_draw_calls (named_textures : List (String × TextureRef))
    (texture_buckets : List (Nat × TextureBucket)) (def_id : Int) (mesh : MeshTableEntry)
    (inst : Instance) : List MaterialSplit → Nat → Int → List (Nat × DrawCall)
  | [], _, _ => []
  | batch :: rest, mat_split_idx, offset =>
    match resolve_split named_textures texture_buckets batch with
    | none => -- skip not present materials / textures
      emitted_draw_calls named_textures texture_buckets def_id mesh inst rest
        (mat_split_idx + 1) offset
    | some (ref, bucket) =>
      let slice_index := (ref.index / MAX_ARRAY_TEXTURE_LAYERS) % 2 ^ 16
      let texture_id := (ref.index % MAX_ARRAY_TEXTURE_LAYERS) % 2 ^ 16
      let key := sort_key ref.bucket_key slice_index def_id mat_split_idx
      let dc : DrawCall :=
        { texture_array := bucket.tex_array.getD slice_index 0
          tex_index := texture_id
          num_instances := inst.num_instances
          base_instance := inst.base_instance
          num_vertices := batch.num_indices
          base_vertex := mesh.base_vertex
          index_offset := u32_of_int ((mesh.offset : Int) + offset) }
      (key, dc) :: emitted_draw_calls named_textures texture_buckets def_id mesh inst rest
        (mat_split_idx + 1) (i32_of_int (offset + (batch.num_indices : Int) * 2))

/-- The byte range of the index buffer a draw call of the mesh may read: it starts
at an even offset at or after the mesh and ends within the `total` indices of the
mesh. -/
def index_range_ok (mesh : MeshTableEntry) (total : Nat) (dc : DrawCall) : Prop :=
  mesh.offset ≤ dc.index_offset ∧ dc.index_offset % 2 = 0
    ∧ dc.index_offset + 2 * dc.num_vertices ≤ mesh.offset + 2 * total

instance (mesh : MeshTableEntry) (total : Nat) (dc : DrawCall) :
    Decidable (index_range_ok mesh total dc) := by
  unfold index_range_ok
  infer_instance

/-- The tables after baking the triangle under id 5 and then under id 7, with the
texture "tex" loaded into bucket 0x644. -/
def baked_triangle_tables : BakedTables :=
  { item_definitions := [(7, sample_definition 7 "foo")]
    material_splits :=
      (bake_geometry 7 sample_geometry (bake_geometry 5 sample_geometry MeshState.empty)).material_splits
    mesh_table :=
      (bake_geometry 7 sample_geometry (bake_geometry 5 sample_geometry MeshState.empty)).mesh_table
    named_textures := [("tex", { index := 0, bucket_key := 0x644 })]
    texture_buckets := [(0x644, { tex_array := [1], natives := [] })] }

/-- The facts about glm (an external library) the scenario of an identity rotation
rests on, each exact in IEEE arithmetic: normalising the unit quaternion (0, 0, 0, 1)
returns it, its Euler angles are zero, negating zero gives zero, a rotation by angle
zero about a coordinate axis leaves the identity, multiplying a matrix of finite
entries by the identity on the right returns it, and translating the identity by a
finite vector writes the vector into the last column. -/
def glm_exact_on_identity (glm : Glm) : Prop :=
  glm.normalize ⟨F32.fin 0, F32.fin 0, F32.fin 0, F32.fin 1⟩
      = ⟨F32.fin 0, F32.fin 0, F32.fin 0, F32.fin 1⟩
    ∧ glm.eulerAngles ⟨F32.fin 0, F32.fin 0, F32.fin 0, F32.fin 1⟩
      = ⟨F32.fin 0, F32.fin 0, F32.fin 0⟩
    ∧ glm.neg (F32.fin 0) = F32.fin 0
    ∧ glm.identity
      = [F32.fin 1, F32.fin 0, F32.fin 0, F32.fin 0, F32.fin 0, F32.fin 1, F32.fin 0, F32.fin 0,
         F32.fin 0, F32.fin 0, F32.fin 1, F32.fin 0, F32.fin 0, F32.fin 0, F32.fin 0, F32.fin 1]
    ∧ glm.rotate glm.identity (F32.fin 0) ⟨F32.fin 1, F32.fin 0, F32.fin 0⟩ = glm.identity
    ∧ glm.rotate glm.identity (F32.fin 0) ⟨F32.fin 0, F32.fin 1, F32.fin 0⟩ = glm.identity
    ∧ glm.rotate glm.identity (F32.fin 0) ⟨F32.fin 0, F32.fin 0, F32.fin 1⟩ = glm.identity
    ∧ (∀ m : Mat4, (∀ e ∈ m, ∃ q : ℚ, e = F32.fin q) → glm.mul m glm.identity = m)
    ∧ (∀ x y z : ℚ, glm.translate glm.identity ⟨F32.fin x, F32.fin y, F32.fin z⟩
        = [F32.fin 1, F32.fin 0, F32.fin 0, F32.fin 0, F32.fin 0, F32.fin 1, F32.fin 0, F32.fin 0,
           F32.fin 0, F32.fin 0, F32.fin 1, F32.fin 0, F32.fin x, F32.fin y, F32.fin z,
           F32.fin 1])

/-- The placement line of the scenario in the 13-field layout: id 5, model "foo",
interior 0, position (1, 2, 3), scale (1, 1, 1), rotation (0, 0, 0, 1). -/
def scenario_line : IplLine :=
  { buf := "5, foo, 0, 1, 2, 3, 1, 1, 1, 0, 0, 0, 1\n"
    scan13 := (13, sample_placement 5 "foo" (List.replicate 16 (F32.fin 0)))
    scan12 := (12, { zero_placement with
                     id := 5, model_name := "foo"
                     position := ⟨F32.fin 0, F32.fin 1, F32.fin 2⟩
                     scale := ⟨F32.fin 3, F32.fin 1, F32.fin 1⟩
                     rotation := ⟨F32.fin 1, F32.fin 0, F32.fin 0, F32.fin 0⟩ }) }

/-- The IPL file of the scenario. -/
def scenario_ipl : List IplLine := [text_line "inst\n", scenario_line, text_line "end\n"]

/-- The catalog of the scenario after its one OBJS line. -/
def scenario_catalog : Catalog :=
  (add_item_definition_objs Catalog.empty (sample_definition 5 "foo")).2

/-! ## Sort key: arithmetic form -/

theorem and_0xFFF (x : Nat) : x &&& 0xFFF = x % 2 ^ 12 := Nat.and_pow_two_sub_one_eq_mod x 12

theorem and_0xFF (x : Nat) : x &&& 0xFF = x % 2 ^ 8 := Nat.and_pow_two_sub_one_eq_mod x 8

/-- The sort key as a sum: the four masked fields occupy disjoint bit ranges. -/
theorem sort_key_eq_sum (b s : Nat) (d : Int) (m : Nat) :
    sort_key b s d m
      = 2 ^ 32 * (b % 2 ^ 12)
        + (2 ^ 24 * (s % 2 ^ 8) + (2 ^ 8 * (u64_of_int d % 2 ^ 12) + m % 2 ^ 8)) := by
  unfold sort_key
  rw [and_0xFFF, and_0xFFF, and_0xFF, and_0xFF, Nat.zero_or]
  simp only [Nat.shiftLeft_eq]
  have hm : m % 2 ^ 8 < 2 ^ 8 := Nat.mod_lt _ (by norm_num)
  have hd : u64_of_int d % 2 ^ 12 < 2 ^ 12 := Nat.mod_lt _ (by norm_num)
  have hs : s % 2 ^ 8 < 2 ^ 8 := Nat.mod_lt _ (by norm_num)
  have h1 : 2 ^ 8 * (u64_of_int d % 2 ^ 12) + m % 2 ^ 8 < 2 ^ 24 := by omega
  have h2 : 2 ^ 24 * (s % 2 ^ 8) + (2 ^ 8 * (u64_of_int d % 2 ^ 12) + m % 2 ^ 8) < 2 ^ 32 := by
    omega
  rw [Nat.mul_add_lt_is_or h2, Nat.mul_add_lt_is_or h1, Nat.mul_add_lt_is_or hm]
  simp only [Nat.mul_comm, Nat.or_assoc]

theorem u64_of_int_of_nonneg (d : Int) (h0 : 0 ≤ d) (h1 : d < 2 ^ 12) :
    u64_of_int d = d.toNat := by
  unfold u64_of_int
  congr 1
  omega

/-- With in-range fields the key is the plain positional sum. -/
theorem sort_key_of_bounded (b s : Nat) (d : Int) (m : Nat)
    (hb : b < 2 ^ 12) (hs : s < 2 ^ 8) (hd0 : 0 ≤ d) (hd : d < 2 ^ 12) (hm : m < 2 ^ 8) :
    sort_key b s d m = 2 ^ 32 * b + 2 ^ 24 * s + 2 ^ 8 * d.toNat + m := by
  rw [sort_key_eq_sum, u64_of_int_of_nonneg d hd0 hd]
  have : d.toNat < 2 ^ 12 := by omega
  rw [Nat.mod_eq_of_lt hb, Nat.mod_eq_of_lt hs, Nat.mod_eq_of_lt this, Nat.mod_eq_of_lt hm]
  omega

/-- With in-range fields the masks are the identity. -/
theorem sort_key_of_bounded_or (b s : Nat) (d : Int) (m : Nat)
    (hb : b < 2 ^ 12) (hs : s < 2 ^ 8) (hd0 : 0 ≤ d) (hd : d < 2 ^ 12) (hm : m < 2 ^ 8) :
    sort_key b s d m = (b <<< 32) ||| (s <<< 24) ||| (d.toNat <<< 8) ||| m := by
  unfold sort_key
  have : d.toNat < 2 ^ 12 := by omega
  rw [and_0xFFF, and_0xFFF, and_0xFF, and_0xFF, Nat.zero_or, u64_of_int_of_nonneg d hd0 hd,
    Nat.mod_eq_of_lt hb, Nat.mod_eq_of_lt hs, Nat.mod_eq_of_lt this, Nat.mod_eq_of_lt hm]

theorem testBit_false_of_lt (x n i : Nat) (hx : x < 2 ^ n) (hi : n ≤ i) :
    x.testBit i = false :=
  Nat.testBit_lt_two_pow (Nat.lt_of_lt_of_le hx (Nat.pow_le_pow_right (by norm_num) hi))

/-- Bit `i` of the key of in-range fields. -/
theorem sort_key_testBit (b s : Nat) (d : Int) (m : Nat)
    (hb : b < 2 ^ 12) (hs : s < 2 ^ 8) (hd : 0 ≤ d ∧ d < 2 ^ 12) (hm : m < 2 ^ 8) (i : Nat) :
    (sort_key b s d m).testBit i =
      if i < 8 then m.testBit i
      else if i < 20 then d.toNat.testBit (i - 8)
      else if i < 24 then false
      else if i < 32 then s.testBit (i - 24)
      else if i < 44 then b.testBit (i - 32)
      else false := by
  have hdn : d.toNat < 2 ^ 12 := by omega
  rw [sort_key_of_bounded_or b s d m hb hs hd.1 hd.2 hm]
  simp only [Nat.testBit_or, Nat.testBit_shiftLeft]
  by_cases h8 : i < 8
  · have e1 : ¬ (i ≥ 32) := by omega
    have e2 : ¬ (i ≥ 24) := by omega
    have e3 : ¬ (i ≥ 8) := by omega
    simp [h8, e1, e2, e3]
  · rw [if_neg h8, testBit_false_of_lt m 8 i hm (by omega)]
    by_cases h20 : i < 20
    · have e1 : ¬ (i ≥ 32) := by omega
      have e2 : ¬ (i ≥ 24) := by omega
      have e3 : (i ≥ 8) := by omega
      simp [h20, e1, e2, e3]
    · rw [if_neg h20, testBit_false_of_lt d.toNat 12 (i - 8) hdn (by omega)]
      by_cases h24 : i < 24
      · have e1 : ¬ (i ≥ 32) := by omega
        have e2 : ¬ (i ≥ 24) := by omega
        simp [h24, e1, e2]
      · rw [if_neg h24]
        by_cases h32 : i < 32
        · have e1 : ¬ (i ≥ 32) := by omega
          have e2 : (i ≥ 24) := by omega
          simp [h32, e1, e2]
        · rw [if_neg h32, testBit_false_of_lt s 8 (i - 24) hs (by omega)]
          by_cases h44 : i < 44
          · have e1 : (i ≥ 32) := by omega
            simp [h44, e1]
          · rw [if_neg h44, testBit_false_of_lt b 12 (i - 32) hb (by omega)]
            simp

/-! ## C1, C2: the sort key orders and packs its four fields -/

/-- C1: for in-range fields (bucket key < 2^12, slice < 2^8, 0 <= definition id < 2^12,
split index < 2^8) the sort key is strictly monotone in the lexicographic order of
(bucket key, slice, definition id, split index): key a < key b iff tuple a precedes
tuple b.  In particular a smaller bucket key gives a smaller sort key whatever the
other three fields are (here even for out-of-range values of those fields). -/
theorem sort_key_lex_monotone (b1 s1 : Nat) (d1 : Int) (m1 : Nat) (b2 s2 : Nat) (d2 : Int)
    (m2 : Nat)
    (hb1 : b1 < 2 ^ 12) (hs1 : s1 < 2 ^ 8) (hd1 : 0 ≤ d1 ∧ d1 < 2 ^ 12) (hm1 : m1 < 2 ^ 8)
    (hb2 : b2 < 2 ^ 12) (hs2 : s2 < 2 ^ 8) (hd2 : 0 ≤ d2 ∧ d2 < 2 ^ 12) (hm2 : m2 < 2 ^ 8) :
    (sort_key b1 s1 d1 m1 < sort_key b2 s2 d2 m2 ↔
      (b1 < b2 ∨ (b1 = b2 ∧ (s1 < s2 ∨ (s1 = s2 ∧ (d1 < d2 ∨ (d1 = d2 ∧ m1 < m2)))))))
    ∧ (b1 < b2 → ∀ (t1 t2 : Nat) (e1 e2 : Int) (n1 n2 : Nat),
        sort_key b1 t1 e1 n1 < sort_key b2 t2 e2 n2) := by
  constructor
  · rw [sort_key_of_bounded b1 s1 d1 m1 hb1 hs1 hd1.1 hd1.2 hm1,
      sort_key_of_bounded b2 s2 d2 m2 hb2 hs2 hd2.1 hd2.2 hm2]
    omega
  · intro hlt t1 t2 e1 e2 n1 n2
    rw [sort_key_eq_sum, sort_key_eq_sum, Nat.mod_eq_of_lt hb1, Nat.mod_eq_of_lt hb2]
    omega

/-- C1 at (1, 200, 4000, 255) and (2, 0, 0, 0): the smaller bucket key sorts first
although every other field is larger. -/
theorem sort_key_lex_monotone_witness :
    sort_key 1 200 4000 255 < sort_key 2 0 0 0
      ∧ ¬ (sort_key 2 0 0 0 < sort_key 1 200 4000 255) :=
  ⟨(sort_key_lex_monotone 1 200 4000 255 2 0 0 0 (by decide) (by decide) (by decide)
      (by decide) (by decide) (by decide) (by decide) (by decide)).1.2 (Or.inl (by decide)),
    fun h => absurd ((sort_key_lex_monotone 2 0 0 0 1 200 4000 255 (by decide) (by decide)
      (by decide) (by decide) (by decide) (by decide) (by decide) (by decide)).1.1 h)
      (by decide)⟩

/-- C2: for in-range fields the sort key has bits 32..43 equal to the bucket key,
bits 24..31 equal to the slice index, bits 8..19 equal to the definition id, bits 0..7
equal to the split index and every other bit zero; extracting those bit ranges
recovers the four fields. -/
theorem sort_key_bit_layout (b s : Nat) (d : Int) (m : Nat)
    (hb : b < 2 ^ 12) (hs : s < 2 ^ 8) (hd : 0 ≤ d ∧ d < 2 ^ 12) (hm : m < 2 ^ 8) :
    (∀ i : Nat, (sort_key b s d m).testBit i =
      if i < 8 then m.testBit i
      else if i < 20 then d.toNat.testBit (i - 8)
      else if i < 24 then false
      else if i < 32 then s.testBit (i - 24)
      else if i < 44 then b.testBit (i - 32)
      else false)
    ∧ (sort_key b s d m >>> 32) &&& 0xFFF = b
    ∧ (sort_key b s d m >>> 24) &&& 0xFF = s
    ∧ (((sort_key b s d m >>> 8) &&& 0xFFF : Nat) : Int) = d
    ∧ sort_key b s d m &&& 0xFF = m := by
  refine ⟨sort_key_testBit b s d m hb hs hd hm, ?_⟩
  rw [sort_key_of_bounded b s d m hb hs hd.1 hd.2 hm]
  simp only [and_0xFFF, and_0xFF, Nat.shiftRight_eq_div_pow]
  omega

/-- C2 at bucket 0x644, slice 3, definition id 4095, split 7. -/
theorem sort_key_bit_layout_witness :
    sort_key 0x644 3 4095 7 = 0x644030FFF07
      ∧ (sort_key 0x644 3 4095 7 >>> 32) &&& 0xFFF = 0x644
      ∧ (sort_key 0x644 3 4095 7 >>> 24) &&& 0xFF = 3
      ∧ (((sort_key 0x644 3 4095 7 >>> 8) &&& 0xFFF : Nat) : Int) = 4095
      ∧ sort_key 0x644 3 4095 7 &&& 0xFF = 7 :=
  ⟨by decide,
    (sort_key_bit_layout 0x644 3 4095 7 (by decide) (by decide) (by decide) (by decide)).2⟩

/-! ## C3, C4: the batching loop -/

/-- C3: two distinct definition ids within the documented bound of 6500 (1 and 4097)
give the same sort key whenever bucket key, slice index and split index are equal,
because the id is truncated to 12 bits; batching two such instances, each with one
resolved split, the second draw call overwrites the first: one draw call is stored
for two resolved splits. -/
theorem definition_id_collision :
    ∃ id1 id2 : Int, id1 ≠ id2 ∧ 0 ≤ id1 ∧ id1 ≤ 6500 ∧ 0 ≤ id2 ∧ id2 ≤ 6500
      ∧ (∀ b s m : Nat, sort_key b s id1 m = sort_key b s id2 m)
      ∧ ((build_instances collision_placements).1.map (fun i => i.id) = [id1, id2]
        ∧ resolved_split_count collision_tables (build_instances collision_placements).1 = 2
        ∧ batch_draw_calls collision_tables (build_instances collision_placements).1 []
            = [(sort_key 0x644 0 id2 0,
                { texture_array := 1, tex_index := 0, index_offset := 6, num_vertices := 6,
                  base_vertex := 3, num_instances := 1, base_instance := 1 })]
        ∧ (batch_draw_calls collision_tables (build_instances collision_placements).1 []).length
            < resolved_split_count collision_tables (build_instances collision_placements).1) := by
  refine ⟨1, 4097, by decide, by decide, by decide, by decide, by decide, ?_, by decide,
    by decide, by decide, by decide⟩
  intro b s m
  rw [sort_key_eq_sum, sort_key_eq_sum]
  have h : u64_of_int 4097 % 2 ^ 12 = u64_of_int 1 % 2 ^ 12 := by decide
  rw [h]

/-- C4 (evaluation at the failing input): a mesh at byte offset 100 whose first split
(3 indices) has an unloaded texture and whose second split resolves.  The loop emits
the draw call of the second split with index_offset 100, the mesh offset itself: the
`continue` of the skipped split bypassed the advance of the running offset.  The value
mesh.offset + 2 * (indices of the earlier splits) is 106. -/
theorem skipped_split_offset_not_advanced :
    batch_draw_calls skipped_split_tables [{ id := 7, num_instances := 1, base_instance := 0 }] []
      = [(sort_key 0x644 0 7 1,
          { texture_array := 1, tex_index := 0, index_offset := 100, num_vertices := 3,
            base_vertex := 0, num_instances := 1, base_instance := 0 })]
    ∧ (mesh_of skipped_split_tables.mesh_table 7).offset
        + 2 * (((mesh_splits_of skipped_split_tables.material_splits 7).take 1).map
            (fun b => b.num_indices)).sum = 106 := by
  constructor <;> decide

/-! ## C5: the instance buffer -/

theorem fill_instance_buffer_eq (m : List (Int × List ItemPlacementEntry)) :
    ∀ (instances : List Instance) (xforms : List Mat4),
      fill_instance_buffer m instances xforms
        = (instances ++ instances_from m xforms.length, xforms ++ spec_transform_array m) := by
  induction m with
  | nil => intro instances xforms; simp [fill_instance_buffer, instances_from, spec_transform_array]
  | cons p rest ih =>
    intro instances xforms
    obtain ⟨id, ps⟩ := p
    simp [fill_instance_buffer, instances_from, spec_transform_array, ih]

theorem spec_transform_array_length (m : List (Int × List ItemPlacementEntry)) :
    (spec_transform_array m).length = total_placements m := by
  induction m with
  | nil => rfl
  | cons p rest ih =>
    obtain ⟨id, ps⟩ := p
    simp [spec_transform_array, total_placements, ih]

theorem spec_base_instance_of_lt_all (rest : List (Int × List ItemPlacementEntry)) (id : Int)
    (h : ∀ p ∈ rest, id < p.1) : spec_base_instance rest id = 0 := by
  induction rest with
  | nil => rfl
  | cons p rest ih =>
    obtain ⟨k, ps⟩ := p
    have hk : id < k := h (k, ps) (List.mem_cons_self _ _)
    have hnot : ¬ (k < id) := by omega
    simp only [spec_base_instance, if_neg hnot, Nat.zero_add]
    exact ih (fun p hp => h p (List.mem_cons_of_mem _ hp))

theorem spec_base_instance_add_le (m : List (Int × List ItemPlacementEntry))
    (hsorted : m.Pairwise (fun a b => a.1 < b.1)) (id : Int) (ps : List ItemPlacementEntry)
    (hmem : (id, ps) ∈ m) : spec_base_instance m id + ps.length ≤ total_placements m := by
  induction m with
  | nil => cases hmem
  | cons p rest ih =>
    obtain ⟨k, qs⟩ := p
    rw [List.pairwise_cons] at hsorted
    simp only [spec_base_instance, total_placements]
    rcases List.mem_cons.mp hmem with heq | hin
    · have h1 : id = k := congrArg Prod.fst heq
      have h2 : ps = qs := congrArg Prod.snd heq
      subst h1; subst h2
      rw [spec_base_instance_of_lt_all rest id (fun p hp => hsorted.1 p hp)]
      simp
    · have := ih hsorted.2 hin
      split <;> omega

theorem instances_from_eq_map (m : List (Int × List ItemPlacementEntry))
    (hsorted : m.Pairwise (fun a b => a.1 < b.1)) :
    ∀ base : Nat, instances_from m base
      = m.map (fun p =>
          ({ id := p.1
             num_instances := p.2.length % 2 ^ 32
             base_instance := (base + spec_base_instance m p.1) % 2 ^ 32 } : Instance)) := by
  induction m with
  | nil => intro base; rfl
  | cons p rest ih =>
    intro base
    obtain ⟨k, qs⟩ := p
    rw [List.pairwise_cons] at hsorted
    have hk : ¬ (k < k) := by omega
    simp only [instances_from, List.map_cons, spec_base_instance, if_neg hk, Nat.zero_add]
    rw [spec_base_instance_of_lt_all rest k (fun p hp => hsorted.1 p hp), ih hsorted.2]
    simp only [Nat.add_zero, List.cons.injEq, true_and]
    apply List.map_congr_left
    intro p hp
    have hlt : k < p.1 := hsorted.1 p hp
    simp only [if_pos hlt, Nat.add_assoc]

theorem spec_transform_array_slice (m : List (Int × List ItemPlacementEntry))
    (hsorted : m.Pairwise (fun a b => a.1 < b.1)) (id : Int) (ps : List ItemPlacementEntry)
    (hmem : (id, ps) ∈ m) :
    ((spec_transform_array m).drop (spec_base_instance m id)).take ps.length
      = ps.map (fun ipl => ipl.world_from_object) := by
  induction m with
  | nil => cases hmem
  | cons p rest ih =>
    obtain ⟨k, qs⟩ := p
    rw [List.pairwise_cons] at hsorted
    simp only [spec_base_instance, spec_transform_array]
    rcases List.mem_cons.mp hmem with heq | hin
    · have h1 : id = k := congrArg Prod.fst heq
      have h2 : ps = qs := congrArg Prod.snd heq
      subst h1; subst h2
      have hk : ¬ (id < id) := by omega
      rw [spec_base_instance_of_lt_all rest id (fun p hp => hsorted.1 p hp), if_neg hk]
      simp only [Nat.add_zero, List.drop_zero]
      exact List.take_left' (by simp)
    · have hlt : k < id := hsorted.1 (id, ps) hin
      rw [if_pos hlt]
      have hlen : qs.length = (qs.map (fun ipl => ipl.world_from_object)).length := by simp
      rw [hlen, List.drop_append]
      exact ih hsorted.2 hin

theorem mem_map_set {V : Type} (m : List (Int × V)) (key : Int) (v : V) (p : Int × V)
    (hp : p ∈ map_set m key v) : p = (key, v) ∨ p ∈ m := by
  induction m with
  | nil => simpa [map_set] using hp
  | cons q rest ih =>
    obtain ⟨k, w⟩ := q
    unfold map_set at hp
    split at hp
    · rcases List.mem_cons.mp hp with h | h
      · exact Or.inl h
      · exact Or.inr h
    · split at hp
      · rcases List.mem_cons.mp hp with h | h
        · rename_i hk
          exact Or.inl (by rw [h, hk])
        · exact Or.inr (List.mem_cons_of_mem _ h)
      · rcases List.mem_cons.mp hp with h | h
        · exact Or.inr (by rw [h]; exact List.mem_cons_self _ _)
        · rcases ih h with h2 | h2
          · exact Or.inl h2
          · exact Or.inr (List.mem_cons_of_mem _ h2)

theorem map_set_sorted {V : Type} (m : List (Int × V)) (key : Int) (v : V)
    (hsorted : m.Pairwise (fun a b => a.1 < b.1)) :
    (map_set m key v).Pairwise (fun a b => a.1 < b.1) := by
  induction m with
  | nil => simp [map_set]
  | cons q rest ih =>
    obtain ⟨k, w⟩ := q
    have hs := List.pairwise_cons.mp hsorted
    unfold map_set
    split
    · rename_i hlt
      refine List.pairwise_cons.mpr ⟨?_, hsorted⟩
      intro p hp
      rcases List.mem_cons.mp hp with h | h
      · rw [h]; exact hlt
      · exact Int.lt_trans hlt (hs.1 p h)
    · split
      · exact List.pairwise_cons.mpr ⟨hs.1, hs.2⟩
      · rename_i h1 h2
        refine List.pairwise_cons.mpr ⟨?_, ih hs.2⟩
        intro p hp
        rcases mem_map_set rest key v p hp with h | h
        · rw [h]; show k < key; omega
        · exact hs.1 p h

theorem map_push_back_sorted {V : Type} (m : List (Int × List V)) (key : Int) (x : V)
    (hsorted : m.Pairwise (fun a b => a.1 < b.1)) :
    (map_push_back m key x).Pairwise (fun a b => a.1 < b.1) := by
  unfold map_push_back
  split <;> exact map_set_sorted m key _ hsorted

theorem map_push_back_nonempty {V : Type} (m : List (Int × List V)) (key : Int) (x : V)
    (hne : ∀ p ∈ m, p.2 ≠ []) : ∀ p ∈ map_push_back m key x, p.2 ≠ [] := by
  intro p hp
  unfold map_push_back at hp
  split at hp
  · rcases mem_map_set m key _ p hp with h | h
    · rw [h]; simp
    · exact hne p h
  · rcases mem_map_set m key _ p hp with h | h
    · rw [h]; simp
    · exact hne p h

theorem add_item_placement_wf (glm : Glm) (st : Catalog) (n : Int) (item : ItemPlacementEntry)
    (h : placements_wf st.item_placements) :
    placements_wf (add_item_placement glm st n item).1.item_placements := by
  unfold add_item_placement
  split
  · exact h
  · split
    · exact h
    · exact ⟨map_push_back_sorted _ _ _ h.1, map_push_back_nonempty _ _ _ h.2⟩

theorem parse_ipl_line_wf (glm : Glm) (st : Catalog) (n : Int) (line : IplLine)
    (h : placements_wf st.item_placements) :
    placements_wf (parse_ipl_line glm st n line).1.item_placements := by
  unfold parse_ipl_line
  split
  · exact h
  · exact add_item_placement_wf glm st n _ h

theorem parse_ipl_lines_wf (glm : Glm) (lines : List IplLine) :
    ∀ (st : Catalog) (n : Int), placements_wf st.item_placements →
      placements_wf (parse_ipl_lines glm st n lines).1.item_placements := by
  induction lines with
  | nil => intro st n h; exact h
  | cons line rest ih =>
    intro st n h
    unfold parse_ipl_lines
    split
    · exact h
    · split
      · exact ih st n h
      · exact ih _ _ (parse_ipl_line_wf glm st n line h)

/-- Every placement map `parse_ipl` produces from a well-formed one is well-formed. -/
theorem parse_ipl_wf (glm : Glm) (st : Catalog) (lines : List IplLine)
    (h : placements_wf st.item_placements) :
    placements_wf (parse_ipl glm st lines).1.item_placements :=
  parse_ipl_lines_wf glm _ st 0 h

/-- C5: for every placement map (keys ascending, as a std::map iterates; total
placement count below 2^32) the instance list has exactly one record per id of the map,
in ascending id order, with num_instances the placement count of the id and
base_instance the sum of the placement counts of all smaller ids; every record has at
least one placement when no vector of the map is empty (as in every map parse_ipl
builds); the transform array is the concatenation of the per-id placement transforms in
that order, its length is the total placement count, and its entries base_instance ..
base_instance + num_instances - 1 are the transforms of the id in placement order. -/
theorem instance_buffer_layout (m : List (Int × List ItemPlacementEntry))
    (hsorted : m.Pairwise (fun a b => a.1 < b.1))
    (hfit : total_placements m < 2 ^ 32) :
    (build_instances m).1
        = m.map (fun p =>
            ({ id := p.1
               num_instances := p.2.length
               base_instance := spec_base_instance m p.1 } : Instance))
      ∧ ((build_instances m).1.map (fun i => i.id)).Pairwise (fun a b => a < b)
      ∧ ((∀ p ∈ m, p.2 ≠ []) → ∀ inst ∈ (build_instances m).1, 1 ≤ inst.num_instances)
      ∧ (build_instances m).2 = spec_transform_array m
      ∧ (build_instances m).2.length = total_placements m
      ∧ (∀ id ps, (id, ps) ∈ m →
          ((build_instances m).2.drop (spec_base_instance m id)).take ps.length
            = ps.map (fun ipl => ipl.world_from_object)) := by
  have hinst : (build_instances m).1
        = m.map (fun p =>
            ({ id := p.1
               num_instances := p.2.length
               base_instance := spec_base_instance m p.1 } : Instance)) := by
    unfold build_instances
    rw [fill_instance_buffer_eq, instances_from_eq_map m hsorted]
    simp only [List.nil_append, List.length_nil, Nat.zero_add]
    apply List.map_congr_left
    intro p hp
    have hle := spec_base_instance_add_le m hsorted p.1 p.2 hp
    have h1 : p.2.length % 2 ^ 32 = p.2.length := Nat.mod_eq_of_lt (by omega)
    have h2 : spec_base_instance m p.1 % 2 ^ 32 = spec_base_instance m p.1 :=
      Nat.mod_eq_of_lt (by omega)
    rw [h1, h2]
  have hx : (build_instances m).2 = spec_transform_array m := by
    unfold build_instances
    rw [fill_instance_buffer_eq]
    simp
  refine ⟨hinst, ?_, ?_, hx, ?_, ?_⟩
  · rw [hinst, List.map_map]
    exact (List.pairwise_map (l := m)).mpr hsorted
  · intro hne inst hin
    rw [hinst] at hin
    obtain ⟨p, hp, rfl⟩ := List.mem_map.mp hin
    have := hne p hp
    show 1 ≤ p.2.length
    exact Nat.pos_of_ne_zero (fun h0 => this (List.length_eq_zero.mp h0))
  · rw [hx, spec_transform_array_length]
  · intro id ps hmem
    rw [hx]
    exact spec_transform_array_slice m hsorted id ps hmem

/-- C5 on a map with two placements of id 5 and one of id 9. -/
theorem instance_buffer_layout_witness :
    two_id_placements.Pairwise (fun a b => a.1 < b.1)
      ∧ total_placements two_id_placements < 2 ^ 32
      ∧ build_instances two_id_placements
        = ([{ id := 5, num_instances := 2, base_instance := 0 },
            { id := 9, num_instances := 1, base_instance := 2 }],
           [[F32.fin 1], [F32.fin 2], [F32.fin 3]]) :=
  have h := instance_buffer_layout two_id_placements (by decide) (by decide)
  ⟨by decide, by decide, Prod.ext (h.1.trans (by decide)) (h.2.2.2.1.trans (by decide))⟩

/-! ## C6, C7, C8: the definition filters -/

theorem map_find_map_set {V : Type} (m : List (Int × V)) (key : Int) (v : V) (id : Int) :
    map_find (map_set m key v) id = if id = key then some v else map_find m id := by
  induction m with
  | nil =>
    simp only [map_set, map_find]
    by_cases h : id = key
    · simp [h]
    · have h2 : ¬ key = id := fun e => h e.symm
      simp [h, h2]
  | cons q rest ih =>
    obtain ⟨k, w⟩ := q
    unfold map_set
    by_cases h1 : key < k
    · simp only [if_pos h1, map_find]
      by_cases h : id = key
      · simp [h]
      · have h2 : ¬ key = id := fun e => h e.symm
        simp [h, h2]
    · simp only [if_neg h1]
      by_cases h2 : key = k
      · simp only [if_pos h2, map_find]
        by_cases h : id = key
        · have h3 : k = id := by omega
          simp [h, h3]
        · have h3 : ¬ k = id := by omega
          simp [h, h3]
      · simp only [if_neg h2, map_find, ih]
        by_cases h : id = key
        · subst h
          have h3 : ¬ k = id := fun e => h2 e.symm
          simp [h3]
        · simp [h]

theorem add_item_definition_tobj_of_pass (st : Catalog) (item : ItemDefinitionEntry)
    (hname : ¬ (item.model_name.length = 0 ∨ item.model_name = ""))
    (hdist : (item.draw_distance 0).ge_int 900 = false)
    (hlod : (starts_with item.model_name "lod" || starts_with item.model_name "LOD") = false) :
    add_item_definition_tobj st item
      = if tobj_visible item then (true, store_item_definition st item) else (false, st) := by
  unfold add_item_definition_tobj
  rw [if_neg hname, hdist, hlod]
  cases tobj_visible item <;> simp

theorem add_item_definition_objs_of_pass (st : Catalog) (item : ItemDefinitionEntry)
    (hname : ¬ (item.model_name.length = 0 ∨ item.model_name = ""))
    (hdist : (item.draw_distance 0).ge_int 900 = false)
    (hlod : (starts_with item.model_name "lod" || starts_with item.model_name "LOD") = false) :
    add_item_definition_objs st item
      = (true, store_item_definition st { item with time_on := 0, time_off := 24 }) := by
  unfold add_item_definition_objs
  rw [if_neg hname, hdist, hlod]
  simp

theorem store_item_definition_find (st : Catalog) (item : ItemDefinitionEntry) :
    map_find (store_item_definition st item).item_definitions item.id = some item := by
  simp [store_item_definition, map_find_map_set]

/-- C6: a timed definition (time_on != time_off, split into the two orders) that passes the name and LOD
checks is accepted by add_item_definition_tobj (it returns true, and then the
definition is stored under its id) if and only if hour 12 lies in [time_on, time_off)
with wrap-around: time_on <= 12 < time_off when time_on < time_off, and
(12 >= time_on or 12 < time_off) when time_off < time_on; a rejected definition leaves
the catalog unchanged. -/
theorem tobj_accepted_iff_noon_in_window (st : Catalog) (item : ItemDefinitionEntry)
    (hname : ¬ (item.model_name.length = 0 ∨ item.model_name = ""))
    (hdist : (item.draw_distance 0).ge_int 900 = false)
    (hlod : (starts_with item.model_name "lod" || starts_with item.model_name "LOD") = false) :
    (item.time_on < item.time_off →
        ((add_item_definition_tobj st item).1 = true
          ↔ (item.time_on ≤ 12 ∧ 12 < item.time_off)))
      ∧ (item.time_off < item.time_on →
        ((add_item_definition_tobj st item).1 = true
          ↔ (12 ≥ item.time_on ∨ 12 < item.time_off)))
      ∧ ((add_item_definition_tobj st item).1 = true →
        map_find (add_item_definition_tobj st item).2.item_definitions item.id = some item)
      ∧ ((add_item_definition_tobj st item).1 = false →
        (add_item_definition_tobj st item).2 = st) := by
  rw [add_item_definition_tobj_of_pass st item hname hdist hlod]
  by_cases hv : tobj_visible item = true
  · rw [if_pos hv]
    refine ⟨?_, ?_, fun _ => store_item_definition_find st item, fun h => by simp at h⟩
    · intro hlt
      simp only [true_iff]
      unfold tobj_visible RENDER_HOUR at hv
      rw [if_pos (by omega)] at hv
      simpa using hv
    · intro hlt
      simp only [true_iff]
      unfold tobj_visible RENDER_HOUR at hv
      rw [if_neg (by omega)] at hv
      simp at hv
      omega
  · rw [if_neg hv]
    refine ⟨?_, ?_, fun h => by simp at h, fun _ => rfl⟩
    · intro hlt
      simp only [Bool.false_eq_true, false_iff]
      unfold tobj_visible RENDER_HOUR at hv
      rw [if_pos (by omega)] at hv
      simpa using hv
    · intro hlt
      simp only [Bool.false_eq_true, false_iff]
      unfold tobj_visible RENDER_HOUR at hv
      rw [if_neg (by omega)] at hv
      simp at hv
      omega

/-- C6 on the two windows of the specification: (5, 20) is accepted and stored,
(20, 5) is rejected. -/
theorem tobj_accepted_iff_noon_in_window_witness :
    ((add_item_definition_tobj Catalog.empty (sample_tobj 7 5 20)).1 = true
      ∧ map_find (add_item_definition_tobj Catalog.empty (sample_tobj 7 5 20)).2.item_definitions 7
          = some (sample_tobj 7 5 20))
    ∧ ¬ ((add_item_definition_tobj Catalog.empty (sample_tobj 7 20 5)).1 = true) :=
  have h1 := tobj_accepted_iff_noon_in_window Catalog.empty (sample_tobj 7 5 20)
    (by decide) (by decide) (by decide)
  have h2 := tobj_accepted_iff_noon_in_window Catalog.empty (sample_tobj 7 20 5)
    (by decide) (by decide) (by decide)
  have hacc := (h1.1 (by decide)).mpr (by decide)
  ⟨⟨hacc, h1.2.2.1 hacc⟩, fun h => absurd ((h2.2.1 (by decide)).mp h) (by decide)⟩

theorem starts_with_lod_or (name : String)
    (h : starts_with name "lod" = true ∨ starts_with name "LOD" = true) :
    (starts_with name "lod" || starts_with name "LOD") = true := by
  rcases h with h | h <;> simp [h]

theorem add_item_definition_objs_of_lod (st : Catalog) (item : ItemDefinitionEntry)
    (h : is_lod_or_unnamed item) : add_item_definition_objs st item = (false, st) := by
  unfold add_item_definition_objs
  by_cases h1 : item.model_name.length = 0 ∨ item.model_name = ""
  · rw [if_pos h1]
  · rw [if_neg h1]
    by_cases h2 : (item.draw_distance 0).ge_int 900 = true
    · rw [if_pos h2]
    · rw [if_neg h2]
      rcases h with h | h | h | h
      · exact absurd h h2
      · rw [if_pos (starts_with_lod_or _ (Or.inl h))]
      · rw [if_pos (starts_with_lod_or _ (Or.inr h))]
      · exact absurd (Or.inr h) h1

theorem add_item_definition_tobj_of_lod (st : Catalog) (item : ItemDefinitionEntry)
    (h : is_lod_or_unnamed item) : add_item_definition_tobj st item = (false, st) := by
  unfold add_item_definition_tobj
  by_cases h1 : item.model_name.length = 0 ∨ item.model_name = ""
  · rw [if_pos h1]
  · rw [if_neg h1]
    by_cases h2 : (item.draw_distance 0).ge_int 900 = true
    · rw [if_pos h2]
    · rw [if_neg h2]
      rcases h with h | h | h | h
      · exact absurd h h2
      · rw [if_pos (starts_with_lod_or _ (Or.inl h))]
      · rw [if_pos (starts_with_lod_or _ (Or.inr h))]
      · exact absurd (Or.inr h) h1

theorem store_item_definition_clean (st : Catalog) (item : ItemDefinitionEntry)
    (hst : definitions_clean st) (hitem : ¬ is_lod_or_unnamed item) :
    definitions_clean (store_item_definition st item) := by
  intro id d hfind
  simp only [store_item_definition, map_find_map_set] at hfind
  split at hfind
  · cases hfind; exact hitem
  · exact hst id d hfind

theorem add_item_definition_objs_clean (st : Catalog) (item : ItemDefinitionEntry)
    (hst : definitions_clean st) : definitions_clean (add_item_definition_objs st item).2 := by
  by_cases h : is_lod_or_unnamed item
  · rw [add_item_definition_objs_of_lod st item h]; exact hst
  · unfold add_item_definition_objs
    split
    · exact hst
    · split
      · exact hst
      · split
        · exact hst
        · exact store_item_definition_clean st _ hst h

theorem add_item_definition_tobj_clean (st : Catalog) (item : ItemDefinitionEntry)
    (hst : definitions_clean st) : definitions_clean (add_item_definition_tobj st item).2 := by
  by_cases h : is_lod_or_unnamed item
  · rw [add_item_definition_tobj_of_lod st item h]; exact hst
  · unfold add_item_definition_tobj
    split
    · exact hst
    · split
      · exact hst
      · split
        · exact hst
        · split
          · exact hst
          · exact store_item_definition_clean st _ hst h

theorem run_definition_ops_clean (ops : List DefinitionOp) :
    ∀ st : Catalog, definitions_clean st → definitions_clean (run_definition_ops st ops) := by
  induction ops with
  | nil => intro st h; exact h
  | cons op rest ih =>
    intro st h
    cases op with
    | objs item => exact ih _ (add_item_definition_objs_clean st item h)
    | tobj item => exact ih _ (add_item_definition_tobj_clean st item h)

/-- C7: a definition whose primary draw distance is >= 900, or whose model name starts
with "lod" or "LOD" or is empty, is rejected by add_item_definition_objs and by
add_item_definition_tobj: both return false and leave the whole catalog state
(item_definitions, ide_lookup, both dependency sets) unchanged.  Consequently no
definition stored in a catalog built from the empty one through these two operations
has such a distance or name. -/
theorem lod_definitions_rejected (st : Catalog) (item : ItemDefinitionEntry)
    (h : is_lod_or_unnamed item) :
    add_item_definition_objs st item = (false, st)
      ∧ add_item_definition_tobj st item = (false, st)
      ∧ (∀ (ops : List DefinitionOp) (id : Int) (d : ItemDefinitionEntry),
          map_find (run_definition_ops Catalog.empty ops).item_definitions id = some d →
            ¬ is_lod_or_unnamed d) :=
  ⟨add_item_definition_objs_of_lod st item h, add_item_definition_tobj_of_lod st item h,
    fun ops => run_definition_ops_clean ops Catalog.empty (fun _ _ hf => by cases hf)⟩

/-- C7 on a definition at distance 1000 and on one named "LODhouse": both rejected;
after loading them and the definition "foo" (id 5) only the latter is stored. -/
theorem lod_definitions_rejected_witness :
    add_item_definition_objs Catalog.empty far_definition = (false, Catalog.empty)
      ∧ add_item_definition_tobj Catalog.empty (sample_definition 9 "LODhouse")
          = (false, Catalog.empty)
      ∧ ¬ is_lod_or_unnamed (sample_definition 5 "foo") :=
  have h1 := lod_definitions_rejected Catalog.empty far_definition (Or.inl (by decide))
  have h2 := lod_definitions_rejected Catalog.empty (sample_definition 9 "LODhouse")
    (Or.inr (Or.inr (Or.inl (by decide))))
  ⟨h1.1, h2.2.1,
    h1.2.2 [DefinitionOp.objs far_definition, DefinitionOp.tobj (sample_definition 9 "LODhouse"),
      DefinitionOp.objs (sample_definition 5 "foo")] 5 (sample_definition 5 "foo") rfl⟩

/-- C8 (counterexample): model names that begin with l, o, d in mixed case ("Lod",
"lOd", "LoD") are accepted by both add_item_definition_objs and
add_item_definition_tobj: the name filter is not case-insensitive. -/
theorem mixed_case_lod_accepted :
    (add_item_definition_objs Catalog.empty (sample_definition 5 "Lodhouse")).1 = true
      ∧ (add_item_definition_tobj Catalog.empty (sample_definition 5 "Lodhouse")).1 = true
      ∧ (add_item_definition_objs Catalog.empty (sample_definition 5 "lOdhouse")).1 = true
      ∧ (add_item_definition_tobj Catalog.empty (sample_definition 5 "lOdhouse")).1 = true
      ∧ (add_item_definition_objs Catalog.empty (sample_definition 5 "LoDhouse")).1 = true
      ∧ (add_item_definition_tobj Catalog.empty (sample_definition 5 "LoDhouse")).1 = true := by
  decide

/-- C8 (amended): the LOD name filter compares with the two spellings "lod" and "LOD"
only.  A definition whose model name begins with "lod" or with "LOD" is rejected by
both operations (false, catalog unchanged); a definition with a non-empty name that
begins with neither spelling and with draw distance below 900 is accepted by
add_item_definition_objs, and by add_item_definition_tobj exactly when it is visible
at noon. -/
theorem lod_filter_exact_spellings (st : Catalog) (item : ItemDefinitionEntry)
    (hname : item.model_name ≠ "")
    (hdist : (item.draw_distance 0).ge_int 900 = false) :
    ((starts_with item.model_name "lod" = true ∨ starts_with item.model_name "LOD" = true) →
        add_item_definition_objs st item = (false, st)
          ∧ add_item_definition_tobj st item = (false, st))
      ∧ (¬ (starts_with item.model_name "lod" = true ∨ starts_with item.model_name "LOD" = true) →
        (add_item_definition_objs st item).1 = true
          ∧ ((add_item_definition_tobj st item).1 = true ↔ tobj_visible item = true)) := by
  have hn : ¬ (item.model_name.length = 0 ∨ item.model_name = "") := by
    rintro (h | h)
    · apply hname
      have hd : item.model_name.data = [] := List.length_eq_zero.mp h
      exact String.ext hd
    · exact hname h
  constructor
  · intro h
    have hl : is_lod_or_unnamed item := by
      rcases h with h | h
      · exact Or.inr (Or.inl h)
      · exact Or.inr (Or.inr (Or.inl h))
    exact ⟨add_item_definition_objs_of_lod st item hl, add_item_definition_tobj_of_lod st item hl⟩
  · intro h
    have hlod : (starts_with item.model_name "lod" || starts_with item.model_name "LOD") = false := by
      cases h1 : starts_with item.model_name "lod"
      · cases h2 : starts_with item.model_name "LOD"
        · rfl
        · exact absurd (Or.inr h2) h
      · exact absurd (Or.inl h1) h
    rw [add_item_definition_objs_of_pass st item hn hdist hlod,
      add_item_definition_tobj_of_pass st item hn hdist hlod]
    refine ⟨rfl, ?_⟩
    cases tobj_visible item <;> simp

/-- C8 (amended) on "lodhouse" (rejected) and "Lodhouse" (accepted). -/
theorem lod_filter_exact_spellings_witness :
    add_item_definition_objs Catalog.empty (sample_definition 5 "lodhouse")
        = (false, Catalog.empty)
      ∧ add_item_definition_tobj Catalog.empty (sample_definition 5 "lodhouse")
        = (false, Catalog.empty)
      ∧ (add_item_definition_objs Catalog.empty (sample_definition 5 "Lodhouse")).1 = true :=
  have h1 := (lod_filter_exact_spellings Catalog.empty (sample_definition 5 "lodhouse")
    (by decide) (by decide)).1 (Or.inl (by decide))
  have h2 := (lod_filter_exact_spellings Catalog.empty (sample_definition 5 "Lodhouse")
    (by decide) (by decide)).2 (by decide)
  ⟨h1.1, h1.2, h2.1⟩

/-! ## C9, C10: the placement parser -/

/-- C9 (evaluation at the failing input): a line in the 12-field layout, whose model
"foo" has a loaded definition, is not accepted: the scanning stage takes the branch
that prints "Cannot parse as IPL line" and `parse_ipl` returns the state unchanged
with count 0.  Conversely a truncated line that matches neither layout passes the
scanning stage with interior = 0 and is counted as a placement. -/
theorem twelve_field_line_skipped :
    scan_ipl_line twelve_field_line = none
      ∧ (∀ glm : Glm,
          parse_ipl glm loaded_catalog
              [text_line "inst\n", twelve_field_line, text_line "end\n"]
            = (loaded_catalog, 0))
      ∧ (scan_ipl_line truncated_line).isSome = true
      ∧ (∀ glm : Glm,
          (parse_ipl glm loaded_catalog
              [text_line "inst\n", truncated_line, text_line "end\n"]).2 = 1) := by
  refine ⟨rfl, fun glm => rfl, rfl, fun glm => rfl⟩

theorem map_find_map_push_back {V : Type} (m : List (Int × List V)) (key : Int) (x : V) :
    map_find (map_push_back m key x) key = some ((map_find m key).getD [] ++ [x]) := by
  unfold map_push_back
  cases h : map_find m key <;> simp [map_find_map_set]

theorem add_item_placement_of_accepted (glm : Glm) (st : Catalog) (n : Int)
    (item : ItemPlacementEntry)
    (hname : (map_find st.ide_lookup item.model_name).isSome = true)
    (hint : item.interior = 0 ∨ item.interior = 13) :
    add_item_placement glm st n item
      = ({ st with
            item_placements := map_push_back st.item_placements item.id (place_item glm item)
            ide_lookup := umap_set st.ide_lookup item.model_name (u32_of_int item.id) },
          n + 1) := by
  unfold add_item_placement
  cases hf : map_find st.ide_lookup item.model_name with
  | none => rw [hf] at hname; cases hname
  | some v =>
    have hcond : ¬ (0 ≠ item.interior ∧ 13 ≠ item.interior) := by omega
    simp only [if_neg hcond]
    rfl

theorem add_item_placement_of_rejected (glm : Glm) (st : Catalog) (n : Int)
    (item : ItemPlacementEntry)
    (h : ¬ ((map_find st.ide_lookup item.model_name).isSome = true
      ∧ (item.interior = 0 ∨ item.interior = 13))) :
    add_item_placement glm st n item = (st, n) := by
  unfold add_item_placement
  cases hf : map_find st.ide_lookup item.model_name with
  | none => rfl
  | some v =>
    have hcond : 0 ≠ item.interior ∧ 13 ≠ item.interior := by
      have h2 : ¬ (item.interior = 0 ∨ item.interior = 13) := fun hi => h ⟨by simp [hf], hi⟩
      omega
    simp only [if_pos hcond]

/-- C10: for every line that passes the scanning stage of parse_ipl with item `item`,
the placement is appended to item_placements[id] and counted if and only if its model
name is a key of ide_lookup and its interior is 0 or 13; otherwise the state and the
count are unchanged; in both cases parsing continues with the next line. -/
theorem placement_filter (glm : Glm) (st : Catalog) (n : Int) (line : IplLine)
    (item : ItemPlacementEntry) (hscan : scan_ipl_line line = some item) :
    (((map_find st.ide_lookup item.model_name).isSome = true
        ∧ (item.interior = 0 ∨ item.interior = 13)) →
        (parse_ipl_line glm st n line).1.item_placements
            = map_push_back st.item_placements item.id (place_item glm item)
          ∧ map_find (parse_ipl_line glm st n line).1.item_placements item.id
            = some ((map_find st.item_placements item.id).getD [] ++ [place_item glm item])
          ∧ (parse_ipl_line glm st n line).2 = n + 1)
      ∧ (¬ ((map_find st.ide_lookup item.model_name).isSome = true
        ∧ (item.interior = 0 ∨ item.interior = 13)) →
        parse_ipl_line glm st n line = (st, n))
      ∧ ((parse_ipl_line glm st n line).2 = n + 1 ↔
        ((map_find st.ide_lookup item.model_name).isSome = true
          ∧ (item.interior = 0 ∨ item.interior = 13)))
      ∧ (∀ rest : List IplLine, line.buf ≠ "end\n" → line.buf.data.head? ≠ some '#' →
        parse_ipl_lines glm st n (line :: rest)
          = parse_ipl_lines glm (parse_ipl_line glm st n line).1
              (parse_ipl_line glm st n line).2 rest) := by
  have hline : parse_ipl_line glm st n line = add_item_placement glm st n item := by
    unfold parse_ipl_line
    rw [hscan]
  refine ⟨?_, ?_, ?_, ?_⟩
  · intro hacc
    rw [hline, add_item_placement_of_accepted glm st n item hacc.1 hacc.2]
    exact ⟨rfl, map_find_map_push_back _ _ _, rfl⟩
  · intro hrej
    rw [hline, add_item_placement_of_rejected glm st n item hrej]
  · rw [hline]
    constructor
    · intro hcount
      by_contra hrej
      rw [add_item_placement_of_rejected glm st n item hrej] at hcount
      simp at hcount
    · intro hacc
      rw [add_item_placement_of_accepted glm st n item hacc.1 hacc.2]
  · intro rest hend hhash
    conv => lhs; unfold parse_ipl_lines
    rw [if_neg hend, if_neg hhash]

/-- C10 on a 13-field line of the loaded model "foo" with interior 0: appended under
id 100 and counted. -/
theorem placement_filter_witness :
    scan_ipl_line thirteen_field_line
        = some (sample_placement 100 "foo" (List.replicate 16 (F32.fin 0)))
      ∧ map_find (parse_ipl_line sample_glm loaded_catalog 0 thirteen_field_line).1.item_placements
          100
        = some [place_item sample_glm (sample_placement 100 "foo" (List.replicate 16 (F32.fin 0)))]
      ∧ (parse_ipl_line sample_glm loaded_catalog 0 thirteen_field_line).2 = 1 :=
  have h := (placement_filter sample_glm loaded_catalog 0 thirteen_field_line
    (sample_placement 100 "foo" (List.replicate 16 (F32.fin 0))) rfl).1
      ⟨rfl, Or.inl rfl⟩
  ⟨rfl, h.2.1, h.2.2⟩

/-! ## C11, C12: the bucket key -/

/-- C11 (evaluation at the failing input): read_txd gives two named 16 x 16 8888
textures that differ only in hasAlpha the same bucket key 0x600 and stores both in
that bucket; upload_textures then stops at the assertion `tex.hasAlpha == tn.hasAlpha`
of layer 1.  The key also coincides for textures of different width (8 and 16), of
different compression mode, and of different raster format class (565 and 555), each
pair failing the per-layer assertions. -/
theorem same_key_textures_fail_assert :
    tex_group_key sample_env (plain_texture "a" 0x0500 16 true) = 0x600
      ∧ tex_group_key sample_env (plain_texture "b" 0x0500 16 false) = 0x600
      ∧ (read_txd sample_env TextureState.empty
          (some [plain_texture "a" 0x0500 16 true,
                 plain_texture "b" 0x0500 16 false])).2.texture_buckets
        = [(0x600, { tex_array := []
                     natives := [plain_texture "a" 0x0500 16 true,
                                 plain_texture "b" 0x0500 16 false] })]
      ∧ layer_asserts sample_env (plain_texture "a" 0x0500 16 true)
          (plain_texture "b" 0x0500 16 false) = false
      ∧ (∀ fuel : Nat, upload_textures sample_env (fuel + 1)
          (read_txd sample_env TextureState.empty
            (some [plain_texture "a" 0x0500 16 true,
                   plain_texture "b" 0x0500 16 false])).2.texture_buckets
        = Except.error BakeError.assert_failed)
      ∧ (tex_group_key sample_env (plain_texture "c" 0x0500 8 true) = 0x600
        ∧ layer_asserts sample_env (plain_texture "a" 0x0500 16 true)
            (plain_texture "c" 0x0500 8 true) = false)
      ∧ (tex_group_key sample_env { plain_texture "d" 0x0500 16 true with dxtCompression := 1 }
          = 0x600
        ∧ layer_asserts sample_env (plain_texture "a" 0x0500 16 true)
            { plain_texture "d" 0x0500 16 true with dxtCompression := 1 } = false)
      ∧ (tex_group_key sample_env (plain_texture "e" 0x0200 16 false)
          = tex_group_key sample_env (plain_texture "f" 0x0a00 16 false)
        ∧ layer_asserts sample_env (plain_texture "e" 0x0200 16 false)
            (plain_texture "f" 0x0a00 16 false) = false) := by
  refine ⟨by decide, by decide, rfl, by decide, fun fuel => rfl, ⟨by decide, by decide⟩,
    ⟨by decide, by decide⟩, ⟨by decide, by decide⟩⟩

/-- C12 (evaluation at the failing input): `TEXPOW_LUT` has 16 entries, and a width or
height of 256 indexes it at 256 >> 4 = 16, one past its end: the entry 4 commented
"256" sits at index 15, which the sizes 240..255 select.  The key of a 256 x 256
texture is built from whatever lies beyond the table.  The reads for 16, 32, 64 and
128 are in range and yield 0, 1, 2, 3, and so is the format read of each of the 11
format codes. -/
theorem texpow_lut_read_past_end :
    TEXPOW_LUT.length = 16
      ∧ 256 >>> 4 = 16
      ∧ TEXPOW_LUT[256 >>> 4]? = none
      ∧ TEXPOW_LUT[15]? = some 4
      ∧ (TEXPOW_LUT[16 >>> 4]? = some 0 ∧ TEXPOW_LUT[32 >>> 4]? = some 1
        ∧ TEXPOW_LUT[64 >>> 4]? = some 2 ∧ TEXPOW_LUT[128 >>> 4]? = some 3)
      ∧ (∀ env : Environment,
          lut_read TEXPOW_LUT env.beyond_pow_lut (256 >>> 4) = env.beyond_pow_lut 16 % 2 ^ 16)
      ∧ (∀ env : Environment,
          tex_group_key env (plain_texture "a" 0x0500 256 true)
            = (0 ||| (6 <<< 8) ||| ((env.beyond_pow_lut 16 % 2 ^ 16) <<< 4)
                ||| ((env.beyond_pow_lut 16 % 2 ^ 16) <<< 0)) % 2 ^ 16)
      ∧ (∀ code : Fin 11,
          format_idx (plain_texture "a" (code.val <<< 8) 16 true) < TEXKEY_FORMAT_LUT.length) := by
  refine ⟨rfl, rfl, rfl, rfl, ⟨rfl, rfl, rfl, rfl⟩, fun env => rfl, fun env => rfl, ?_⟩
  intro code
  fin_cases code <;> decide


/-! ## C13: the slice loop -/

/-- What a successful slice iteration returns. -/
theorem upload_slice_ok (env : Environment) (natives : List NativeTexture) (tex : NativeTexture)
    (slice sz : Nat) (tex_array : List Nat) (us : UploadState) (ta1 : List Nat)
    (us1 : UploadState)
    (h : upload_slice env natives tex slice sz tex_array us = Except.ok (ta1, us1)) :
    ∃ split : TextureSplit,
      ta1 = tex_array ++ [(us.texarr_id + 1) % 2 ^ 32]
        ∧ us1.texarr_id = (us.texarr_id + 1) % 2 ^ 32
        ∧ us1.splits = us.splits ++ [split]
        ∧ us1.texture_split_count = (us.texture_split_count + 1) % 2 ^ 32
        ∧ us1.biggest_split_buffer = max us.biggest_split_buffer (u32_of_int split.byte_size)
        ∧ split.layers = sz
        ∧ split.width = mip0 tex.width
        ∧ split.height = mip0 tex.height
        ∧ split.byte_size = i32_of_int ((sz : Int) * (layer_datasize env tex : Int))
        ∧ split_format env tex = Except.ok split.format := by
  unfold upload_slice at h
  simp only at h
  split at h
  · cases h
  · split at h
    · cases h
    · rename_i buffer hb format hf
      simp only [Except.ok.injEq, Prod.mk.injEq] at h
      obtain ⟨h1, h2⟩ := h
      subst h1
      subst h2
      exact ⟨_, rfl, rfl, rfl, rfl, rfl, rfl, rfl, rfl, rfl, hf⟩

/-- A slice of zero layers is written without reading any texture. -/
theorem upload_slice_zero (env : Environment) (natives : List NativeTexture)
    (tex : NativeTexture) (slice : Nat) (tex_array : List Nat) (us : UploadState) (format : Nat)
    (hfmt : split_format env tex = Except.ok format) :
    ∃ ta1 us1, upload_slice env natives tex slice 0 tex_array us = Except.ok (ta1, us1) := by
  unfold upload_slice
  simp only [fill_layers, hfmt]
  exact ⟨_, _, rfl⟩

/-- With 65536 textures left the loop makes no progress: `(uint16_t)textures_left` is
0, the slice has no layer, and `textures_left` stays 65536. -/
theorem slice_loop_stuck (env : Environment) (natives : List NativeTexture)
    (tex : NativeTexture) (slice format : Nat)
    (hfmt : split_format env tex = Except.ok format) :
    ∀ (fuel : Nat) (tex_array : List Nat) (us : UploadState),
      slice_loop env natives tex slice fuel 65536 tex_array us
        = Except.error BakeError.out_of_fuel := by
  intro fuel
  induction fuel with
  | zero =>
    intro tex_array us
    unfold slice_loop
    simp
  | succ fuel ih =>
    intro tex_array us
    unfold slice_loop
    obtain ⟨ta1, us1, h1⟩ := upload_slice_zero env natives tex slice tex_array us format hfmt
    have hsz : min (65536 % 2 ^ 16) (MAX_ARRAY_TEXTURE_LAYERS % 2 ^ 16) = 0 := by decide
    simp only [hsz, h1, Nat.sub_zero]
    simpa using ih ta1 us1

/-- A bucket of 65536 textures whose representative has a supported format. -/
theorem upload_bucket_stuck (env : Environment) (fuel : Nat) (tex : NativeTexture)
    (rest : List NativeTexture) (tex_array : List Nat) (us : UploadState) (format : Nat)
    (hfmt : split_format env tex = Except.ok format) (hlen : rest.length = 65535) :
    upload_bucket env fuel { tex_array := tex_array, natives := tex :: rest } us
      = Except.error BakeError.out_of_fuel := by
  unfold upload_bucket
  simp only [List.length_cons, hlen]
  rw [slice_loop_stuck env _ tex 0 format hfmt]

/-- C13 (evaluation at the failing input): on a bucket of 65536 textures of a supported
format the slice loop of upload_textures never finishes.  Whatever number of iterations
is allowed, the run is still inside the loop: each iteration computes
SLICE_SIZE = min((uint16_t)65536, 2048) = 0, writes a slice of 0 layers and leaves
textures_left at 65536. -/
theorem crowded_bucket_never_finishes :
    crowded_bucket.natives = plain_texture "t0" 0x0500 1 true :: crowded_rest
      ∧ crowded_rest.length = 65535
      ∧ min (65536 % 2 ^ 16) (MAX_ARRAY_TEXTURE_LAYERS % 2 ^ 16) = 0
      ∧ (∀ (fuel : Nat) (us : UploadState),
          upload_bucket sample_env fuel crowded_bucket us = Except.error BakeError.out_of_fuel)
      ∧ (∀ fuel : Nat,
          upload_textures sample_env fuel [(0x600, crowded_bucket)]
            = Except.error BakeError.out_of_fuel) := by
  have hrest : crowded_rest.length = 65535 := by
    unfold crowded_rest
    rw [List.length_map, List.length_range]
  have hb : ∀ (fuel : Nat) (us : UploadState),
      upload_bucket sample_env fuel crowded_bucket us = Except.error BakeError.out_of_fuel :=
    fun fuel us => upload_bucket_stuck sample_env fuel _ _ [] us GL_RGBA rfl hrest
  refine ⟨rfl, hrest, by decide, hb, ?_⟩
  intro fuel
  unfold upload_textures upload_buckets
  simp only [hb]

/-! ## C14: slices and texture references -/

/-- A slice loop that finishes had fewer than 65536 textures to place. -/
theorem slice_loop_ok_lt (env : Environment) (natives : List NativeTexture)
    (tex : NativeTexture) (slice : Nat) :
    ∀ (fuel left : Nat) (ta : List Nat) (us : UploadState) (ta1 : List Nat) (us1 : UploadState),
      slice_loop env natives tex slice fuel left ta us = Except.ok (ta1, us1) →
        left < 65536 := by
  intro fuel
  induction fuel with
  | zero =>
    intro left ta us ta1 us1 h
    unfold slice_loop at h
    by_cases h0 : left = 0
    · omega
    · simp [h0] at h
  | succ fuel ih =>
    intro left ta us ta1 us1 h
    unfold slice_loop at h
    by_cases h0 : left = 0
    · omega
    · simp only [h0, if_false] at h
      split at h
      · cases h
      · rename_i ta2 us2 hs
        have hrec := ih _ _ _ _ _ h
        have hmax : MAX_ARRAY_TEXTURE_LAYERS % 2 ^ 16 = 2048 := rfl
        rw [hmax] at hrec
        omega

/-- The slices a finished slice loop wrote: one texture array id and one split record
per slice, and the texture at bucket position `idx` falls into record `idx / 2048`,
below its layer count. -/
theorem slice_loop_ok (env : Environment) (natives : List NativeTexture)
    (tex : NativeTexture) (slice : Nat) :
    ∀ (fuel left : Nat) (ta : List Nat) (us : UploadState) (ta1 : List Nat) (us1 : UploadState),
      slice_loop env natives tex slice fuel left ta us = Except.ok (ta1, us1) →
        ∃ new : List TextureSplit,
          us1.splits = us.splits ++ new
            ∧ ta1.length = ta.length + new.length
            ∧ (∀ idx : Nat, idx < left →
                ∃ split, new[idx / 2048]? = some split ∧ idx % 2048 < split.layers) := by
  intro fuel
  induction fuel with
  | zero =>
    intro left ta us ta1 us1 h
    unfold slice_loop at h
    by_cases h0 : left = 0
    · simp only [h0, if_true, Except.ok.injEq, Prod.mk.injEq] at h
      obtain ⟨h1, h2⟩ := h
      subst h1; subst h2
      exact ⟨[], by simp, by simp, fun idx hidx => by omega⟩
    · simp [h0] at h
  | succ fuel ih =>
    intro left ta us ta1 us1 h
    have hlt := slice_loop_ok_lt env natives tex slice _ _ _ _ _ _ h
    unfold slice_loop at h
    by_cases h0 : left = 0
    · simp only [h0, if_true, Except.ok.injEq, Prod.mk.injEq] at h
      obtain ⟨h1, h2⟩ := h
      subst h1; subst h2
      exact ⟨[], by simp, by simp, fun idx hidx => by omega⟩
    · simp only [h0, if_false] at h
      split at h
      · cases h
      · rename_i ta2 us2 hs
        obtain ⟨split0, hta2, -, hsp2, -, -, hlayers, -⟩ :=
          upload_slice_ok env natives tex slice _ ta us ta2 us2 hs
        obtain ⟨new1, hsp1, hta1, hidx1⟩ := ih _ _ _ _ _ h
        have hmax : MAX_ARRAY_TEXTURE_LAYERS % 2 ^ 16 = 2048 := rfl
        rw [hmax] at hidx1 hlayers
        refine ⟨split0 :: new1, ?_, ?_, ?_⟩
        · rw [hsp1, hsp2]; simp
        · rw [hta1, hta2]; simp; omega
        · intro idx hidx
          by_cases hsmall : idx < 2048
          · refine ⟨split0, ?_, ?_⟩
            · have : idx / 2048 = 0 := by omega
              rw [this]; simp
            · rw [hlayers]; omega
          · have hrec : idx - 2048 < left - min (left % 2 ^ 16) 2048 := by omega
            obtain ⟨split, hget, hlay⟩ := hidx1 (idx - 2048) hrec
            refine ⟨split, ?_, ?_⟩
            · have : idx / 2048 = (idx - 2048) / 2048 + 1 := by omega
              rw [this, List.getElem?_cons_succ]
              exact hget
            · have : idx % 2048 = (idx - 2048) % 2048 := by omega
              rw [this]; exact hlay


theorem fill_layers_not_out_of_fuel (env : Environment) (natives : List NativeTexture)
    (tex : NativeTexture) (slice datasize : Nat) :
    ∀ (remaining i : Nat) (buffer : List Nat),
      fill_layers env natives tex slice datasize remaining i buffer
        ≠ Except.error BakeError.out_of_fuel := by
  intro remaining
  induction remaining with
  | zero => intro i buffer h; simp [fill_layers] at h
  | succ r ih =>
    intro i buffer h
    unfold fill_layers at h
    split at h
    · cases h
    · split at h
      · cases h
      · split at h
        · exact ih _ _ h
        · exact ih _ _ h

theorem upload_slice_not_out_of_fuel (env : Environment) (natives : List NativeTexture)
    (tex : NativeTexture) (slice sz : Nat) (ta : List Nat) (us : UploadState) :
    upload_slice env natives tex slice sz ta us ≠ Except.error BakeError.out_of_fuel := by
  intro h
  unfold upload_slice at h
  simp only at h
  split at h
  · rename_i e he
    simp only [Except.error.injEq] at h
    subst h
    exact fill_layers_not_out_of_fuel env natives tex slice _ _ _ _ he
  · split at h
    · rename_i e he
      simp only [Except.error.injEq] at h
      subst h
      unfold split_format at he
      simp only at he
      repeat' split at he
      all_goals cases he
    · cases h

/-- With fewer than 65536 textures left and one unit of fuel for each of them the slice
loop does not run out of fuel: it ends, with its slices or at a failed assertion. -/
theorem slice_loop_terminates (env : Environment) (natives : List NativeTexture)
    (tex : NativeTexture) (slice : Nat) :
    ∀ (fuel left : Nat) (ta : List Nat) (us : UploadState),
      left < 65536 → left ≤ fuel →
        slice_loop env natives tex slice fuel left ta us ≠ Except.error BakeError.out_of_fuel := by
  intro fuel
  induction fuel with
  | zero =>
    intro left ta us _ hle h
    have h0 : left = 0 := by omega
    unfold slice_loop at h
    simp [h0] at h
  | succ fuel ih =>
    intro left ta us hlt hle h
    unfold slice_loop at h
    by_cases h0 : left = 0
    · simp [h0] at h
    · simp only [h0, if_false] at h
      have hmax : MAX_ARRAY_TEXTURE_LAYERS % 2 ^ 16 = 2048 := rfl
      split at h
      · rename_i e he
        simp only [Except.error.injEq] at h
        subst h
        exact upload_slice_not_out_of_fuel env natives tex slice _ ta us he
      · rw [hmax] at h
        exact ih _ _ _ (by omega) (by omega) h

/-- The slices of a finished slice loop: ceil(left / 2048) of them, each of 1 to 2048
layers, the layer counts adding up to `left`. -/
theorem slice_loop_slices (env : Environment) (natives : List NativeTexture)
    (tex : NativeTexture) (slice : Nat) :
    ∀ (fuel left : Nat) (ta : List Nat) (us : UploadState) (ta1 : List Nat) (us1 : UploadState),
      slice_loop env natives tex slice fuel left ta us = Except.ok (ta1, us1) →
        ∃ new : List TextureSplit,
          us1.splits = us.splits ++ new
            ∧ ta1.length = ta.length + new.length
            ∧ new.length = (left + 2047) / 2048
            ∧ (new.map (fun s => s.layers)).sum = left
            ∧ (∀ s ∈ new, 1 ≤ s.layers ∧ s.layers ≤ 2048) := by
  intro fuel
  induction fuel with
  | zero =>
    intro left ta us ta1 us1 h
    unfold slice_loop at h
    by_cases h0 : left = 0
    · simp only [h0, if_true, Except.ok.injEq, Prod.mk.injEq] at h
      obtain ⟨h1, h2⟩ := h
      subst h1; subst h2; subst h0
      exact ⟨[], by simp, by simp, rfl, rfl, (fun s hs => by cases hs)⟩
    · simp [h0] at h
  | succ fuel ih =>
    intro left ta us ta1 us1 h
    have hlt := slice_loop_ok_lt env natives tex slice _ _ _ _ _ _ h
    unfold slice_loop at h
    by_cases h0 : left = 0
    · simp only [h0, if_true, Except.ok.injEq, Prod.mk.injEq] at h
      obtain ⟨h1, h2⟩ := h
      subst h1; subst h2; subst h0
      exact ⟨[], by simp, by simp, rfl, rfl, (fun s hs => by cases hs)⟩
    · simp only [h0, if_false] at h
      split at h
      · cases h
      · rename_i ta2 us2 hs
        obtain ⟨split0, hta2, -, hsp2, -, -, hlayers, -⟩ :=
          upload_slice_ok env natives tex slice _ ta us ta2 us2 hs
        obtain ⟨new1, hsp1, hta1, hlen1, hsum1, hall1⟩ := ih _ _ _ _ _ h
        have hmax : MAX_ARRAY_TEXTURE_LAYERS % 2 ^ 16 = 2048 := rfl
        rw [hmax] at hlen1 hsum1 hlayers
        refine ⟨split0 :: new1, by rw [hsp1, hsp2]; simp, by rw [hta1, hta2]; simp; omega,
          ?_, ?_, ?_⟩
        · simp only [List.length_cons, hlen1]; omega
        · simp only [List.map_cons, List.sum_cons, hsum1, hlayers]; omega
        · intro s hmem
          rcases List.mem_cons.mp hmem with heq | hin
          · rw [heq, hlayers]; omega
          · exact hall1 s hin

theorem upload_bucket_ok (env : Environment) (fuel : Nat) (b : TextureBucket) (us : UploadState)
    (b1 : TextureBucket) (us1 : UploadState)
    (h : upload_bucket env fuel b us = Except.ok (b1, us1)) :
    b1.natives = b.natives ∧ b.natives.length < 65536
      ∧ ∃ new : List TextureSplit,
          us1.splits = us.splits ++ new
            ∧ b1.tex_array.length = b.tex_array.length + new.length
            ∧ (∀ idx : Nat, idx < b.natives.length →
                ∃ split, new[idx / 2048]? = some split ∧ idx % 2048 < split.layers) := by
  unfold upload_bucket at h
  split at h
  · rename_i hnil
    simp only [Except.ok.injEq, Prod.mk.injEq] at h
    obtain ⟨h1, h2⟩ := h
    subst h1; subst h2
    refine ⟨rfl, by simp [hnil], [], by simp, by simp, ?_⟩
    intro idx hidx
    simp [hnil] at hidx
  · rename_i tex rest hcons
    split at h
    · cases h
    · rename_i ta1 us2 hloop
      simp only [Except.ok.injEq, Prod.mk.injEq] at h
      obtain ⟨h1, h2⟩ := h
      subst h1; subst h2
      have hlt := slice_loop_ok_lt env _ _ _ _ _ _ _ _ _ hloop
      obtain ⟨new, hsp, hta, hidx⟩ := slice_loop_ok env _ _ _ _ _ _ _ _ _ hloop
      exact ⟨rfl, hlt, new, hsp, hta, hidx⟩

/-- After the bucket loop every bucket keeps its key and textures, and the records of
its slices form a contiguous run of the blob, one per texture array id. -/
theorem upload_buckets_ok (env : Environment) (fuel : Nat) :
    ∀ (bs : List (Nat × TextureBucket)) (us : UploadState) (bs1 : List (Nat × TextureBucket))
      (us1 : UploadState),
      upload_buckets env fuel bs us = Except.ok (bs1, us1) →
        (∃ new : List TextureSplit, us1.splits = us.splits ++ new)
          ∧ (∀ (key : Nat) (b : TextureBucket), map_find bs key = some b → b.tex_array = [] →
              ∃ b1, map_find bs1 key = some b1 ∧ b1.natives = b.natives
                ∧ b.natives.length < 65536
                ∧ ∃ pre seg post : List TextureSplit,
                    us1.splits = pre ++ seg ++ post
                      ∧ seg.length = b1.tex_array.length
                      ∧ (∀ idx : Nat, idx < b.natives.length →
                          ∃ split, seg[idx / 2048]? = some split
                            ∧ idx % 2048 < split.layers)) := by
  intro bs
  induction bs with
  | nil =>
    intro us bs1 us1 h
    unfold upload_buckets at h
    simp only [Except.ok.injEq, Prod.mk.injEq] at h
    obtain ⟨h1, h2⟩ := h
    subst h1; subst h2
    exact ⟨⟨[], by simp⟩, fun key b hf => by cases hf⟩
  | cons p rest ih =>
    intro us bs1 us1 h
    obtain ⟨k, b0⟩ := p
    unfold upload_buckets at h
    split at h
    · cases h
    · rename_i b2 us2 hb
      split at h
      · cases h
      · rename_i rest1 us3 hrest
        simp only [Except.ok.injEq, Prod.mk.injEq] at h
        obtain ⟨h1, h2⟩ := h
        subst h1; subst h2
        obtain ⟨hnat, hlt, new, hsp, hta, hidx⟩ := upload_bucket_ok env fuel b0 us b2 us2 hb
        obtain ⟨⟨new2, hsp2⟩, hfind⟩ := ih us2 rest1 us3 hrest
        refine ⟨⟨new ++ new2, by rw [hsp2, hsp]; simp⟩, ?_⟩
        intro key b hf hempty
        simp only [map_find] at hf ⊢
        by_cases hk : k = key
        · simp only [hk, if_true, Option.some.injEq] at hf ⊢
          subst hf
          refine ⟨b2, rfl, hnat, hlt, us.splits, new, new2, by rw [hsp2, hsp], ?_, hidx⟩
          rw [hta, hempty]; simp
        · simp only [hk, if_false] at hf ⊢
          exact hfind key b hf hempty


theorem map_find_map_set_any {K V : Type} [LT K] [DecidableRel (fun a b : K => a < b)]
    [DecidableEq K] (m : List (K × V)) (key : K) (v : V) (id : K) :
    map_find (map_set m key v) id = if id = key then some v else map_find m id := by
  induction m with
  | nil =>
    simp only [map_set, map_find]
    by_cases h : id = key
    · simp [h]
    · have h2 : ¬ key = id := fun e => h e.symm
      simp [h, h2]
  | cons q rest ih =>
    obtain ⟨k, w⟩ := q
    unfold map_set
    by_cases h1 : key < k
    · simp only [if_pos h1, map_find]
      by_cases h : id = key
      · simp [h]
      · have h2 : ¬ key = id := fun e => h e.symm
        simp [h, h2]
    · simp only [if_neg h1]
      by_cases h2 : key = k
      · simp only [if_pos h2, map_find]
        by_cases h : id = key
        · have h3 : k = id := by rw [h, h2]
          simp [h, h3]
        · have h3 : ¬ k = id := fun e => h (by rw [← e, h2])
          simp [h, h3]
      · simp only [if_neg h2, map_find, ih]
        by_cases h : id = key
        · subst h
          have h3 : ¬ k = id := fun e => h2 e.symm
          simp [h3]
        · simp [h]

theorem map_find_umap_set {K V : Type} [DecidableEq K] (m : List (K × V)) (key : K) (v : V)
    (id : K) :
    map_find (umap_set m key v) id = if id = key then some v else map_find m id := by
  induction m with
  | nil =>
    simp only [umap_set, map_find]
    by_cases h : id = key
    · simp [h]
    · have h2 : ¬ key = id := fun e => h e.symm
      simp [h, h2]
  | cons q rest ih =>
    obtain ⟨k, w⟩ := q
    unfold umap_set
    by_cases h1 : k = key
    · simp only [if_pos h1, map_find]
      by_cases h : id = key
      · have h3 : k = id := by rw [h, h1]
        simp [h, h3]
      · have h3 : ¬ k = id := fun e => h (by rw [← e, h1])
        simp [h, h3]
    · simp only [if_neg h1, map_find, ih]
      by_cases h : id = key
      · subst h
        simp [h1]
      · simp [h]

theorem read_txd_texture_wf (env : Environment) (st : TextureState) (tex : NativeTexture)
    (hwf : texture_state_wf st) : texture_state_wf (read_txd_texture env st tex) := by
  unfold read_txd_texture
  split
  · exact hwf
  · split
    · simp only [ite_self]; exact hwf
    · rename_i hnone
      constructor
      · intro name ref hfind
        simp only [map_find_umap_set] at hfind
        by_cases hn : name = tex.name
        · simp only [hn, if_true, Option.some.injEq] at hfind
          subst hfind
          refine ⟨_, by rw [map_find_map_set_any, if_pos rfl], ?_⟩
          simp only [List.length_append, List.length_singleton, Nat.add_sub_cancel]
          exact Nat.lt_succ_of_le (Nat.mod_le _ _)
        · simp only [hn, if_false] at hfind
          obtain ⟨b, hb, hidx⟩ := hwf.1 name ref hfind
          by_cases hk : ref.bucket_key = tex_group_key env tex
          · refine ⟨_, by rw [map_find_map_set_any, if_pos hk], ?_⟩
            rw [← hk, hb]
            simp only [Option.getD_some, List.length_append, List.length_singleton]
            omega
          · exact ⟨b, by simp only [map_find_map_set_any, hk, if_false]; exact hb, hidx⟩
      · intro key b hfind
        simp only [map_find_map_set_any] at hfind
        by_cases hk : key = tex_group_key env tex
        · simp only [hk, if_true, Option.some.injEq] at hfind
          subst hfind
          cases hb : map_find st.texture_buckets (tex_group_key env tex) with
          | none => simp
          | some b0 => simpa using hwf.2 _ b0 hb
        · simp only [hk, if_false] at hfind
          exact hwf.2 key b hfind

theorem read_txd_textures_wf (env : Environment) (l : List NativeTexture) :
    ∀ st : TextureState, texture_state_wf st →
      texture_state_wf (l.foldl (read_txd_texture env) st) := by
  induction l with
  | nil => intro st h; exact h
  | cons tex rest ih => intro st h; exact ih _ (read_txd_texture_wf env st tex h)

theorem read_txd_wf (env : Environment) (st : TextureState) (file : Option (List NativeTexture))
    (hwf : texture_state_wf st) : texture_state_wf (read_txd env st file).2 := by
  cases file with
  | none => exact hwf
  | some texList => exact read_txd_textures_wf env _ st hwf

theorem read_all_txd_wf (env : Environment) (files : List (List NativeTexture)) :
    ∀ st : TextureState, texture_state_wf st → texture_state_wf (read_all_txd env st files) := by
  induction files with
  | nil => intro st h; exact h
  | cons f rest ih =>
    intro st h
    exact ih _ (read_txd_wf env st (some f) h)

theorem texture_state_empty_wf : texture_state_wf TextureState.empty := by
  constructor <;> intro _ _ h <;> cases h


theorem lt_length_of_getElem? {α : Type} (l : List α) (i : Nat) (a : α)
    (h : l[i]? = some a) : i < l.length := by
  by_contra hge
  rw [List.getElem?_eq_none (Nat.le_of_not_lt hge)] at h
  cases h

/-- C14: for every TextureRef registered by read_txd (any sequence of dictionaries from
the empty state), once upload_textures has run to its end, slice_index = index / 2048
and texture_id = index % 2048 as the batching loop computes them (both as uint16_t)
satisfy slice_index * 2048 + texture_id = index and texture_id < 2048; the bucket of
the reference exists, slice_index is smaller than the number of its tex_array entries,
and texture_id is smaller than the layer count of the split record written for that
slice (the records of the bucket form a contiguous run of the blob, one per tex_array
entry). -/
theorem texture_ref_slice_in_bounds (env : Environment) (fuel : Nat)
    (files : List (List NativeTexture)) (buckets1 : List (Nat × TextureBucket))
    (blob : TextureBlob) (name : String) (ref : TextureRef)
    (hup : upload_textures env fuel (read_all_txd env TextureState.empty files).texture_buckets
      = Except.ok (buckets1, blob))
    (href : map_find (read_all_txd env TextureState.empty files).named_textures name
      = some ref) :
    ((ref.index / MAX_ARRAY_TEXTURE_LAYERS) % 2 ^ 16) * 2048
          + (ref.index % MAX_ARRAY_TEXTURE_LAYERS) % 2 ^ 16 = ref.index
      ∧ (ref.index % MAX_ARRAY_TEXTURE_LAYERS) % 2 ^ 16 < 2048
      ∧ ∃ bucket, map_find buckets1 ref.bucket_key = some bucket
          ∧ (ref.index / MAX_ARRAY_TEXTURE_LAYERS) % 2 ^ 16 < bucket.tex_array.length
          ∧ ∃ pre seg post : List TextureSplit,
              blob.splits = pre ++ seg ++ post
                ∧ seg.length = bucket.tex_array.length
                ∧ ∃ split, seg[(ref.index / MAX_ARRAY_TEXTURE_LAYERS) % 2 ^ 16]? = some split
                    ∧ (ref.index % MAX_ARRAY_TEXTURE_LAYERS) % 2 ^ 16 < split.layers := by
  have hwf := read_all_txd_wf env files TextureState.empty texture_state_empty_wf
  obtain ⟨b, hb, hidx⟩ := hwf.1 name ref href
  have hempty := hwf.2 _ b hb
  unfold upload_textures at hup
  split at hup
  · cases hup
  · rename_i bs us hbs
    simp only [Except.ok.injEq, Prod.mk.injEq] at hup
    obtain ⟨h1, h2⟩ := hup
    subst h1; subst h2
    obtain ⟨b1, hb1, -, hlt, pre, seg, post, hsplits, hseg, hlayers⟩ :=
      (upload_buckets_ok env fuel _ _ _ _ hbs).2 _ b hb hempty
    obtain ⟨split, hget, hlay⟩ := hlayers ref.index hidx
    have hmax : MAX_ARRAY_TEXTURE_LAYERS = 2048 := rfl
    have hs : (ref.index / MAX_ARRAY_TEXTURE_LAYERS) % 2 ^ 16 = ref.index / 2048 := by
      rw [hmax]; omega
    have ht : (ref.index % MAX_ARRAY_TEXTURE_LAYERS) % 2 ^ 16 = ref.index % 2048 := by
      rw [hmax]; omega
    rw [hs, ht]
    refine ⟨by omega, by omega, b1, hb1, ?_, pre, seg, post, hsplits, hseg, split, hget, hlay⟩
    rw [← hseg]
    exact lt_length_of_getElem? seg _ split hget

/-- C14 on the dictionary of the two palette textures "a" and "b": the reference of "b"
is index 1 of bucket 0x600, slice 0, texture 1 of 2 layers. -/
theorem texture_ref_slice_in_bounds_witness :
    map_find (read_all_txd sample_env TextureState.empty
        [[palette_texture "a" 10 20 30 40, palette_texture "b" 50 60 70 80]]).named_textures "b"
        = some { index := 1, bucket_key := 0x600 }
      ∧ ∃ bucket, map_find
          [(0x600, ({ tex_array := [1]
                      natives := [palette_texture "a" 10 20 30 40,
                                  palette_texture "b" 50 60 70 80] } : TextureBucket))] 0x600
          = some bucket ∧ (1 / MAX_ARRAY_TEXTURE_LAYERS) % 2 ^ 16 < bucket.tex_array.length :=
  have h := texture_ref_slice_in_bounds sample_env 5
    [[palette_texture "a" 10 20 30 40, palette_texture "b" 50 60 70 80]]
    [(0x600, { tex_array := [1]
               natives := [palette_texture "a" 10 20 30 40, palette_texture "b" 50 60 70 80] })]
    { split_count := 1, max_split_bytes := 8
      splits := [{ format := GL_RGBA, width := 1, height := 1, layers := 2, byte_size := 8
                   data := [10, 20, 30, 40, 10, 20, 30, 40] }] }
    "b" { index := 1, bucket_key := 0x600 } rfl rfl
  ⟨rfl, h.2.2.imp (fun _ hb => ⟨hb.1, hb.2.1⟩)⟩

/-! ## C15, C16: first registration wins; the bucketer is idempotent -/

/-- A texture without a name, or with a registered name, changes nothing. -/
theorem read_txd_texture_skip (env : Environment) (st : TextureState) (tex : NativeTexture)
    (h : tex.name = "" ∨ (map_find st.named_textures tex.name).isSome = true) :
    read_txd_texture env st tex = st := by
  unfold read_txd_texture
  by_cases hn : "" = tex.name
  · rw [if_pos hn]
  · rw [if_neg hn]
    rcases h with h | h
    · exact absurd h.symm hn
    · cases hf : map_find st.named_textures tex.name with
      | none => rw [hf] at h; cases h
      | some ref => simp only [ite_self]

/-- C15: first registration wins in read_txd.  A named texture whose name is already a
key of named_textures is discarded and leaves texture_buckets and named_textures
unchanged, whether its bucket key equals the registered one or differs from it; a
texture with an empty name is skipped without changing state; a dictionary of such
textures only leaves the state unchanged. -/
theorem registered_name_discarded (env : Environment) (st : TextureState) (tex : NativeTexture)
    (ref : TextureRef)
    (hreg : map_find st.named_textures tex.name = some ref) :
    (ref.bucket_key = tex_group_key env tex → read_txd_texture env st tex = st)
      ∧ (ref.bucket_key ≠ tex_group_key env tex → read_txd_texture env st tex = st)
      ∧ read_txd_texture env st { tex with name := "" } = st
      ∧ (∀ texList : List NativeTexture,
          (∀ t ∈ texList, (convert_texture env t).name = ""
            ∨ (map_find st.named_textures (convert_texture env t).name).isSome = true) →
          read_txd env st (some texList) = (true, st)) := by
  have hskip : read_txd_texture env st tex = st :=
    read_txd_texture_skip env st tex (Or.inr (by rw [hreg]; rfl))
  refine ⟨fun _ => hskip, fun _ => hskip, read_txd_texture_skip env st _ (Or.inl rfl), ?_⟩
  intro texList hall
  unfold read_txd
  simp only [Prod.mk.injEq, true_and]
  induction texList with
  | nil => rfl
  | cons t rest ih =>
    simp only [List.map_cons, List.foldl_cons]
    rw [read_txd_texture_skip env st _ (hall t (List.mem_cons_self _ _))]
    exact ih (fun t2 ht2 => hall t2 (List.mem_cons_of_mem _ ht2))

/-- C15 on a second texture named "a" with another format and size (name conflict),
and on the same texture again (already loaded). -/
theorem registered_name_discarded_witness :
    read_txd_texture sample_env
        (read_txd sample_env TextureState.empty (some [plain_texture "a" 0x0500 16 true])).2
        (plain_texture "a" 0x0600 32 false)
      = (read_txd sample_env TextureState.empty (some [plain_texture "a" 0x0500 16 true])).2
    ∧ read_txd_texture sample_env
        (read_txd sample_env TextureState.empty (some [plain_texture "a" 0x0500 16 true])).2
        (plain_texture "a" 0x0500 16 true)
      = (read_txd sample_env TextureState.empty (some [plain_texture "a" 0x0500 16 true])).2 :=
  ⟨(registered_name_discarded sample_env
      (read_txd sample_env TextureState.empty (some [plain_texture "a" 0x0500 16 true])).2
      (plain_texture "a" 0x0600 32 false) { index := 0, bucket_key := 0x600 } rfl).2.1
      (by decide),
    (registered_name_discarded sample_env
      (read_txd sample_env TextureState.empty (some [plain_texture "a" 0x0500 16 true])).2
      (plain_texture "a" 0x0500 16 true) { index := 0, bucket_key := 0x600 } rfl).1
      (by decide)⟩


theorem read_txd_texture_keeps_names (env : Environment) (st : TextureState)
    (tex : NativeTexture) (name : String)
    (h : (map_find st.named_textures name).isSome = true) :
    (map_find (read_txd_texture env st tex).named_textures name).isSome = true := by
  unfold read_txd_texture
  split
  · exact h
  · split
    · simp only [ite_self]; exact h
    · simp only [map_find_umap_set]
      split
      · rfl
      · exact h

theorem read_txd_texture_registers (env : Environment) (st : TextureState)
    (tex : NativeTexture) (hname : tex.name ≠ "") :
    (map_find (read_txd_texture env st tex).named_textures tex.name).isSome = true := by
  unfold read_txd_texture
  have hn : ¬ "" = tex.name := fun e => hname e.symm
  rw [if_neg hn]
  cases hf : map_find st.named_textures tex.name with
  | some ref => simp only [ite_self]; rw [hf]; rfl
  | none => simp only [map_find_umap_set, if_true]; rfl

theorem read_txd_textures_keep_names (env : Environment) (l : List NativeTexture)
    (name : String) :
    ∀ st : TextureState, (map_find st.named_textures name).isSome = true →
      (map_find (l.foldl (read_txd_texture env) st).named_textures name).isSome = true := by
  induction l with
  | nil => intro st h; exact h
  | cons t rest ih =>
    intro st h
    exact ih _ (read_txd_texture_keeps_names env st t name h)

/-- After a pass over `l` every named texture of `l` is registered. -/
theorem read_txd_textures_register (env : Environment) (l : List NativeTexture) :
    ∀ st : TextureState, ∀ t ∈ l,
      t.name = "" ∨ (map_find (l.foldl (read_txd_texture env) st).named_textures t.name).isSome
        = true := by
  induction l with
  | nil => intro st t ht; cases ht
  | cons t0 rest ih =>
    intro st t ht
    simp only [List.foldl_cons]
    rcases List.mem_cons.mp ht with heq | hin
    · subst heq
      by_cases hname : t.name = ""
      · exact Or.inl hname
      · exact Or.inr (read_txd_textures_keep_names env rest t.name _
          (read_txd_texture_registers env st t hname))
    · exact ih _ t hin

/-- A pass over textures that are all unnamed or registered changes nothing. -/
theorem read_txd_textures_skip (env : Environment) (l : List NativeTexture)
    (st : TextureState)
    (hall : ∀ t ∈ l, t.name = "" ∨ (map_find st.named_textures t.name).isSome = true) :
    l.foldl (read_txd_texture env) st = st := by
  induction l with
  | nil => rfl
  | cons t rest ih =>
    simp only [List.foldl_cons]
    rw [read_txd_texture_skip env st t (hall t (List.mem_cons_self _ _))]
    exact ih (fun t2 ht2 => hall t2 (List.mem_cons_of_mem _ ht2))

/-- C16: the texture bucketer is idempotent.  For every state and every texture
dictionary (or unreadable file), a second read_txd of the same dictionary leaves
texture_buckets and named_textures exactly as the first pass left them: same keys,
same textures in the same order in every bucket. -/
theorem read_txd_idempotent (env : Environment) (st : TextureState)
    (file : Option (List NativeTexture)) :
    read_txd env (read_txd env st file).2 file = read_txd env st file := by
  cases file with
  | none => rfl
  | some texList =>
    unfold read_txd
    simp only [Prod.mk.injEq, true_and]
    exact read_txd_textures_skip env _ _
      (read_txd_textures_register env (texList.map (convert_texture env)) st)

/-! ## C17, C18: the palette expansion and the blob header -/

/-- C17 (evaluation at the failing input): a bucket of two 1 x 1 palette textures, "a"
with palette entry (10, 20, 30, 40) and "b" with (50, 60, 70, 80).  Both layers of the
slice written by upload_textures hold the expansion of "a": the palette branch reads
`tex.palette` and `tex.texels`, the representative of the bucket, where the texture
`tn` of the layer is meant, so layer 1 is (10, 20, 30, 40) and not the expansion
(50, 60, 70, 80) of the texture at bucket position 1. -/
theorem palette_layers_repeat_first_texture :
    (read_txd sample_env TextureState.empty
        (some [palette_texture "a" 10 20 30 40,
               palette_texture "b" 50 60 70 80])).2.texture_buckets
      = [(0x600, { tex_array := []
                   natives := [palette_texture "a" 10 20 30 40,
                               palette_texture "b" 50 60 70 80] })]
    ∧ is_palettized sample_env (palette_texture "a" 10 20 30 40) = true
    ∧ (∀ fuel : Nat, upload_textures sample_env (fuel + 1)
        [(0x600, { tex_array := []
                   natives := [palette_texture "a" 10 20 30 40,
                               palette_texture "b" 50 60 70 80] })]
      = Except.ok
          ([(0x600, { tex_array := [1]
                      natives := [palette_texture "a" 10 20 30 40,
                                  palette_texture "b" 50 60 70 80] })],
           { split_count := 1, max_split_bytes := 8
             splits := [{ format := GL_RGBA, width := 1, height := 1, layers := 2
                          byte_size := 8
                          data := [10, 20, 30, 40, 10, 20, 30, 40] }] }))
    ∧ palette_expansion (palette_texture "b" 50 60 70 80) = [50, 60, 70, 80] := by
  refine ⟨rfl, rfl, fun fuel => ?_, rfl⟩
  cases fuel <;> rfl


theorem foldl_max_ge_init (f : TextureSplit → Nat) (l : List TextureSplit) :
    ∀ a : Nat, a ≤ l.foldl (fun m s => max m (f s)) a := by
  induction l with
  | nil => intro a; exact Nat.le_refl a
  | cons s rest ih =>
    intro a
    exact Nat.le_trans (Nat.le_max_left a (f s)) (ih _)

theorem foldl_max_ge_mem (f : TextureSplit → Nat) (l : List TextureSplit) :
    ∀ a : Nat, ∀ s ∈ l, f s ≤ l.foldl (fun m s => max m (f s)) a := by
  induction l with
  | nil => intro a s hs; cases hs
  | cons s0 rest ih =>
    intro a s hs
    rcases List.mem_cons.mp hs with heq | hin
    · subst heq
      exact Nat.le_trans (Nat.le_max_right a (f s)) (foldl_max_ge_init f rest _)
    · exact ih _ s hin

theorem foldl_max_attained (f : TextureSplit → Nat) (l : List TextureSplit) :
    ∀ a : Nat, l.foldl (fun m s => max m (f s)) a = a
      ∨ ∃ s ∈ l, f s = l.foldl (fun m s => max m (f s)) a := by
  induction l with
  | nil => intro a; exact Or.inl rfl
  | cons s0 rest ih =>
    intro a
    simp only [List.foldl_cons]
    rcases ih (max a (f s0)) with h | ⟨s, hs, h⟩
    · rw [h]
      by_cases hle : f s0 ≤ a
      · exact Or.inl (Nat.max_eq_left hle)
      · exact Or.inr ⟨s0, List.mem_cons_self _ _, (Nat.max_eq_right (by omega)).symm⟩
    · exact Or.inr ⟨s, List.mem_cons_of_mem _ hs, h⟩

theorem upload_slice_counters (env : Environment) (natives : List NativeTexture)
    (tex : NativeTexture) (slice sz : Nat) (ta : List Nat) (us : UploadState) (ta1 : List Nat)
    (us1 : UploadState)
    (h : upload_slice env natives tex slice sz ta us = Except.ok (ta1, us1))
    (hinv : upload_counters_true us) :
    upload_counters_true us1
      ∧ ∃ s, us1.splits = us.splits ++ [s] ∧ split_sized_for env tex s
          ∧ ta1.length = ta.length + 1 := by
  obtain ⟨s, hta, -, hsp, hcount, hbig, hlay, hw, hh, hsize, -⟩ :=
    upload_slice_ok env natives tex slice sz ta us ta1 us1 h
  refine ⟨⟨?_, ?_⟩, s, hsp, ⟨by rw [hsize, hlay], hw, hh⟩, by rw [hta]; simp⟩
  · rw [hcount, hsp, hinv.1]
    simp only [List.length_append, List.length_singleton]
    omega
  · rw [hbig, hsp, hinv.2]
    simp [spec_max_split_bytes, List.foldl_append]

theorem slice_loop_counters (env : Environment) (natives : List NativeTexture)
    (tex : NativeTexture) (slice : Nat) :
    ∀ (fuel left : Nat) (ta : List Nat) (us : UploadState) (ta1 : List Nat) (us1 : UploadState),
      slice_loop env natives tex slice fuel left ta us = Except.ok (ta1, us1) →
      upload_counters_true us →
        upload_counters_true us1
          ∧ ∃ new : List TextureSplit, us1.splits = us.splits ++ new
              ∧ (∀ s ∈ new, split_sized_for env tex s)
              ∧ ta1.length = ta.length + new.length := by
  intro fuel
  induction fuel with
  | zero =>
    intro left ta us ta1 us1 h hinv
    unfold slice_loop at h
    by_cases h0 : left = 0
    · simp only [h0, if_true, Except.ok.injEq, Prod.mk.injEq] at h
      obtain ⟨h1, h2⟩ := h
      subst h1; subst h2
      exact ⟨hinv, [], by simp, (fun s hs => by cases hs), by simp⟩
    · simp [h0] at h
  | succ fuel ih =>
    intro left ta us ta1 us1 h hinv
    unfold slice_loop at h
    by_cases h0 : left = 0
    · simp only [h0, if_true, Except.ok.injEq, Prod.mk.injEq] at h
      obtain ⟨h1, h2⟩ := h
      subst h1; subst h2
      exact ⟨hinv, [], by simp, (fun s hs => by cases hs), by simp⟩
    · simp only [h0, if_false] at h
      split at h
      · cases h
      · rename_i ta2 us2 hs
        obtain ⟨hinv2, s0, hsp2, hsized, hta2⟩ :=
          upload_slice_counters env natives tex slice _ ta us ta2 us2 hs hinv
        obtain ⟨hinv1, new1, hsp1, hall1, hta1⟩ := ih _ _ _ _ _ h hinv2
        refine ⟨hinv1, s0 :: new1, by rw [hsp1, hsp2]; simp, ?_, by rw [hta1, hta2]; simp; omega⟩
        intro s hmem
        rcases List.mem_cons.mp hmem with heq | hin
        · rw [heq]; exact hsized
        · exact hall1 s hin

theorem upload_buckets_counters (env : Environment) (fuel : Nat) :
    ∀ (bs : List (Nat × TextureBucket)) (us : UploadState) (bs1 : List (Nat × TextureBucket))
      (us1 : UploadState),
      upload_buckets env fuel bs us = Except.ok (bs1, us1) →
      upload_counters_true us →
        upload_counters_true us1
          ∧ ∃ new : List TextureSplit, us1.splits = us.splits ++ new
              ∧ (∀ s ∈ new, ∃ key bucket tex rest, (key, bucket) ∈ bs
                  ∧ bucket.natives = tex :: rest ∧ split_sized_for env tex s)
              ∧ (bs1.map (fun p => p.2.tex_array.length)).sum
                  = (bs.map (fun p => p.2.tex_array.length)).sum + new.length := by
  intro bs
  induction bs with
  | nil =>
    intro us bs1 us1 h hinv
    unfold upload_buckets at h
    simp only [Except.ok.injEq, Prod.mk.injEq] at h
    obtain ⟨h1, h2⟩ := h
    subst h1; subst h2
    exact ⟨hinv, [], by simp, (fun s hs => by cases hs), by simp⟩
  | cons p rest ih =>
    intro us bs1 us1 h hinv
    obtain ⟨k, b0⟩ := p
    unfold upload_buckets at h
    split at h
    · cases h
    · rename_i b2 us2 hb
      split at h
      · cases h
      · rename_i rest1 us3 hrest
        simp only [Except.ok.injEq, Prod.mk.injEq] at h
        obtain ⟨h1, h2⟩ := h
        subst h1; subst h2
        have hbucket : upload_counters_true us2
            ∧ ∃ new : List TextureSplit, us2.splits = us.splits ++ new
                ∧ (∀ s ∈ new, ∃ tex rest0, b0.natives = tex :: rest0 ∧ split_sized_for env tex s)
                ∧ b2.tex_array.length = b0.tex_array.length + new.length := by
          unfold upload_bucket at hb
          split at hb
          · simp only [Except.ok.injEq, Prod.mk.injEq] at hb
            obtain ⟨h1, h2⟩ := hb
            subst h1; subst h2
            exact ⟨hinv, [], by simp, (fun s hs => by cases hs), by simp⟩
          · rename_i tex rest0 hcons
            split at hb
            · cases hb
            · rename_i ta1 us4 hloop
              simp only [Except.ok.injEq, Prod.mk.injEq] at hb
              obtain ⟨h1, h2⟩ := hb
              subst h1; subst h2
              obtain ⟨hinv4, new, hsp, hall, hta⟩ :=
                slice_loop_counters env _ _ _ _ _ _ _ _ _ hloop hinv
              exact ⟨hinv4, new, hsp, fun s hs => ⟨tex, rest0, hcons, hall s hs⟩, hta⟩
        obtain ⟨hinv2, new, hsp, hall, hta⟩ := hbucket
        obtain ⟨hinv3, new2, hsp2, hall2, hsum⟩ := ih us2 rest1 us3 hrest hinv2
        refine ⟨hinv3, new ++ new2, by rw [hsp2, hsp]; simp, ?_, ?_⟩
        · intro s hs
          rcases List.mem_append.mp hs with h1 | h2
          · obtain ⟨tex, rest0, hcons, hsized⟩ := hall s h1
            exact ⟨k, b0, tex, rest0, List.mem_cons_self _ _, hcons, hsized⟩
          · obtain ⟨key, bucket, tex, rest0, hmem, hcons, hsized⟩ := hall2 s h2
            exact ⟨key, bucket, tex, rest0, List.mem_cons_of_mem _ hmem, hcons, hsized⟩
        · simp only [List.map_cons, List.sum_cons, List.length_append]
          rw [hsum, hta]
          omega


/-- C18: when upload_textures finishes (no assertion fails, every format is
supported), the patched header of texturebuckets.blob holds the true values.
split_count is the number of split records written, as a 32-bit word (the number
itself below 2^32), and that number is the total number of slices (tex_array entries)
over all buckets when no bucket had a texture array before; max_split_bytes is the
maximum byte_size field (as an unsigned word) over all split records: every record is
at most it, it is 0 without records and attained by a record otherwise; each record has
byte_size = layers times the per-layer data size of its bucket's representative, as a
32-bit int. -/
theorem blob_header_true (env : Environment) (fuel : Nat)
    (texture_buckets buckets1 : List (Nat × TextureBucket)) (blob : TextureBlob)
    (hup : upload_textures env fuel texture_buckets = Except.ok (buckets1, blob)) :
    blob.split_count = blob.splits.length % 2 ^ 32
      ∧ (blob.splits.length < 2 ^ 32 → blob.split_count = blob.splits.length)
      ∧ ((∀ p ∈ texture_buckets, p.2.tex_array = []) →
          (buckets1.map (fun p => p.2.tex_array.length)).sum = blob.splits.length)
      ∧ blob.max_split_bytes = spec_max_split_bytes blob.splits
      ∧ (∀ s ∈ blob.splits, u32_of_int s.byte_size ≤ blob.max_split_bytes)
      ∧ (blob.splits = [] → blob.max_split_bytes = 0)
      ∧ (blob.splits ≠ [] → ∃ s ∈ blob.splits, u32_of_int s.byte_size = blob.max_split_bytes)
      ∧ (∀ s ∈ blob.splits, ∃ key bucket tex rest, (key, bucket) ∈ texture_buckets
          ∧ bucket.natives = tex :: rest
          ∧ s.byte_size = i32_of_int ((s.layers : Int) * (layer_datasize env tex : Int))) := by
  unfold upload_textures at hup
  split at hup
  · cases hup
  · rename_i bs us hbs
    simp only [Except.ok.injEq, Prod.mk.injEq] at hup
    obtain ⟨h1, h2⟩ := hup
    subst h1; subst h2
    have hinit : upload_counters_true
        { texarr_id := 0, texture_split_count := 0, biggest_split_buffer := 0, splits := [] } :=
      ⟨rfl, rfl⟩
    obtain ⟨⟨hcount, hbig⟩, new, hsp, hall, hsum⟩ :=
      upload_buckets_counters env fuel _ _ _ _ hbs hinit
    simp only [List.nil_append] at hsp
    refine ⟨hcount, fun hlt => by rw [hcount]; exact Nat.mod_eq_of_lt hlt, ?_, hbig, ?_, ?_, ?_, ?_⟩
    · intro hempty
      have hzero : (texture_buckets.map (fun p => p.2.tex_array.length)).sum = 0 := by
        clear hbs hall hsum
        induction texture_buckets with
        | nil => rfl
        | cons p rest ih =>
          simp only [List.map_cons, List.sum_cons]
          rw [ih (fun q hq => hempty q (List.mem_cons_of_mem _ hq)),
            hempty p (List.mem_cons_self _ _)]
          rfl
      show (bs.map (fun p => p.2.tex_array.length)).sum = us.splits.length
      rw [hsum, hzero, hsp]; simp
    · intro s hs
      show u32_of_int s.byte_size ≤ us.biggest_split_buffer
      rw [hbig]
      exact foldl_max_ge_mem (fun s => u32_of_int s.byte_size) us.splits 0 s hs
    · intro hnil
      show us.biggest_split_buffer = 0
      rw [hbig]
      have : us.splits = [] := hnil
      rw [this]; rfl
    · intro hne
      show ∃ s ∈ us.splits, u32_of_int s.byte_size = us.biggest_split_buffer
      rw [hbig]
      rcases foldl_max_attained (fun s => u32_of_int s.byte_size) us.splits 0 with h0 | hatt
      · cases hl : us.splits with
        | nil => exact absurd hl hne
        | cons s0 rest =>
          refine ⟨s0, List.mem_cons_self _ _, ?_⟩
          have hle := foldl_max_ge_mem (fun s => u32_of_int s.byte_size) us.splits 0 s0
            (by rw [hl]; exact List.mem_cons_self _ _)
          rw [h0] at hle
          have hz : u32_of_int s0.byte_size = 0 := Nat.le_zero.mp hle
          rw [← hl]
          show u32_of_int s0.byte_size = spec_max_split_bytes us.splits
          unfold spec_max_split_bytes
          rw [h0, hz]
      · exact hatt
    · intro s hs
      have hs2 : s ∈ new := by rw [← hsp]; exact hs
      obtain ⟨key, bucket, tex, rest, hmem, hcons, hsized⟩ := hall s hs2
      exact ⟨key, bucket, tex, rest, hmem, hcons, hsized.1⟩

/-- C18 on two buckets: two palette textures in bucket 0x600 and one 16 x 16 RGB
texture in bucket 0x300; two split records of 8 and 768 bytes. -/
theorem blob_header_true_witness :
    ∃ buckets1 blob,
      upload_textures sample_env 4
          [(0x300, { tex_array := [], natives := [plain_texture "c" 0x0600 16 false] }),
           (0x600, { tex_array := []
                     natives := [palette_texture "a" 10 20 30 40,
                                 palette_texture "b" 50 60 70 80] })]
        = Except.ok (buckets1, blob)
      ∧ blob.split_count = 2 ∧ blob.max_split_bytes = 768
      ∧ blob.splits.map (fun s => (s.layers, s.byte_size)) = [(1, 768), (2, 8)]
      ∧ blob.split_count = blob.splits.length % 2 ^ 32
      ∧ blob.max_split_bytes = spec_max_split_bytes blob.splits :=
  ⟨_, _, rfl, rfl, rfl, rfl,
    (blob_header_true sample_env 4
      [(0x300, { tex_array := [], natives := [plain_texture "c" 0x0600 16 false] }),
       (0x600, { tex_array := []
                 natives := [palette_texture "a" 10 20 30 40,
                             palette_texture "b" 50 60 70 80] })] _ _ rfl).1,
    (blob_header_true sample_env 4
      [(0x300, { tex_array := [], natives := [plain_texture "c" 0x0600 16 false] }),
       (0x600, { tex_array := []
                 natives := [palette_texture "a" 10 20 30 40,
                             palette_texture "b" 50 60 70 80] })] _ _ rfl).2.2.2.1⟩

/-! ## C19: the mesh extractor -/

theorem map_find_map_push_back_any {K V : Type} [LT K] [DecidableRel (fun a b : K => a < b)]
    [DecidableEq K] (m : List (K × List V)) (key : K) (x : V) :
    map_find (map_push_back m key x) key = some ((map_find m key).getD [] ++ [x]) := by
  unfold map_push_back
  cases h : map_find m key <;> simp [map_find_map_set_any]

/-- The split loop: indices appended in split order, one record per split, the vertex
buffers and the mesh table untouched. -/
theorem bake_splits_eq (id : Nat) (geo : Geometry) (splits : List Split) :
    ∀ st : MeshState,
      (splits.foldl (bake_split id geo) st).baked_indices
          = st.baked_indices ++ (splits.map (fun s => s.indices.map (fun idx => idx % 2 ^ 16))).flatten
        ∧ (splits.foldl (bake_split id geo) st).baked_vert_pos = st.baked_vert_pos
        ∧ (splits.foldl (bake_split id geo) st).baked_vert_rgba = st.baked_vert_rgba
        ∧ (splits.foldl (bake_split id geo) st).baked_vert_uv = st.baked_vert_uv
        ∧ (splits.foldl (bake_split id geo) st).mesh_table = st.mesh_table
        ∧ (∀ old, map_find st.material_splits id = some old →
            map_find (splits.foldl (bake_split id geo) st).material_splits id
              = some (old ++ splits.map (material_split_of geo))) := by
  induction splits with
  | nil =>
    intro st
    exact ⟨by simp, rfl, rfl, rfl, rfl, fun old h => by simpa using h⟩
  | cons s rest ih =>
    intro st
    obtain ⟨h1, h2, h3, h4, h5, h6⟩ := ih (bake_split id geo st s)
    simp only [List.foldl_cons]
    refine ⟨?_, ?_, ?_, ?_, ?_, ?_⟩
    · rw [h1]; simp [bake_split]
    · rw [h2]; rfl
    · rw [h3]; rfl
    · rw [h4]; rfl
    · rw [h5]; rfl
    · intro old hold
      have hstep : map_find (bake_split id geo st s).material_splits id
          = some (old ++ [material_split_of geo s]) := by
        simp only [bake_split, map_find_map_push_back_any, hold, Option.getD_some]
      rw [h6 _ hstep]
      simp

theorem length_flatten_map_indices (splits : List Split) :
    ((splits.map (fun s => s.indices.map (fun idx => idx % 2 ^ 16))).flatten).length
      = (splits.map (fun s => s.indices.length)).sum := by
  induction splits with
  | nil => rfl
  | cons s rest ih =>
    simp only [List.map_cons, List.flatten_cons, List.length_append, List.length_map,
      List.sum_cons, ih]

/-- C19: for a geometry with V > 0 vertices and material splits with index counts
n_1 .. n_k, read_dff_mesh records under `id` the MeshTableEntry with num_splits = k,
base_vertex = length of baked_vert_pos before the call and offset = 2 * length of
baked_indices before the call (each as a uint32_t), appends exactly V entries to each
of baked_vert_pos, baked_vert_rgba and baked_vert_uv (the UV components of an absent
channel being 0), appends the n_1 + ... + n_k indices of the splits to baked_indices in
split order and appends k MaterialSplit records with those counts to
material_splits[id]; with zero vertices nothing is appended and nothing recorded. -/
theorem read_dff_mesh_records (id : Nat) (geo : Geometry) (st : MeshState)
    (hV : 0 < geo.vertexCount) :
    map_find (bake_geometry id geo st).mesh_table id
        = some { id := id
                 num_splits := geo.splits.length % 2 ^ 32
                 base_vertex := st.baked_vert_pos.length % 2 ^ 32
                 offset := (2 * st.baked_indices.length) % 2 ^ 32 }
      ∧ (geo.splits.length < 2 ^ 32 → st.baked_vert_pos.length < 2 ^ 32 →
          2 * st.baked_indices.length < 2 ^ 32 →
          map_find (bake_geometry id geo st).mesh_table id
            = some { id := id
                     num_splits := geo.splits.length
                     base_vertex := st.baked_vert_pos.length
                     offset := 2 * st.baked_indices.length })
      ∧ (∃ new, (bake_geometry id geo st).baked_vert_pos = st.baked_vert_pos ++ new
          ∧ new.length = geo.vertexCount)
      ∧ (∃ new, (bake_geometry id geo st).baked_vert_rgba = st.baked_vert_rgba ++ new
          ∧ new.length = geo.vertexCount)
      ∧ (∃ new, (bake_geometry id geo st).baked_vert_uv = st.baked_vert_uv ++ new
          ∧ new.length = geo.vertexCount
          ∧ ((geo.texCoords.getD 0 []).length = 0 →
              ∀ uv ∈ new, uv.x = F32.fin 0 ∧ uv.y = F32.fin 0)
          ∧ ((geo.texCoords.getD 1 []).length = 0 →
              ∀ uv ∈ new, uv.z = F32.fin 0 ∧ uv.w = F32.fin 0))
      ∧ (bake_geometry id geo st).baked_indices
          = st.baked_indices
            ++ (geo.splits.map (fun s => s.indices.map (fun idx => idx % 2 ^ 16))).flatten
      ∧ (bake_geometry id geo st).baked_indices.length
          = st.baked_indices.length + (geo.splits.map (fun s => s.indices.length)).sum
      ∧ (∃ recorded : List MaterialSplit,
          map_find (bake_geometry id geo st).material_splits id
            = some ((map_find st.material_splits id).getD [] ++ recorded)
          ∧ recorded.length = geo.splits.length
          ∧ recorded.map (fun b => b.num_indices)
            = geo.splits.map (fun s => s.indices.length % 2 ^ 32))
      ∧ bake_geometry id { geo with vertexCount := 0 } st = st
      ∧ read_dff_mesh id (some [DffChunk.clump [geo]]) st = (true, bake_geometry id geo st) := by
  have hne : ¬ 0 = geo.vertexCount := by omega
  have hbake : bake_geometry id geo st
      = { (geo.splits.foldl (bake_split id geo)
            { st with
              baked_vert_pos :=
                st.baked_vert_pos ++ (List.range geo.vertexCount).map (vertex_pos geo)
              baked_vert_rgba :=
                st.baked_vert_rgba ++ (List.range geo.vertexCount).map (vertex_rgba geo)
              baked_vert_uv :=
                st.baked_vert_uv ++ (List.range geo.vertexCount).map (vertex_uv geo)
              material_splits :=
                map_set st.material_splits id ((map_find st.material_splits id).getD []) })
          with
          mesh_table := map_set
            (geo.splits.foldl (bake_split id geo)
              { st with
                baked_vert_pos :=
                  st.baked_vert_pos ++ (List.range geo.vertexCount).map (vertex_pos geo)
                baked_vert_rgba :=
                  st.baked_vert_rgba ++ (List.range geo.vertexCount).map (vertex_rgba geo)
                baked_vert_uv :=
                  st.baked_vert_uv ++ (List.range geo.vertexCount).map (vertex_uv geo)
                material_splits :=
                  map_set st.material_splits id
                    ((map_find st.material_splits id).getD []) }).mesh_table id
            { id := id
              base_vertex := st.baked_vert_pos.length % 2 ^ 32
              offset := (2 * st.baked_indices.length) % 2 ^ 32
              num_splits := geo.splits.length % 2 ^ 32 } } := by
    unfold bake_geometry
    rw [if_neg hne]
  obtain ⟨h1, h2, h3, h4, h5, h6⟩ := bake_splits_eq id geo geo.splits
    { st with
      baked_vert_pos := st.baked_vert_pos ++ (List.range geo.vertexCount).map (vertex_pos geo)
      baked_vert_rgba := st.baked_vert_rgba ++ (List.range geo.vertexCount).map (vertex_rgba geo)
      baked_vert_uv := st.baked_vert_uv ++ (List.range geo.vertexCount).map (vertex_uv geo)
      material_splits :=
        map_set st.material_splits id ((map_find st.material_splits id).getD []) }
  have hentry : map_find (bake_geometry id geo st).mesh_table id
        = some { id := id
                 num_splits := geo.splits.length % 2 ^ 32
                 base_vertex := st.baked_vert_pos.length % 2 ^ 32
                 offset := (2 * st.baked_indices.length) % 2 ^ 32 } := by
    rw [hbake]
    simp only [map_find_map_set_any, if_true]
  have hidx : (bake_geometry id geo st).baked_indices
      = st.baked_indices
        ++ (geo.splits.map (fun s => s.indices.map (fun idx => idx % 2 ^ 16))).flatten := by
    rw [hbake]; exact h1
  refine ⟨hentry, ?_, ?_, ?_, ?_, hidx, ?_, ?_, ?_, rfl⟩
  · intro hk hv hi
    rw [hentry, Nat.mod_eq_of_lt hk, Nat.mod_eq_of_lt hv, Nat.mod_eq_of_lt hi]
  · exact ⟨_, by rw [hbake]; exact h2, by simp⟩
  · exact ⟨_, by rw [hbake]; exact h3, by simp⟩
  · refine ⟨_, by rw [hbake]; exact h4, by simp, ?_, ?_⟩
    · intro habs uv huv
      obtain ⟨v, -, rfl⟩ := List.mem_map.mp huv
      have h0 : ¬ 0 < (geo.texCoords.getD 0 []).length := by omega
      unfold vertex_uv
      simp only [h0, if_false]
      split <;> exact ⟨rfl, rfl⟩
    · intro habs uv huv
      obtain ⟨v, -, rfl⟩ := List.mem_map.mp huv
      have h0 : ¬ 0 < (geo.texCoords.getD 1 []).length := by omega
      unfold vertex_uv
      simp only [h0, if_false]
      split <;> exact ⟨rfl, rfl⟩
  · rw [hidx, List.length_append, length_flatten_map_indices]
  · refine ⟨geo.splits.map (material_split_of geo), ?_, by simp, ?_⟩
    · rw [hbake]
      exact h6 _ (by simp only [map_find_map_set_any, if_true])
    · simp [material_split_of]
  · unfold bake_geometry
    rw [if_pos rfl]


/-- C19 on a triangle baked under id 7 after the same triangle under id 5: base vertex
3, byte offset 6, three more vertices and indices, one split record. -/
theorem read_dff_mesh_records_witness :
    0 < sample_geometry.vertexCount
      ∧ map_find (bake_geometry 7 sample_geometry
          (bake_geometry 5 sample_geometry MeshState.empty)).mesh_table 7
        = some { id := 7, num_splits := 1, base_vertex := 3, offset := 6 }
      ∧ (bake_geometry 7 sample_geometry
          (bake_geometry 5 sample_geometry MeshState.empty)).baked_indices = [0, 1, 2, 0, 1, 2]
      ∧ map_find (bake_geometry 7 sample_geometry
          (bake_geometry 5 sample_geometry MeshState.empty)).material_splits 7
        = some [{ mat_name := "tex", num_indices := 3, material_idx := 0 }] :=
  have h := read_dff_mesh_records 7 sample_geometry
    (bake_geometry 5 sample_geometry MeshState.empty) (by decide)
  ⟨by decide, h.1, h.2.2.2.2.2.1, rfl⟩


/-! ## C20: draw calls and resolved splits -/

theorem length_map_set_of_not_found {K V : Type} [LT K] [DecidableRel (fun a b : K => a < b)]
    [DecidableEq K] (m : List (K × V)) (key : K) (v : V) (h : map_find m key = none) :
    (map_set m key v).length = m.length + 1 := by
  induction m with
  | nil => rfl
  | cons q rest ih =>
    obtain ⟨k, w⟩ := q
    simp only [map_find] at h
    by_cases hk : k = key
    · simp [hk] at h
    · simp only [hk, if_false] at h
      unfold map_set
      by_cases h1 : key < k
      · simp [h1]
      · have hk2 : ¬ key = k := fun e => hk e.symm
        simp only [h1, hk2, if_false, List.length_cons, ih h]

/-- Keys the instance does not emit keep their entry in the draw-call map. -/
theorem batch_splits_other_keys (named_textures : List (String × TextureRef))
    (texture_buckets : List (Nat × TextureBucket)) (def_id : Int) (mesh : MeshTableEntry)
    (inst : Instance) (splits : List MaterialSplit) :
    ∀ (idx : Nat) (offset : Int) (odc : List (Nat × DrawCall)) (key : Nat),
      key ∉ emitted_keys named_textures texture_buckets def_id splits idx →
        map_find (batch_splits named_textures texture_buckets def_id mesh inst splits idx offset odc)
          key = map_find odc key := by
  induction splits with
  | nil => intro idx offset odc key _; rfl
  | cons batch rest ih =>
    intro idx offset odc key hkey
    unfold batch_splits
    unfold emitted_keys at hkey
    cases hres : resolve_split named_textures texture_buckets batch with
    | none =>
      simp only [hres] at hkey ⊢
      exact ih _ _ _ _ hkey
    | some rb =>
      obtain ⟨ref, bucket⟩ := rb
      simp only [hres, List.mem_cons, not_or, split_sort_key] at hkey ⊢
      rw [ih _ _ _ _ hkey.2, map_find_map_set_any, if_neg hkey.1]

/-- The number of entries the instance adds when none of its keys is in the map yet. -/
theorem batch_splits_length (named_textures : List (String × TextureRef))
    (texture_buckets : List (Nat × TextureBucket)) (def_id : Int) (mesh : MeshTableEntry)
    (inst : Instance) (splits : List MaterialSplit) :
    ∀ (idx : Nat) (offset : Int) (odc : List (Nat × DrawCall)),
      (emitted_keys named_textures texture_buckets def_id splits idx).Nodup →
      (∀ key ∈ emitted_keys named_textures texture_buckets def_id splits idx,
        map_find odc key = none) →
        (batch_splits named_textures texture_buckets def_id mesh inst splits idx offset odc).length
          = odc.length + (emitted_keys named_textures texture_buckets def_id splits idx).length := by
  induction splits with
  | nil => intro idx offset odc _ _; rfl
  | cons batch rest ih =>
    intro idx offset odc hnodup hfresh
    unfold batch_splits
    unfold emitted_keys at hnodup hfresh ⊢
    cases hres : resolve_split named_textures texture_buckets batch with
    | none =>
      simp only [hres] at hnodup hfresh ⊢
      exact ih _ _ _ hnodup hfresh
    | some rb =>
      obtain ⟨ref, bucket⟩ := rb
      simp only [hres, List.nodup_cons, List.mem_cons, forall_eq_or_imp, split_sort_key]
        at hnodup hfresh ⊢
      rw [ih _ _ _ hnodup.2, length_map_set_of_not_found _ _ _ hfresh.1]
      · simp only [List.length_cons]; omega
      · intro key hkey
        rw [map_find_map_set_any]
        have hne : ¬ key = sort_key ref.bucket_key
            ((ref.index / MAX_ARRAY_TEXTURE_LAYERS) % 2 ^ 16) def_id idx :=
          fun e => hnodup.1 (e ▸ hkey)
        rw [if_neg hne]
        exact hfresh.2 key hkey

/-- When the keys are pairwise distinct every resolved split has its draw call in the
map, under its own key. -/
theorem batch_splits_resolved (named_textures : List (String × TextureRef))
    (texture_buckets : List (Nat × TextureBucket)) (def_id : Int) (mesh : MeshTableEntry)
    (inst : Instance) (splits : List MaterialSplit) :
    ∀ (idx : Nat) (offset : Int) (odc : List (Nat × DrawCall)),
      (emitted_keys named_textures texture_buckets def_id splits idx).Nodup →
      ∀ (k : Nat) (batch : MaterialSplit) (ref : TextureRef) (bucket : TextureBucket),
        splits[k]? = some batch →
        resolve_split named_textures texture_buckets batch = some (ref, bucket) →
          ∃ dc, map_find
              (batch_splits named_textures texture_buckets def_id mesh inst splits idx offset odc)
              (split_sort_key def_id (idx + k) ref) = some dc
            ∧ dc.num_vertices = batch.num_indices
            ∧ dc.base_vertex = mesh.base_vertex
            ∧ dc.num_instances = inst.num_instances
            ∧ dc.base_instance = inst.base_instance
            ∧ dc.tex_index = (ref.index % MAX_ARRAY_TEXTURE_LAYERS) % 2 ^ 16
            ∧ dc.texture_array
              = bucket.tex_array.getD ((ref.index / MAX_ARRAY_TEXTURE_LAYERS) % 2 ^ 16) 0 := by
  induction splits with
  | nil => intro idx offset odc _ k batch ref bucket hk; simp at hk
  | cons b0 rest ih =>
    intro idx offset odc hnodup k batch ref bucket hk hres
    unfold batch_splits
    unfold emitted_keys at hnodup
    cases k with
    | zero =>
      simp only [List.getElem?_cons_zero, Option.some.injEq] at hk
      subst hk
      simp only [hres, List.nodup_cons, split_sort_key, Nat.add_zero] at hnodup ⊢
      rw [batch_splits_other_keys _ _ _ _ _ _ _ _ _ _ hnodup.1, map_find_map_set_any,
        if_pos rfl]
      exact ⟨_, rfl, rfl, rfl, rfl, rfl, rfl, rfl⟩
    | succ k =>
      simp only [List.getElem?_cons_succ] at hk
      have hidx : idx + (k + 1) = idx + 1 + k := by omega
      rw [hidx]
      cases hres0 : resolve_split named_textures texture_buckets b0 with
      | none =>
        simp only [hres0] at hnodup ⊢
        exact ih _ _ _ hnodup k batch ref bucket hk hres
      | some rb =>
        obtain ⟨ref0, bucket0⟩ := rb
        simp only [hres0, List.nodup_cons] at hnodup ⊢
        exact ih _ _ _ hnodup.2 k batch ref bucket hk hres

theorem emitted_keys_length (named_textures : List (String × TextureRef))
    (texture_buckets : List (Nat × TextureBucket)) (def_id : Int)
    (splits : List MaterialSplit) :
    ∀ idx : Nat, (emitted_keys named_textures texture_buckets def_id splits idx).length
      = (splits.filter
          (fun b => (resolve_split named_textures texture_buckets b).isSome)).length := by
  induction splits with
  | nil => intro idx; rfl
  | cons b rest ih =>
    intro idx
    unfold emitted_keys
    cases hres : resolve_split named_textures texture_buckets b with
    | none => simp [hres, ih]
    | some rb =>
      obtain ⟨ref, bucket⟩ := rb
      simp [hres, ih]


/-- C20: for an instance whose sort keys (those of its resolved splits) are pairwise
distinct, the draw calls the batching loop writes for it correspond exactly to the
material splits of its mesh whose material name is a key of named_textures with an
existing bucket.  Every resolved split has its draw call in the map under its own key,
carrying num_vertices = split.num_indices, base_vertex = mesh.base_vertex and
num_instances, base_instance of the instance; every other key keeps the entry it had,
so an unresolved split contributes nothing (and the loop, a total function, goes on);
the number of keys written is the number of resolved splits, and that many entries are
added when none of the keys was in the map. -/
theorem resolved_splits_emit_draw_calls (t : BakedTables) (inst : Instance)
    (odc : List (Nat × DrawCall))
    (hdistinct : (emitted_keys t.named_textures t.texture_buckets
      (definition_id t.item_definitions inst.id)
      (mesh_splits_of t.material_splits inst.id) 0).Nodup) :
    (∀ (k : Nat) (batch : MaterialSplit) (ref : TextureRef) (bucket : TextureBucket),
        (mesh_splits_of t.material_splits inst.id)[k]? = some batch →
        resolve_split t.named_textures t.texture_buckets batch = some (ref, bucket) →
          ∃ dc, map_find (batch_instance t inst odc)
              (split_sort_key (definition_id t.item_definitions inst.id) k ref) = some dc
            ∧ dc.num_vertices = batch.num_indices
            ∧ dc.base_vertex = (mesh_of t.mesh_table inst.id).base_vertex
            ∧ dc.num_instances = inst.num_instances
            ∧ dc.base_instance = inst.base_instance)
      ∧ (∀ key : Nat,
          key ∉ emitted_keys t.named_textures t.texture_buckets
            (definition_id t.item_definitions inst.id)
            (mesh_splits_of t.material_splits inst.id) 0 →
          map_find (batch_instance t inst odc) key = map_find odc key)
      ∧ (emitted_keys t.named_textures t.texture_buckets
            (definition_id t.item_definitions inst.id)
            (mesh_splits_of t.material_splits inst.id) 0).length
          = ((mesh_splits_of t.material_splits inst.id).filter
              (fun b => (resolve_split t.named_textures t.texture_buckets b).isSome)).length
      ∧ ((∀ key ∈ emitted_keys t.named_textures t.texture_buckets
            (definition_id t.item_definitions inst.id)
            (mesh_splits_of t.material_splits inst.id) 0, map_find odc key = none) →
          (batch_instance t inst odc).length
            = odc.length + ((mesh_splits_of t.material_splits inst.id).filter
                (fun b => (resolve_split t.named_textures t.texture_buckets b).isSome)).length) := by
  refine ⟨?_, ?_, emitted_keys_length _ _ _ _ 0, ?_⟩
  · intro k batch ref bucket hk hres
    obtain ⟨dc, hfind, h1, h2, h3, h4, -, -⟩ :=
      batch_splits_resolved t.named_textures t.texture_buckets
        (definition_id t.item_definitions inst.id) (mesh_of t.mesh_table inst.id) inst
        (mesh_splits_of t.material_splits inst.id) 0 0 odc hdistinct k batch ref bucket hk hres
    rw [Nat.zero_add] at hfind
    exact ⟨dc, hfind, h1, h2, h3, h4⟩
  · intro key hkey
    exact batch_splits_other_keys _ _ _ _ _ _ 0 0 odc key hkey
  · intro hfresh
    unfold batch_instance
    rw [batch_splits_length _ _ _ _ _ _ 0 0 odc hdistinct hfresh, emitted_keys_length]

/-- C20 on a mesh of three splits with the second unresolved: two draw calls, the one
of split 2 under its key with 6 vertices. -/
theorem resolved_splits_emit_draw_calls_witness :
    (batch_instance three_split_tables { id := 7, num_instances := 4, base_instance := 9 }
        []).length = 2
      ∧ ∃ dc, map_find
          (batch_instance three_split_tables { id := 7, num_instances := 4, base_instance := 9 }
            [])
          (split_sort_key 7 2 { index := 0, bucket_key := 0x644 }) = some dc
        ∧ dc.num_vertices = 6 ∧ dc.base_vertex = 40 ∧ dc.num_instances = 4
        ∧ dc.base_instance = 9 :=
  have h := resolved_splits_emit_draw_calls three_split_tables
    { id := 7, num_instances := 4, base_instance := 9 } [] (by decide)
  ⟨h.2.2.2 (fun _ _ => rfl),
    h.1 2 { mat_name := "tex", num_indices := 6, material_idx := 2 }
      { index := 0, bucket_key := 0x644 } { tex_array := [1], natives := [] } rfl rfl⟩

theorem tobj_visible_eq_at (item : ItemDefinitionEntry) :
    tobj_visible item = tobj_visible_at RENDER_HOUR item := rfl

theorem lut_read_format_le (beyond : Nat → Nat) (i : Nat) (h : i < NUM_TEX_GROUPS) :
    lut_read TEXKEY_FORMAT_LUT beyond i ≤ 6 := by
  unfold NUM_TEX_GROUPS at h
  unfold lut_read
  interval_cases i <;> simp [TEXKEY_FORMAT_LUT]

theorem lut_read_pow_le (beyond : Nat → Nat) (i : Nat) (h : i < 16) :
    lut_read TEXPOW_LUT beyond i ≤ 4 := by
  unfold lut_read
  interval_cases i <;> simp [TEXPOW_LUT]

theorem tex_group_key_le (env : Environment) (tex : NativeTexture)
    (h : lookups_in_range tex) : tex_group_key env tex ≤ 0x644 := by
  obtain ⟨hf, hw, hh⟩ := h
  have h1 := lut_read_format_le env.beyond_format_lut _ hf
  have h2 := lut_read_pow_le env.beyond_pow_lut _ hw
  have h3 := lut_read_pow_le env.beyond_pow_lut _ hh
  unfold tex_group_key
  generalize lut_read TEXKEY_FORMAT_LUT env.beyond_format_lut (format_idx tex) = a at h1
  generalize lut_read TEXPOW_LUT env.beyond_pow_lut (mip0 tex.width >>> 4) = b at h2
  generalize lut_read TEXPOW_LUT env.beyond_pow_lut (mip0 tex.height >>> 4) = c at h3
  interval_cases a <;> interval_cases b <;> interval_cases c <;> decide

/-- C29: every bucket key that read_txd computes from in-range table lookups
(format index below 11, width >> 4 and height >> 4 below 16) is at most 0x644, hence
below 2^12; masking it with 0xFFF returns it unchanged, and the bucket field of a sort
key built from it is the key itself, so two textures with different in-range bucket
keys never get the same bucket field, whatever the other fields are. -/
theorem bucket_key_fits_sort_key_field (env : Environment) (tex : NativeTexture)
    (h : lookups_in_range tex) :
    tex_group_key env tex ≤ 0x644
      ∧ tex_group_key env tex < 2 ^ 12
      ∧ tex_group_key env tex &&& 0xFFF = tex_group_key env tex
      ∧ (∀ (s : Nat) (d : Int) (m : Nat),
          (sort_key (tex_group_key env tex) s d m >>> 32) &&& 0xFFF = tex_group_key env tex)
      ∧ (∀ tex2 : NativeTexture, lookups_in_range tex2 →
          tex_group_key env tex ≠ tex_group_key env tex2 →
          ∀ (s s2 : Nat) (d d2 : Int) (m m2 : Nat),
            (sort_key (tex_group_key env tex) s d m >>> 32) &&& 0xFFF
              ≠ (sort_key (tex_group_key env tex2) s2 d2 m2 >>> 32) &&& 0xFFF) := by
  have hle := tex_group_key_le env tex h
  have field : ∀ (k : Nat), k ≤ 0x644 → ∀ (s : Nat) (d : Int) (m : Nat),
      (sort_key k s d m >>> 32) &&& 0xFFF = k := by
    intro k hk s d m
    rw [sort_key_eq_sum, and_0xFFF, Nat.shiftRight_eq_div_pow]
    have hm : m % 2 ^ 8 < 2 ^ 8 := Nat.mod_lt _ (by norm_num)
    have hd : u64_of_int d % 2 ^ 12 < 2 ^ 12 := Nat.mod_lt _ (by norm_num)
    have hs : s % 2 ^ 8 < 2 ^ 8 := Nat.mod_lt _ (by norm_num)
    omega
  refine ⟨hle, by omega, ?_, field _ hle, ?_⟩
  · rw [and_0xFFF]
    exact Nat.mod_eq_of_lt (by omega)
  · intro tex2 h2 hne s s2 d d2 m m2
    rw [field _ hle, field _ (tex_group_key_le env tex2 h2)]
    exact hne

/-- C29 on a 128 x 128 RASTER_8888 texture (key 0x633) against a 16 x 16 RASTER_888
one (key 0x300). -/
theorem bucket_key_fits_sort_key_field_witness :
    lookups_in_range wide_texture
      ∧ tex_group_key sample_env wide_texture = 0x633
      ∧ tex_group_key sample_env wide_texture ≤ 0x644
      ∧ (sort_key (tex_group_key sample_env wide_texture) 3 7 1 >>> 32) &&& 0xFFF = 0x633 :=
  ⟨by decide, by decide,
    (bucket_key_fits_sort_key_field sample_env wide_texture (by decide)).1,
    by decide⟩

/-- C30: a timed definition with time_on == time_off that passes the name and LOD
checks is accepted by add_item_definition_tobj: it returns true and stores the
definition under its id; the visibility test is true at every hour, not only at
the hour 12 the loader uses. -/
theorem tobj_equal_times_accepted (st : Catalog) (item : ItemDefinitionEntry)
    (heq : item.time_on = item.time_off)
    (hname : ¬ (item.model_name.length = 0 ∨ item.model_name = ""))
    (hdist : (item.draw_distance 0).ge_int 900 = false)
    (hlod : (starts_with item.model_name "lod" || starts_with item.model_name "LOD") = false) :
    add_item_definition_tobj st item = (true, store_item_definition st item)
      ∧ map_find (add_item_definition_tobj st item).2.item_definitions item.id = some item
      ∧ (∀ hour : Int, tobj_visible_at hour item = true) := by
  have hall : ∀ hour : Int, tobj_visible_at hour item = true := by
    intro hour
    unfold tobj_visible_at
    rw [if_neg (by omega)]
    simp only [Bool.not_eq_true', decide_eq_false_iff_not]
    omega
  have hv : tobj_visible item = true := by
    rw [tobj_visible_eq_at]
    exact hall RENDER_HOUR
  have hacc : add_item_definition_tobj st item = (true, store_item_definition st item) := by
    rw [add_item_definition_tobj_of_pass st item hname hdist hlod, if_pos hv]
  refine ⟨hacc, ?_, hall⟩
  rw [hacc]
  exact store_item_definition_find st item

/-- C30 on the windows (12, 12), (0, 0) and (23, 23). -/
theorem tobj_equal_times_accepted_witness :
    (add_item_definition_tobj Catalog.empty (sample_tobj 7 12 12)).1 = true
      ∧ (add_item_definition_tobj Catalog.empty (sample_tobj 7 0 0)).1 = true
      ∧ add_item_definition_tobj Catalog.empty (sample_tobj 7 23 23)
          = (true, store_item_definition Catalog.empty (sample_tobj 7 23 23)) :=
  ⟨by decide, by decide,
    (tobj_equal_times_accepted Catalog.empty (sample_tobj 7 23 23) rfl (by decide) (by decide)
      (by decide)).1⟩

theorem and_shifted_mask (x s w : Nat) :
    x &&& ((2 ^ w - 1) <<< s) = ((x >>> s) % 2 ^ w) <<< s := by
  apply Nat.eq_of_testBit_eq
  intro i
  simp only [Nat.testBit_and, Nat.testBit_shiftLeft, Nat.testBit_two_pow_sub_one,
    Nat.testBit_mod_two_pow, Nat.testBit_shiftRight]
  by_cases h : s ≤ i
  · have : s + (i - s) = i := by omega
    simp [h, this, Bool.and_comm]
  · simp [h]

theorem byte_field (x s : Nat) :
    x &&& (0xFF <<< s) = (x / 2 ^ s % 256) * 2 ^ s := by
  have := and_shifted_mask x s 8
  simp only [Nat.shiftLeft_eq, Nat.shiftRight_eq_div_pow] at this ⊢
  exact this

theorem SWAP_ENDIANNESS_4BYTES_sum (x : Nat) :
    SWAP_ENDIANNESS_4BYTES x
      = 2 ^ 24 * (x % 256) + (2 ^ 16 * (x / 2 ^ 8 % 256)
          + (2 ^ 8 * (x / 2 ^ 16 % 256) + x / 2 ^ 24 % 256)) := by
  unfold SWAP_ENDIANNESS_4BYTES
  have h0 : x &&& 0x000000FF = x % 256 := by
    have := byte_field x 0
    simpa using this
  have h1 : x &&& 0x0000FF00 = (x / 2 ^ 8 % 256) * 2 ^ 8 := byte_field x 8
  have h2 : x &&& 0x00FF0000 = (x / 2 ^ 16 % 256) * 2 ^ 16 := byte_field x 16
  have h3 : x &&& 0xFF000000 = (x / 2 ^ 24 % 256) * 2 ^ 24 := byte_field x 24
  rw [h0, h1, h2, h3]
  simp only [Nat.shiftLeft_eq, Nat.shiftRight_eq_div_pow]
  have b0 : x % 256 < 256 := Nat.mod_lt _ (by norm_num)
  have b1 : x / 2 ^ 8 % 256 < 256 := Nat.mod_lt _ (by norm_num)
  have b2 : x / 2 ^ 16 % 256 < 256 := Nat.mod_lt _ (by norm_num)
  have b3 : x / 2 ^ 24 % 256 < 256 := Nat.mod_lt _ (by norm_num)
  have e1 : x / 2 ^ 8 % 256 * 2 ^ 8 * 2 ^ 8 = 2 ^ 16 * (x / 2 ^ 8 % 256) := by ring
  have e2 : x / 2 ^ 16 % 256 * 2 ^ 16 / 2 ^ 8 = 2 ^ 8 * (x / 2 ^ 16 % 256) := by omega
  have e3 : x / 2 ^ 24 % 256 * 2 ^ 24 / 2 ^ 24 = x / 2 ^ 24 % 256 := by omega
  have e0 : x % 256 * 2 ^ 24 = 2 ^ 24 * (x % 256) := by ring
  rw [e0, e1, e2, e3]
  have l1 : x / 2 ^ 24 % 256 < 2 ^ 8 := by omega
  have l2 : 2 ^ 8 * (x / 2 ^ 16 % 256) + x / 2 ^ 24 % 256 < 2 ^ 16 := by omega
  have l3 : 2 ^ 16 * (x / 2 ^ 8 % 256)
      + (2 ^ 8 * (x / 2 ^ 16 % 256) + x / 2 ^ 24 % 256) < 2 ^ 24 := by omega
  rw [Nat.mul_add_lt_is_or l3, Nat.mul_add_lt_is_or l2, Nat.mul_add_lt_is_or l1]
  simp only [Nat.or_assoc]
  apply Nat.mod_eq_of_lt
  rw [← Nat.mul_add_lt_is_or l1, ← Nat.mul_add_lt_is_or l2, ← Nat.mul_add_lt_is_or l3]
  omega

theorem SWAP_ENDIANNESS_8BYTES_sum (x : Nat) :
    SWAP_ENDIANNESS_8BYTES x
      = 2 ^ 56 * (x % 256) + (2 ^ 48 * (x / 2 ^ 8 % 256) + (2 ^ 40 * (x / 2 ^ 16 % 256)
          + (2 ^ 32 * (x / 2 ^ 24 % 256) + (2 ^ 24 * (x / 2 ^ 32 % 256)
          + (2 ^ 16 * (x / 2 ^ 40 % 256) + (2 ^ 8 * (x / 2 ^ 48 % 256)
          + x / 2 ^ 56 % 256)))))) := by
  unfold SWAP_ENDIANNESS_8BYTES
  have h0 : x &&& 0x00000000000000FF = x % 256 := by
    have := byte_field x 0
    simpa using this
  have h1 : x &&& 0x000000000000FF00 = (x / 2 ^ 8 % 256) * 2 ^ 8 := byte_field x 8
  have h2 : x &&& 0x0000000000FF0000 = (x / 2 ^ 16 % 256) * 2 ^ 16 := byte_field x 16
  have h3 : x &&& 0x00000000FF000000 = (x / 2 ^ 24 % 256) * 2 ^ 24 := byte_field x 24
  have h4 : x &&& 0x000000FF00000000 = (x / 2 ^ 32 % 256) * 2 ^ 32 := byte_field x 32
  have h5 : x &&& 0x0000FF0000000000 = (x / 2 ^ 40 % 256) * 2 ^ 40 := byte_field x 40
  have h6 : x &&& 0x00FF000000000000 = (x / 2 ^ 48 % 256) * 2 ^ 48 := byte_field x 48
  have h7 : x &&& 0xFF00000000000000 = (x / 2 ^ 56 % 256) * 2 ^ 56 := byte_field x 56
  rw [h0, h1, h2, h3, h4, h5, h6, h7]
  simp only [Nat.shiftLeft_eq, Nat.shiftRight_eq_div_pow]
  have b0 : x % 256 < 256 := Nat.mod_lt _ (by norm_num)
  have b1 : x / 2 ^ 8 % 256 < 256 := Nat.mod_lt _ (by norm_num)
  have b2 : x / 2 ^ 16 % 256 < 256 := Nat.mod_lt _ (by norm_num)
  have b3 : x / 2 ^ 24 % 256 < 256 := Nat.mod_lt _ (by norm_num)
  have b4 : x / 2 ^ 32 % 256 < 256 := Nat.mod_lt _ (by norm_num)
  have b5 : x / 2 ^ 40 % 256 < 256 := Nat.mod_lt _ (by norm_num)
  have b6 : x / 2 ^ 48 % 256 < 256 := Nat.mod_lt _ (by norm_num)
  have b7 : x / 2 ^ 56 % 256 < 256 := Nat.mod_lt _ (by norm_num)
  have e0 : x % 256 * 2 ^ 56 = 2 ^ 56 * (x % 256) := by ring
  have e1 : x / 2 ^ 8 % 256 * 2 ^ 8 * 2 ^ 40 = 2 ^ 48 * (x / 2 ^ 8 % 256) := by ring
  have e2 : x / 2 ^ 16 % 256 * 2 ^ 16 * 2 ^ 24 = 2 ^ 40 * (x / 2 ^ 16 % 256) := by ring
  have e3 : x / 2 ^ 24 % 256 * 2 ^ 24 * 2 ^ 8 = 2 ^ 32 * (x / 2 ^ 24 % 256) := by ring
  have e4 : x / 2 ^ 32 % 256 * 2 ^ 32 / 2 ^ 8 = 2 ^ 24 * (x / 2 ^ 32 % 256) := by omega
  have e5 : x / 2 ^ 40 % 256 * 2 ^ 40 / 2 ^ 24 = 2 ^ 16 * (x / 2 ^ 40 % 256) := by omega
  have e6 : x / 2 ^ 48 % 256 * 2 ^ 48 / 2 ^ 40 = 2 ^ 8 * (x / 2 ^ 48 % 256) := by omega
  have e7 : x / 2 ^ 56 % 256 * 2 ^ 56 / 2 ^ 56 = x / 2 ^ 56 % 256 := by omega
  rw [e0, e1, e2, e3, e4, e5, e6, e7]
  generalize x % 256 = c0 at b0
  generalize x / 2 ^ 8 % 256 = c1 at b1
  generalize x / 2 ^ 16 % 256 = c2 at b2
  generalize x / 2 ^ 24 % 256 = c3 at b3
  generalize x / 2 ^ 32 % 256 = c4 at b4
  generalize x / 2 ^ 40 % 256 = c5 at b5
  generalize x / 2 ^ 48 % 256 = c6 at b6
  generalize x / 2 ^ 56 % 256 = c7 at b7
  have l1 : c7 < 2 ^ 8 := by omega
  have l2 : 2 ^ 8 * c6 + c7 < 2 ^ 16 := by omega
  have l3 : 2 ^ 16 * c5 + (2 ^ 8 * c6 + c7) < 2 ^ 24 := by omega
  have l4 : 2 ^ 24 * c4 + (2 ^ 16 * c5 + (2 ^ 8 * c6 + c7)) < 2 ^ 32 := by omega
  have l5 : 2 ^ 32 * c3 + (2 ^ 24 * c4 + (2 ^ 16 * c5 + (2 ^ 8 * c6 + c7))) < 2 ^ 40 := by omega
  have l6 : 2 ^ 40 * c2 + (2 ^ 32 * c3 + (2 ^ 24 * c4 + (2 ^ 16 * c5 + (2 ^ 8 * c6 + c7))))
      < 2 ^ 48 := by omega
  have l7 : 2 ^ 48 * c1 + (2 ^ 40 * c2 + (2 ^ 32 * c3 + (2 ^ 24 * c4 + (2 ^ 16 * c5
      + (2 ^ 8 * c6 + c7))))) < 2 ^ 56 := by omega
  rw [Nat.mul_add_lt_is_or l7, Nat.mul_add_lt_is_or l6, Nat.mul_add_lt_is_or l5,
    Nat.mul_add_lt_is_or l4, Nat.mul_add_lt_is_or l3, Nat.mul_add_lt_is_or l2,
    Nat.mul_add_lt_is_or l1]
  simp only [Nat.or_assoc]
  apply Nat.mod_eq_of_lt
  rw [← Nat.mul_add_lt_is_or l1, ← Nat.mul_add_lt_is_or l2, ← Nat.mul_add_lt_is_or l3,
    ← Nat.mul_add_lt_is_or l4, ← Nat.mul_add_lt_is_or l5, ← Nat.mul_add_lt_is_or l6,
    ← Nat.mul_add_lt_is_or l7]
  omega

theorem le_bytes_4 (x : Nat) :
    le_bytes 4 x = [x % 256, x / 2 ^ 8 % 256, x / 2 ^ 16 % 256, x / 2 ^ 24 % 256] := by
  simp only [le_bytes, Nat.div_div_eq_div_mul, Nat.reducePow, Nat.reduceMul]

theorem le_bytes_8 (x : Nat) :
    le_bytes 8 x = [x % 256, x / 2 ^ 8 % 256, x / 2 ^ 16 % 256, x / 2 ^ 24 % 256,
      x / 2 ^ 32 % 256, x / 2 ^ 40 % 256, x / 2 ^ 48 % 256, x / 2 ^ 56 % 256] := by
  simp only [le_bytes, Nat.div_div_eq_div_mul, Nat.reducePow, Nat.reduceMul]

/-- The macro reverses the four bytes of a 32-bit object. -/
theorem le_bytes_SWAP_ENDIANNESS_4BYTES (x : Nat) :
    le_bytes 4 (SWAP_ENDIANNESS_4BYTES x) = (le_bytes 4 x).reverse := by
  rw [SWAP_ENDIANNESS_4BYTES_sum, le_bytes_4, le_bytes_4]
  have b0 : x % 256 < 256 := Nat.mod_lt _ (by norm_num)
  have b1 : x / 2 ^ 8 % 256 < 256 := Nat.mod_lt _ (by norm_num)
  have b2 : x / 2 ^ 16 % 256 < 256 := Nat.mod_lt _ (by norm_num)
  have b3 : x / 2 ^ 24 % 256 < 256 := Nat.mod_lt _ (by norm_num)
  generalize x % 256 = c0 at b0
  generalize x / 2 ^ 8 % 256 = c1 at b1
  generalize x / 2 ^ 16 % 256 = c2 at b2
  generalize x / 2 ^ 24 % 256 = c3 at b3
  simp only [List.reverse_cons, List.reverse_nil, List.nil_append, List.cons_append,
    List.cons.injEq, and_true]
  refine ⟨?_, ?_, ?_, ?_⟩ <;> omega

/-- The macro reverses the eight bytes of a 64-bit object. -/
theorem le_bytes_SWAP_ENDIANNESS_8BYTES (x : Nat) :
    le_bytes 8 (SWAP_ENDIANNESS_8BYTES x) = (le_bytes 8 x).reverse := by
  rw [SWAP_ENDIANNESS_8BYTES_sum, le_bytes_8, le_bytes_8]
  have b0 : x % 256 < 256 := Nat.mod_lt _ (by norm_num)
  have b1 : x / 2 ^ 8 % 256 < 256 := Nat.mod_lt _ (by norm_num)
  have b2 : x / 2 ^ 16 % 256 < 256 := Nat.mod_lt _ (by norm_num)
  have b3 : x / 2 ^ 24 % 256 < 256 := Nat.mod_lt _ (by norm_num)
  have b4 : x / 2 ^ 32 % 256 < 256 := Nat.mod_lt _ (by norm_num)
  have b5 : x / 2 ^ 40 % 256 < 256 := Nat.mod_lt _ (by norm_num)
  have b6 : x / 2 ^ 48 % 256 < 256 := Nat.mod_lt _ (by norm_num)
  have b7 : x / 2 ^ 56 % 256 < 256 := Nat.mod_lt _ (by norm_num)
  generalize x % 256 = c0 at b0
  generalize x / 2 ^ 8 % 256 = c1 at b1
  generalize x / 2 ^ 16 % 256 = c2 at b2
  generalize x / 2 ^ 24 % 256 = c3 at b3
  generalize x / 2 ^ 32 % 256 = c4 at b4
  generalize x / 2 ^ 40 % 256 = c5 at b5
  generalize x / 2 ^ 48 % 256 = c6 at b6
  generalize x / 2 ^ 56 % 256 = c7 at b7
  simp only [List.reverse_cons, List.reverse_nil, List.nil_append, List.cons_append,
    List.cons.injEq, and_true]
  refine ⟨?_, ?_, ?_, ?_, ?_, ?_, ?_, ?_⟩ <;> omega

theorem SWAP_ENDIANNESS_4BYTES_involutive (x : Nat) (h : x < 2 ^ 32) :
    SWAP_ENDIANNESS_4BYTES (SWAP_ENDIANNESS_4BYTES x) = x := by
  have hb := le_bytes_SWAP_ENDIANNESS_4BYTES x
  rw [le_bytes_4, le_bytes_4] at hb
  simp only [List.reverse_cons, List.reverse_nil, List.nil_append, List.cons_append,
    List.cons.injEq, and_true] at hb
  obtain ⟨h0, h1, h2, h3⟩ := hb
  rw [SWAP_ENDIANNESS_4BYTES_sum (SWAP_ENDIANNESS_4BYTES x), h0, h1, h2, h3]
  omega

theorem SWAP_ENDIANNESS_8BYTES_involutive (x : Nat) (h : x < 2 ^ 64) :
    SWAP_ENDIANNESS_8BYTES (SWAP_ENDIANNESS_8BYTES x) = x := by
  have hb := le_bytes_SWAP_ENDIANNESS_8BYTES x
  rw [le_bytes_8, le_bytes_8] at hb
  simp only [List.reverse_cons, List.reverse_nil, List.nil_append, List.cons_append,
    List.cons.injEq, and_true] at hb
  obtain ⟨h0, h1, h2, h3, h4, h5, h6, h7⟩ := hb
  rw [SWAP_ENDIANNESS_8BYTES_sum (SWAP_ENDIANNESS_8BYTES x), h0, h1, h2, h3, h4, h5, h6, h7]
  omega

theorem length_le_bytes (n x : Nat) : (le_bytes n x).length = n := by
  induction n generalizing x with
  | zero => rfl
  | succ n ih => simp [le_bytes, ih]

theorem of_le_bytes_le_bytes (n x : Nat) : of_le_bytes (le_bytes n x) = x % 2 ^ (8 * n) := by
  induction n generalizing x with
  | zero => simp [le_bytes, of_le_bytes, Nat.mod_one]
  | succ n ih =>
    simp only [le_bytes, of_le_bytes, ih, Nat.mod_mod]
    have : 2 ^ (8 * (n + 1)) = 256 * 2 ^ (8 * n) := by
      rw [Nat.mul_add, Nat.pow_add]
      ring
    rw [this, Nat.mod_mul]

theorem le_bytes_mod (n x : Nat) : le_bytes n (x % 2 ^ (8 * n)) = le_bytes n x := by
  induction n generalizing x with
  | zero => rfl
  | succ n ih =>
    have : 2 ^ (8 * (n + 1)) = 256 * 2 ^ (8 * n) := by
      rw [Nat.mul_add, Nat.pow_add]
      ring
    simp only [le_bytes, this]
    rw [Nat.mod_mul_right_div_self, ih, Nat.mod_mul_right_mod]

theorem fread_bytes_exact (obj b rest : List Nat) (n : Nat) (hb : b.length = n) :
    fread_bytes n obj (b ++ rest) = (b ++ obj.drop n, rest) := by
  unfold fread_bytes
  have h1 : (b ++ rest).take n = b := by
    rw [← hb]
    exact List.take_left' rfl
  have h2 : (b ++ rest).drop n = rest := by
    rw [← hb]
    exact List.drop_left' rfl
  rw [h1, h2, hb]

theorem fread_le_bytes (n init x : Nat) (rest : List Nat) :
    fread n init (le_bytes n x ++ rest) = (x % 2 ^ (8 * n), rest) := by
  unfold fread
  rw [fread_bytes_exact _ _ _ n (length_le_bytes n x)]
  have : (le_bytes n init).drop n = [] := by
    apply List.drop_eq_nil_of_le
    rw [length_le_bytes]
  have h2 : (le_bytes n x ++ rest).drop n = rest := by
    have := length_le_bytes n x
    exact List.drop_left' this
  rw [this, List.append_nil, of_le_bytes_le_bytes, h2]

theorem le_bytes_swap4_mod (w : Nat) :
    le_bytes 4 (SWAP_ENDIANNESS_4BYTES (w % 2 ^ (8 * 4))) = (le_bytes 4 w).reverse := by
  rw [le_bytes_SWAP_ENDIANNESS_4BYTES, le_bytes_mod]

theorem le_bytes_swap8_mod (w : Nat) :
    le_bytes 8 (SWAP_ENDIANNESS_8BYTES (w % 2 ^ (8 * 8))) = (le_bytes 8 w).reverse := by
  rw [le_bytes_SWAP_ENDIANNESS_8BYTES, le_bytes_mod]

theorem rebake_keys_spec (keys : List Nat) (rest out : List Nat) :
    rebake_keys keys.length ((keys.map (le_bytes 8)).flatten ++ rest) out
      = (rest, out ++ (keys.map fun k => (le_bytes 8 k).reverse).flatten) := by
  induction keys generalizing out with
  | nil => simp [rebake_keys]
  | cons k ks ih =>
    simp only [List.length_cons, List.map_cons, List.flatten_cons, List.append_assoc,
      rebake_keys]
    rw [fread_le_bytes]
    simp only []
    rw [ih, le_bytes_swap8_mod]
    simp

theorem length_draw_call_bytes (dc : DrawCall) : (draw_call_bytes dc).length = 28 := by
  simp [draw_call_bytes, draw_call_words, length_le_bytes]

theorem take4_le_bytes_append (w : Nat) (rest : List Nat) :
    (le_bytes 4 w ++ rest).take 4 = le_bytes 4 w :=
  List.take_left' (length_le_bytes 4 w)

theorem drop4_le_bytes_append (w : Nat) (rest : List Nat) :
    (le_bytes 4 w ++ rest).drop 4 = rest :=
  List.drop_left' (length_le_bytes 4 w)

theorem draw_call_of_bytes_draw_call_bytes (dc : DrawCall) (tail : List Nat) :
    draw_call_of_bytes (draw_call_bytes dc ++ tail)
      = { texture_array := dc.texture_array % 2 ^ (8 * 4)
          tex_index := dc.tex_index % 2 ^ (8 * 4)
          index_offset := dc.index_offset % 2 ^ (8 * 4)
          num_vertices := dc.num_vertices % 2 ^ (8 * 4)
          base_vertex := dc.base_vertex % 2 ^ (8 * 4)
          num_instances := dc.num_instances % 2 ^ (8 * 4)
          base_instance := dc.base_instance % 2 ^ (8 * 4) } := by
  unfold draw_call_of_bytes draw_call_bytes draw_call_words
  simp only [List.map_cons, List.map_nil, List.flatten_cons, List.flatten_nil, List.append_nil,
    List.append_assoc, le_bytes_4, List.cons_append, List.nil_append, List.take_succ_cons,
    List.drop_succ_cons, List.take_zero, List.drop_zero, of_le_bytes, DrawCall.mk.injEq]
  refine ⟨?_, ?_, ?_, ?_, ?_, ?_, ?_⟩ <;> omega

theorem draw_call_bytes_swapped (dc : DrawCall) :
    draw_call_bytes
        { texture_array := SWAP_ENDIANNESS_4BYTES (dc.texture_array % 2 ^ (8 * 4))
          tex_index := SWAP_ENDIANNESS_4BYTES (dc.tex_index % 2 ^ (8 * 4))
          index_offset := SWAP_ENDIANNESS_4BYTES (dc.index_offset % 2 ^ (8 * 4))
          num_vertices := SWAP_ENDIANNESS_4BYTES (dc.num_vertices % 2 ^ (8 * 4))
          base_vertex := SWAP_ENDIANNESS_4BYTES (dc.base_vertex % 2 ^ (8 * 4))
          num_instances := SWAP_ENDIANNESS_4BYTES (dc.num_instances % 2 ^ (8 * 4))
          base_instance := SWAP_ENDIANNESS_4BYTES (dc.base_instance % 2 ^ (8 * 4)) }
      = ((draw_call_words dc).map fun w => (le_bytes 4 w).reverse).flatten := by
  simp only [draw_call_bytes, draw_call_words, List.map_cons, List.map_nil, le_bytes_swap4_mod]

theorem rebake_draw_calls_spec (uninit : Nat → List Nat) (dcs : List DrawCall)
    (i : Nat) (rest out : List Nat) :
    rebake_draw_calls uninit dcs.length i ((dcs.map draw_call_bytes).flatten ++ rest) out
      = (rest, out ++ (dcs.map fun dc =>
          ((draw_call_words dc).map fun w => (le_bytes 4 w).reverse).flatten).flatten) := by
  induction dcs generalizing out i with
  | nil => simp [rebake_draw_calls]
  | cons dc ds ih =>
    simp only [List.length_cons, List.map_cons, List.flatten_cons, List.append_assoc,
      rebake_draw_calls]
    rw [fread_bytes_exact _ _ _ 28 (length_draw_call_bytes dc)]
    simp only []
    rw [ih, draw_call_of_bytes_draw_call_bytes]
    simp only []
    rw [draw_call_bytes_swapped]
    simp

theorem rebake_keys_length (n : Nat) (f out : List Nat) :
    (rebake_keys n f out).2.length = out.length + 8 * n := by
  induction n generalizing f out with
  | zero => simp [rebake_keys]
  | succ n ih =>
    simp only [rebake_keys]
    rw [ih, List.length_append, length_le_bytes]
    omega

theorem rebake_draw_calls_length (uninit : Nat → List Nat) (n i : Nat) (f out : List Nat) :
    (rebake_draw_calls uninit n i f out).2.length = out.length + 28 * n := by
  induction n generalizing i f out with
  | zero => simp [rebake_draw_calls]
  | succ n ih =>
    simp only [rebake_draw_calls]
    rw [ih, List.length_append, length_draw_call_bytes]
    omega

/-- The output of `rebake_drawables` always has 4 + 36 * count bytes, where count is
the header word as the host reads it. -/
theorem rebake_drawables_length (uninit : Nat → List Nat) (in_blob : List Nat) :
    (rebake_drawables uninit in_blob).length = 4 + 36 * (fread 4 0 in_blob).1 := by
  unfold rebake_drawables
  simp only []
  rw [rebake_draw_calls_length, rebake_keys_length, length_le_bytes]
  omega

theorem length_flatten_keys (odc : List (Nat × DrawCall)) :
    ((odc.map fun pair => le_bytes 8 pair.1).flatten).length = 8 * odc.length := by
  induction odc with
  | nil => rfl
  | cons p ps ih =>
    simp only [List.map_cons, List.flatten_cons, List.length_append, length_le_bytes,
      List.length_cons, ih]
    omega

theorem length_flatten_draw_calls (odc : List (Nat × DrawCall)) :
    ((odc.map fun pair => draw_call_bytes pair.2).flatten).length = 28 * odc.length := by
  induction odc with
  | nil => rfl
  | cons p ps ih =>
    simp only [List.map_cons, List.flatten_cons, List.length_append, length_draw_call_bytes,
      List.length_cons, ih]
    omega

theorem write_drawables_length (odc : List (Nat × DrawCall)) :
    (write_drawables odc).length = 4 + 36 * odc.length := by
  unfold write_drawables
  rw [List.length_append, List.length_append, length_le_bytes, length_flatten_keys,
    length_flatten_draw_calls]
  omega

/-- C23 (amended): for a drawables.blob as the baker writes it for n < 2^32 draw
calls, rebake_drawables writes the four count bytes reversed, then for the i-th key its
eight bytes reversed, then for the i-th DrawCall the four bytes of each of its seven
fields reversed, in the same order and with the same total length; each word swap
is its own inverse on a 32-bit (64-bit) value. -/
theorem rebake_drawables_mechanical (uninit : Nat → List Nat)
    (ordered_draw_calls : List (Nat × DrawCall))
    (hn : ordered_draw_calls.length < 2 ^ 32) :
    rebake_drawables uninit (write_drawables ordered_draw_calls)
        = (le_bytes 4 ordered_draw_calls.length).reverse
          ++ (ordered_draw_calls.map fun pair => (le_bytes 8 pair.1).reverse).flatten
          ++ (ordered_draw_calls.map fun pair =>
              ((draw_call_words pair.2).map fun w => (le_bytes 4 w).reverse).flatten).flatten
      ∧ (rebake_drawables uninit (write_drawables ordered_draw_calls)).length
          = (write_drawables ordered_draw_calls).length
      ∧ (∀ x : Nat, x < 2 ^ 32 → SWAP_ENDIANNESS_4BYTES (SWAP_ENDIANNESS_4BYTES x) = x)
      ∧ (∀ x : Nat, x < 2 ^ 64 → SWAP_ENDIANNESS_8BYTES (SWAP_ENDIANNESS_8BYTES x) = x) := by
  have hread : fread 4 0 (write_drawables ordered_draw_calls)
      = (ordered_draw_calls.length,
          (ordered_draw_calls.map fun pair => le_bytes 8 pair.1).flatten
            ++ (ordered_draw_calls.map fun pair => draw_call_bytes pair.2).flatten) := by
    unfold write_drawables
    rw [List.append_assoc, fread_le_bytes, Nat.mod_mod_of_dvd _ (by norm_num),
      Nat.mod_eq_of_lt hn]
  refine ⟨?_, ?_, SWAP_ENDIANNESS_4BYTES_involutive, SWAP_ENDIANNESS_8BYTES_involutive⟩
  · unfold rebake_drawables
    simp only [hread]
    have hk := rebake_keys_spec (ordered_draw_calls.map fun pair => pair.1)
      ((ordered_draw_calls.map fun pair => draw_call_bytes pair.2).flatten)
      (le_bytes 4 (SWAP_ENDIANNESS_4BYTES ordered_draw_calls.length))
    simp only [List.length_map, List.map_map, Function.comp_def] at hk
    rw [hk]
    have hd := rebake_draw_calls_spec uninit (ordered_draw_calls.map fun pair => pair.2) 0 []
      (le_bytes 4 (SWAP_ENDIANNESS_4BYTES ordered_draw_calls.length)
        ++ (ordered_draw_calls.map fun pair => (le_bytes 8 pair.1).reverse).flatten)
    simp only [List.length_map, List.map_map, Function.comp_def, List.append_nil] at hd
    simp only []
    rw [hd, le_bytes_SWAP_ENDIANNESS_4BYTES]
  · rw [rebake_drawables_length, hread, write_drawables_length]

/-- C23 on one draw call: the 40 bytes written. -/
theorem rebake_drawables_mechanical_witness :
    sample_draw_calls.length < 2 ^ 32
      ∧ write_drawables sample_draw_calls
          = [1, 0, 0, 0,
             0x07, 0xFF, 0x0F, 0x03, 0x44, 0x06, 0, 0,
             1, 0, 0, 0, 2, 0, 0, 0, 6, 0, 0, 0, 0x2C, 1, 0, 0, 3, 0, 0, 0, 1, 0, 0, 0,
             4, 3, 2, 1]
      ∧ rebake_drawables (fun _ => []) (write_drawables sample_draw_calls)
          = [0, 0, 0, 1,
             0, 0, 0x06, 0x44, 0x03, 0x0F, 0xFF, 0x07,
             0, 0, 0, 1, 0, 0, 0, 2, 0, 0, 0, 6, 0, 0, 1, 0x2C, 0, 0, 0, 3, 0, 0, 0, 1,
             1, 2, 3, 4] :=
  ⟨by decide, by decide,
    (rebake_drawables_mechanical (fun _ => []) sample_draw_calls (by decide)).1.trans
      (by decide)⟩

/-- C23 as stated fails in its last part: run on its own output for one draw call,
rebake_drawables reads the swapped count bytes 00 00 00 01 as 16777216 iterations and
writes 4 + 36 * 16777216 bytes, not the 40 bytes of the original blob. -/
theorem rebake_drawables_twice_differs :
    (write_drawables sample_draw_calls).length = 40
      ∧ (fread 4 0 (rebake_drawables (fun _ => []) (write_drawables sample_draw_calls))).1
          = 16777216
      ∧ (rebake_drawables (fun _ => [])
          (rebake_drawables (fun _ => []) (write_drawables sample_draw_calls))).length
          = 4 + 36 * 16777216
      ∧ rebake_drawables (fun _ => [])
          (rebake_drawables (fun _ => []) (write_drawables sample_draw_calls))
          ≠ write_drawables sample_draw_calls := by
  have h1 : (fread 4 0 (rebake_drawables (fun _ => [])
      (write_drawables sample_draw_calls))).1 = 16777216 := by decide
  have h2 : (rebake_drawables (fun _ => [])
      (rebake_drawables (fun _ => []) (write_drawables sample_draw_calls))).length
      = 4 + 36 * 16777216 := by
    rw [rebake_drawables_length, h1]
  refine ⟨by decide, h1, h2, ?_⟩
  intro h
  have h3 := congrArg List.length h
  rw [h2, write_drawables_length] at h3
  simp [sample_draw_calls] at h3

theorem read_floats_spec (temp m : List Nat) (rest : List Nat) (h : temp.length = m.length) :
    read_floats temp ((m.map (le_bytes 4)).flatten ++ rest)
      = (m.map fun w => SWAP_ENDIANNESS_4BYTES (w % 2 ^ (8 * 4)), rest) := by
  induction temp generalizing m with
  | nil =>
    cases m with
    | nil => rfl
    | cons w ws => simp at h
  | cons t ts ih =>
    cases m with
    | nil => simp at h
    | cons w ws =>
      simp only [List.length_cons, Nat.add_right_cancel_iff] at h
      simp only [List.map_cons, List.flatten_cons, List.append_assoc, read_floats]
      rw [fread_le_bytes]
      simp only []
      rw [ih ws h]

theorem length_transpose_matrix (temp : List Nat) : (transpose_matrix temp).length = 16 := by
  simp [transpose_matrix, List.range_succ]

theorem getD_map_swap (m : List Nat) (i : Nat) :
    (m.map fun w => SWAP_ENDIANNESS_4BYTES (w % 2 ^ (8 * 4))).getD i 0
      = SWAP_ENDIANNESS_4BYTES (m.getD i 0 % 2 ^ (8 * 4)) := by
  have h0 : (0 : Nat) = SWAP_ENDIANNESS_4BYTES (0 % 2 ^ (8 * 4)) := by decide
  conv_lhs => rw [h0]
  rw [List.getD_map]

theorem transposed_bytes (m : List Nat) :
    ((transpose_matrix (m.map fun w => SWAP_ENDIANNESS_4BYTES (w % 2 ^ (8 * 4)))).map
        (le_bytes 4)).flatten
      = ((List.range 4).map fun r =>
          ((List.range 4).map fun c => (le_bytes 4 (m.getD (4 * c + r) 0)).reverse).flatten).flatten := by
  have hr : List.range 4 = [0, 1, 2, 3] := rfl
  simp only [transpose_matrix, hr, List.map_cons, List.map_nil, List.flatten_cons,
    List.flatten_nil, List.append_nil, List.cons_append, List.nil_append, getD_map_swap,
    le_bytes_swap4_mod, List.append_assoc]

theorem rebake_matrices_spec (ms : List (List Nat)) (temp rest out : List Nat)
    (ht : temp.length = 16) (hm : ∀ m ∈ ms, m.length = 16) :
    rebake_matrices ms.length temp
        ((ms.map fun m => (m.map (le_bytes 4)).flatten).flatten ++ rest) out
      = out ++ (ms.map fun m => ((List.range 4).map fun r =>
          ((List.range 4).map fun c =>
            (le_bytes 4 (m.getD (4 * c + r) 0)).reverse).flatten).flatten).flatten := by
  induction ms generalizing temp out with
  | nil => simp [rebake_matrices]
  | cons m ms ih =>
    have h16 : m.length = 16 := hm m (List.mem_cons_self _ _)
    simp only [List.length_cons, List.map_cons, List.flatten_cons, List.append_assoc,
      rebake_matrices]
    rw [read_floats_spec temp m _ (by rw [ht, h16])]
    simp only []
    rw [ih _ _ (length_transpose_matrix _) (fun x hx => hm x (List.mem_cons_of_mem _ hx)),
      transposed_bytes]
    simp

/-- C24: for an instances.blob with n < 2^32 matrices of 16 four-byte words,
rebake_instances writes the four count bytes reversed and then, for each matrix in
order, 16 words of which the one at position 4*r + c is the input word at position
4*c + r with its four bytes reversed (a float assignment is taken to copy the bit
pattern). -/
theorem rebake_instances_transposes (uninit : Nat → Nat) (matrices : List (List Nat))
    (hn : matrices.length < 2 ^ 32) (h16 : ∀ m ∈ matrices, m.length = 16) :
    rebake_instances uninit (instances_blob matrices)
      = (le_bytes 4 matrices.length).reverse
        ++ (matrices.map fun m => ((List.range 4).map fun r =>
            ((List.range 4).map fun c =>
              (le_bytes 4 (m.getD (4 * c + r) 0)).reverse).flatten).flatten).flatten := by
  unfold rebake_instances instances_blob
  rw [fread_le_bytes, Nat.mod_mod_of_dvd _ (by norm_num), Nat.mod_eq_of_lt hn]
  simp only []
  have h := rebake_matrices_spec matrices ((List.range 16).map fun j => uninit j % 2 ^ 32) []
    (le_bytes 4 (SWAP_ENDIANNESS_4BYTES matrices.length)) (by simp) h16
  rw [List.append_nil] at h
  rw [h, le_bytes_SWAP_ENDIANNESS_4BYTES]

/-- C24 on one matrix whose word at position p is p + 1: the output words are
1, 5, 9, 13, 2, 6, ... with the value in the last byte. -/
theorem rebake_instances_transposes_witness :
    [counting_matrix].length < 2 ^ 32
      ∧ rebake_instances (fun _ => 0) (instances_blob [counting_matrix])
          = [0, 0, 0, 1,
             0, 0, 0, 1, 0, 0, 0, 5, 0, 0, 0, 9, 0, 0, 0, 13,
             0, 0, 0, 2, 0, 0, 0, 6, 0, 0, 0, 10, 0, 0, 0, 14,
             0, 0, 0, 3, 0, 0, 0, 7, 0, 0, 0, 11, 0, 0, 0, 15,
             0, 0, 0, 4, 0, 0, 0, 8, 0, 0, 0, 12, 0, 0, 0, 16] :=
  ⟨by decide,
    (rebake_instances_transposes (fun _ => 0) [counting_matrix] (by decide)
      (by decide)).trans (by decide)⟩

theorem transcode_pixels_zero (uninit : Nat → List Nat) (j : Nat) (f : List Nat)
    (out : OutFile) : transcode_pixels uninit 0 j f out = (f, out) := rfl

theorem transcode_layers_no_pixels (uninit : Nat → Nat → List Nat) (n l : Nat) (f : List Nat)
    (out : OutFile) : transcode_layers uninit 0 n l f out = (f, out) := by
  induction n generalizing l with
  | zero => rfl
  | succ n ih =>
    simp only [transcode_layers, transcode_pixels_zero]
    exact ih _

theorem SWAP_ENDIANNESS_4BYTES_of_byte (w : Nat) (hw : w < 256) :
    SWAP_ENDIANNESS_4BYTES w = 2 ^ 24 * w := by
  rw [SWAP_ENDIANNESS_4BYTES_sum]
  omega

/-- The pixel count the loop uses for a split narrower and lower than 256 pixels:
the product of the byte-swapped dimensions is 0 in `uint32_t`. -/
theorem swapped_pixel_count (w h : Nat) (hw : w < 256) (hh : h < 256) :
    (SWAP_ENDIANNESS_4BYTES w * SWAP_ENDIANNESS_4BYTES h) % 2 ^ 32 = 0 := by
  rw [SWAP_ENDIANNESS_4BYTES_of_byte w hw, SWAP_ENDIANNESS_4BYTES_of_byte h hh]
  have : 2 ^ 24 * w * (2 ^ 24 * h) = 2 ^ 32 * (2 ^ 16 * (w * h)) := by ring
  rw [this, Nat.mul_mod_right]

theorem rebake_texture_split_rgb (uninit : Nat → Nat → List Nat)
    (biggest_split_buffer biggest_split_offset : Nat) (st : RebakeState)
    (w h layers : Nat) (rest : List Nat) (hw : w < 256) (hh : h < 256)
    (hfit : 4 * w * h ≤ biggest_split_buffer)
    (hin : st.in_blob = le_bytes 4 GL_RGB ++ (le_bytes 4 w ++ (le_bytes 4 h
      ++ (le_bytes 4 layers ++ (le_bytes 4 (4 * w * h) ++ rest))))) :
    rebake_texture_split uninit biggest_split_buffer biggest_split_offset st
      = Except.ok
          { in_blob := rest
            out_blob := ((((st.out_blob.write (le_bytes 4 GL_RGBA).reverse).write
              (le_bytes 4 w).reverse).write (le_bytes 4 h).reverse).write
              (le_bytes 4 layers).reverse).write (le_bytes 4 (4 * w * h)).reverse
            tb := { format := SWAP_ENDIANNESS_4BYTES GL_RGBA
                    width := SWAP_ENDIANNESS_4BYTES w
                    height := SWAP_ENDIANNESS_4BYTES h
                    layers := SWAP_ENDIANNESS_4BYTES (layers % 2 ^ 32)
                    size := SWAP_ENDIANNESS_4BYTES (4 * w * h) }
            storage := st.storage } := by
  have hwh : w * h < 256 * 256 := Nat.mul_lt_mul'' hw hh
  have hsz : 4 * w * h < 2 ^ 32 := by
    rw [Nat.mul_assoc]
    omega
  have hw32 : w % 2 ^ (8 * 4) = w := Nat.mod_eq_of_lt (by omega)
  have hh32 : h % 2 ^ (8 * 4) = h := Nat.mod_eq_of_lt (by omega)
  have hs32 : (4 * w * h) % 2 ^ (8 * 4) = 4 * w * h := Nat.mod_eq_of_lt hsz
  have hs32b : (4 * w * h) % 2 ^ 32 = 4 * w * h := Nat.mod_eq_of_lt hsz
  have hrgb : GL_RGB % 2 ^ (8 * 4) = GL_RGB := by decide
  unfold rebake_texture_split
  simp only [hin, fread_le_bytes, hw32, hh32, hs32, hrgb, size_assertion, hs32b, beq_self_eq_true,
    decide_True, Bool.not_true, Bool.and_false, Bool.false_eq_true, if_false, if_true,
    Bool.true_and, decide_eq_true_eq, Nat.not_lt.mpr hfit, swapped_pixel_count w h hw hh,
    transcode_layers_no_pixels, le_bytes_SWAP_ENDIANNESS_4BYTES]
  rw [le_bytes_mod]

/-- The size test of the transcoder is false for every GL_RGB split sized as the
baker sizes it, layers * width * height * 3 bytes. -/
theorem size_assertion_false_of_baker_rgb (layers w h : Nat) (hl : 1 ≤ layers) (hw : 1 ≤ w)
    (hh : 1 ≤ h) (hfit : layers * w * h * 3 < 2 ^ 32) :
    size_assertion { format := GL_RGB, width := w, height := h, layers := layers,
                     size := layers * w * h * 3 } = false := by
  unfold size_assertion
  simp only [beq_eq_false_iff_ne, ne_eq]
  have hp : 1 ≤ w * h := Nat.mul_pos hw hh
  have e1 : 4 * w * h = 4 * (w * h) := by ring
  have e2 : layers * w * h * 3 = 3 * (layers * (w * h)) := by ring
  rw [e1, e2]
  rw [e2] at hfit
  generalize w * h = p at hp hfit
  have hq : p ≤ layers * p := Nat.le_mul_of_pos_left p hl
  by_cases h1 : layers = 1
  · subst h1
    rw [Nat.one_mul] at hfit ⊢
    omega
  · have h2 : 2 * p ≤ layers * p := Nat.mul_le_mul_right p (by omega)
    generalize layers * p = q at hfit h2 hq
    omega

/-- C22 at a split of one layer of 2 x 1 pixels (10, 20, 30), (40, 50, 60): sized
as the baker sizes it (6 bytes) the transcoder stops at its size assertion and
writes no split; with the size field at 4 * 2 * 1 = 8, so that the assertion
passes, it writes the two header words and the split header with the swapped
GL_RGBA code, and then no pixel at all, because the loop bounds are the
byte-swapped width, height and layers (0x02000000 * 0x01000000 is 0 in 32 bits). -/
theorem rgb_split_not_transcoded :
    rebake_textures (fun _ _ => []) (fun _ => 0) (texture_blob_bytes two_pixel_blob)
        = Except.error BakeError.assert_failed
      ∧ rebake_textures (fun _ _ => []) (fun _ => 0)
          (texture_blob_bytes two_pixel_blob_sized_as_rgba)
        = Except.ok [0, 0, 0, 1, 0, 0, 0, 8,
                     0, 0, 0x19, 0x08, 0, 0, 0, 2, 0, 0, 0, 1, 0, 0, 0, 1, 0, 0, 0, 8]
      ∧ (SWAP_ENDIANNESS_4BYTES 2 * SWAP_ENDIANNESS_4BYTES 1) % 2 ^ 32 = 0 := by
  refine ⟨rfl, ?_, by decide⟩
  have hb : texture_blob_bytes two_pixel_blob_sized_as_rgba
      = le_bytes 4 1 ++ (le_bytes 4 8 ++ (le_bytes 4 GL_RGB ++ (le_bytes 4 2 ++ (le_bytes 4 1
          ++ (le_bytes 4 1 ++ (le_bytes 4 (4 * 2 * 1) ++ [10, 20, 30, 40, 50, 60])))))) := by
    decide
  unfold rebake_textures
  rw [hb]
  simp only [fread_le_bytes]
  simp only [Nat.reducePow, Nat.reduceMod, rebake_texture_splits]
  rw [rebake_texture_split_rgb _ _ _ _ 2 1 1 [10, 20, 30, 40, 50, 60] (by decide) (by decide)
    (by decide) rfl]
  rfl

/-- C27 at one 16 x 16 RASTER_888 texture without alpha: upload_textures writes one
GL_RGB split of 1 layer and 768 = 1 * 16 * 16 * 3 bytes; the transcoder's test
4 * 16 * 16 == 768 is false and rebake_textures stops at the assertion. -/
theorem baker_rgb_split_fails_size_assertion :
    ∃ buckets1 blob,
      upload_textures sample_env 4 rgb_buckets = Except.ok (buckets1, blob)
      ∧ blob.splits.map (fun s => (s.format, s.width, s.height, s.layers, s.byte_size))
          = [(GL_RGB, 16, 16, 1, 768)]
      ∧ size_assertion { format := GL_RGB, width := 16, height := 16, layers := 1, size := 768 }
          = false
      ∧ rebake_textures (fun _ _ => []) (fun _ => 0) (texture_blob_bytes blob)
          = Except.error BakeError.assert_failed :=
  ⟨_, _, rfl, rfl, rfl, rfl⟩

theorem post_load_step_call_args (b p : Bool) (a : Nat) (h : Nat → Nat) (st st1 : PostLoadState)
    (pair : Nat × DrawCall) (hs : post_load_step b p a h st pair = Except.ok st1) :
    st1.call_args ≠ [] := by
  unfold post_load_step at hs
  simp only [] at hs
  split at hs
  · cases hs
  · injection hs with hs
    subst hs
    simp

/-- Whatever the draw calls are, the batch in progress when the loop of `post_load`
ends is not empty: the commands of the last run are still in `call_args`. -/
theorem post_load_loop_call_args (b p : Bool) (a : Nat) (h : Nat → Nat)
    (calls : List (Nat × DrawCall)) (st st1 : PostLoadState) (hne : calls ≠ [])
    (hs : post_load_loop b p a h st calls = Except.ok st1) : st1.call_args ≠ [] := by
  induction calls generalizing st with
  | nil => exact absurd rfl hne
  | cons pair rest ih =>
    simp only [post_load_loop] at hs
    split at hs
    · cases hs
    · rename_i st2 hstep
      cases rest with
      | nil =>
        simp only [post_load_loop] at hs
        injection hs with hs
        subst hs
        exact post_load_step_call_args b p a h st _ pair hstep
      | cons q qs => exact ih st2 (by simp) hs

/-- C26 on three draw calls of two texture arrays (and on a single draw call): the
loop flushes a batch only when the next texture array starts, and nothing flushes
after the loop, so `multicalls` holds one batch of 2 draw calls for 3 draw calls and 2
distinct (bucket, slice) pairs; the last run stays in `call_args`, is never uploaded
to the indirect buffer and never drawn.  With one draw call `multicalls` is empty. -/
theorem last_batch_never_flushed :
    (∃ st, post_load true false true 3 (fun _ => 0) three_draw_calls = Except.ok st
        ∧ st.multicalls.map (fun mdc => (mdc.tex_array, mdc.indirect_offset, mdc.indirect_count))
            = [(1, 0, 2)]
        ∧ (st.multicalls.map (fun mdc => mdc.indirect_count)).sum = 2
        ∧ three_draw_calls.length = 3
        ∧ st.call_args.length = 1
        ∧ st.uploads.length = 1
        ∧ render_multicalls st.multicalls = [(1, 0, 2)])
      ∧ (∃ st, post_load true false true 3 (fun _ => 0) [(sort_key 0x300 0 1 0, sample_draw_call 1 3)]
            = Except.ok st
          ∧ st.multicalls = [] ∧ st.call_args.length = 1) :=
  ⟨⟨_, rfl, by decide, by decide, by decide, by decide, by decide, by decide⟩,
    ⟨_, rfl, by decide, by decide⟩⟩

theorem xor_shift_mod (k p s w : Nat) :
    ((k ^^^ p) >>> s) % 2 ^ w = ((k >>> s) % 2 ^ w) ^^^ ((p >>> s) % 2 ^ w) := by
  apply Nat.eq_of_testBit_eq
  intro i
  simp only [Nat.testBit_mod_two_pow, Nat.testBit_shiftRight, Nat.testBit_xor]
  cases decide (i < w) <;> simp

/-- The state-change test compares bits 24..43 of the two keys. -/
theorem mask_test_eq_zero_iff (k p : Nat) :
    (k ^^^ p) &&& TEXTURE_ARRAY_MASK = 0 ↔ pair_code k = pair_code p := by
  have hm : TEXTURE_ARRAY_MASK = (2 ^ 20 - 1) <<< 24 := by decide
  rw [hm, and_shifted_mask, xor_shift_mod, Nat.shiftLeft_eq]
  unfold pair_code
  constructor
  · intro h
    have h2 : (k >>> 24 % 2 ^ 20) ^^^ (p >>> 24 % 2 ^ 20) = 0 := by
      rcases Nat.mul_eq_zero.mp h with h | h
      · exact h
      · exact absurd h (by norm_num)
    exact Nat.xor_eq_zero.mp h2
  · intro h
    rw [h, Nat.xor_self, Nat.zero_mul]

theorem texture_pair_eq_iff (k p : Nat) :
    texture_pair k = texture_pair p ↔ pair_code k = pair_code p := by
  unfold texture_pair pair_code
  simp only [and_0xFFF, and_0xFF, Nat.shiftRight_eq_div_pow, Prod.mk.injEq]
  omega

theorem mask_test_ne_zero_iff (k p : Nat) :
    (k ^^^ p) &&& TEXTURE_ARRAY_MASK ≠ 0 ↔ texture_pair k ≠ texture_pair p := by
  rw [Ne, mask_test_eq_zero_iff, ← texture_pair_eq_iff]

theorem state_change_flags_congr (prev prev2 : Nat) (keys : List Nat)
    (h : texture_pair prev = texture_pair prev2) :
    state_change_flags prev keys = state_change_flags prev2 keys := by
  induction keys generalizing prev prev2 with
  | nil => rfl
  | cons k ks ih =>
    have h1 : ((k ^^^ prev) &&& TEXTURE_ARRAY_MASK ≠ 0)
        ↔ ((k ^^^ prev2) &&& TEXTURE_ARRAY_MASK ≠ 0) := by
      rw [mask_test_ne_zero_iff, mask_test_ne_zero_iff, h]
    simp only [state_change_flags]
    by_cases hc : (k ^^^ prev) &&& TEXTURE_ARRAY_MASK ≠ 0
    · rw [if_pos hc, if_pos (h1.mp hc)]
    · rw [if_neg hc, if_neg (fun h2 => hc (h1.mpr h2)), ih prev prev2 h]

/-- After each draw call the previous key has the (bucket, slice) pair of that draw
call, whether or not the test fired. -/
theorem state_change_flags_cons (prev k : Nat) (ks : List Nat) :
    state_change_flags prev (k :: ks)
      = decide (texture_pair k ≠ texture_pair prev) :: state_change_flags k ks := by
  simp only [state_change_flags]
  by_cases hc : (k ^^^ prev) &&& TEXTURE_ARRAY_MASK ≠ 0
  · rw [if_pos hc]
    have := (mask_test_ne_zero_iff k prev).mp hc
    simp [this]
  · rw [if_neg hc]
    have h2 : texture_pair k = texture_pair prev := by
      by_contra h3
      exact hc ((mask_test_ne_zero_iff k prev).mpr h3)
    rw [state_change_flags_congr prev k ks h2.symm]
    simp [h2]

theorem state_change_flags_getD (prev : Nat) (keys : List Nat) (i : Nat) (hi : i < keys.length) :
    (state_change_flags prev keys).getD i false
      = decide (texture_pair (keys.getD i 0)
          ≠ texture_pair (if i = 0 then prev else keys.getD (i - 1) 0)) := by
  induction keys generalizing prev i with
  | nil => simp at hi
  | cons k ks ih =>
    rw [state_change_flags_cons]
    cases i with
    | zero => simp
    | succ j =>
      simp only [List.length_cons, Nat.add_lt_add_iff_right] at hi
      simp only [List.getD_cons_succ, Nat.add_sub_cancel]
      rw [ih k j hi]
      cases j with
      | zero => simp
      | succ l => simp

theorem render_fallback_binds (prev : Nat) (calls : List (Nat × DrawCall)) :
    ((render_fallback_loop prev calls).filter GlCommand.is_bind).length
      = (state_change_flags prev (calls.map Prod.fst)).count true := by
  induction calls generalizing prev with
  | nil => rfl
  | cons p ps ih =>
    simp only [render_fallback_loop, state_change_flags, List.map_cons]
    by_cases hc : (p.1 ^^^ prev) &&& TEXTURE_ARRAY_MASK ≠ 0
    · rw [if_pos hc, if_pos hc]
      simp [GlCommand.is_bind, ih]
    · rw [if_neg hc, if_neg hc]
      simp [GlCommand.is_bind, ih]

theorem count_changes_sorted (prev : Nat) (keys : List Nat)
    (hs : (keys.map pair_code).Pairwise (· ≤ ·))
    (hp : ∀ k ∈ keys, pair_code prev ≤ pair_code k) :
    (state_change_flags prev keys).count true
      = ((keys.map pair_code).toFinset.erase (pair_code prev)).card := by
  induction keys generalizing prev with
  | nil => simp [state_change_flags]
  | cons k ks ih =>
    rw [state_change_flags_cons]
    simp only [List.map_cons, List.pairwise_cons, List.mem_map, forall_exists_index, and_imp,
      forall_apply_eq_imp_iff₂] at hs
    have ih2 := ih k hs.2 hs.1
    simp only [List.map_cons, List.toFinset_cons]
    by_cases hc : pair_code k = pair_code prev
    · have : texture_pair k = texture_pair prev := (texture_pair_eq_iff k prev).mpr hc
      rw [hc, Finset.erase_insert_eq_erase, ← hc, ← ih2]
      simp [this]
    · have hne : texture_pair k ≠ texture_pair prev :=
        fun h => hc ((texture_pair_eq_iff k prev).mp h)
      have hlt : pair_code prev < pair_code k :=
        lt_of_le_of_ne (hp k (List.mem_cons_self _ _)) (Ne.symm hc)
      have hnot : pair_code prev ∉ insert (pair_code k) (ks.map pair_code).toFinset := by
        simp only [Finset.mem_insert, List.mem_toFinset, List.mem_map, not_or, not_exists,
          not_and]
        refine ⟨Ne.symm hc, fun x hx hxe => ?_⟩
        have := hs.1 x hx
        omega
      rw [Finset.erase_eq_of_not_mem hnot]
      have hcard : (insert (pair_code k) (ks.map pair_code).toFinset).card
          = ((ks.map pair_code).toFinset.erase (pair_code k)).card + 1 := by
        rw [← Finset.erase_insert_eq_erase, Finset.card_erase_add_one (Finset.mem_insert_self _ _)]
      rw [hcard, ← ih2]
      simp [hne]

theorem count_changes_from_sentinel (prev : Nat) (keys : List Nat)
    (hs : (keys.map pair_code).Pairwise (· ≤ ·))
    (hp : ∀ k ∈ keys, pair_code k ≠ pair_code prev) :
    (state_change_flags prev keys).count true = (keys.map pair_code).toFinset.card := by
  cases keys with
  | nil => simp [state_change_flags]
  | cons k ks =>
    rw [state_change_flags_cons]
    simp only [List.map_cons, List.pairwise_cons, List.mem_map, forall_exists_index, and_imp,
      forall_apply_eq_imp_iff₂] at hs
    have hne : texture_pair k ≠ texture_pair prev :=
      fun h => hp k (List.mem_cons_self _ _) ((texture_pair_eq_iff k prev).mp h)
    have h2 := count_changes_sorted k ks hs.2 hs.1
    simp only [List.map_cons, List.toFinset_cons]
    have hcard : (insert (pair_code k) (ks.map pair_code).toFinset).card
        = ((ks.map pair_code).toFinset.erase (pair_code k)).card + 1 := by
      rw [← Finset.erase_insert_eq_erase, Finset.card_erase_add_one (Finset.mem_insert_self _ _)]
    rw [hcard, ← h2]
    simp [hne]

theorem card_texture_pairs (keys : List Nat) :
    (keys.map texture_pair).toFinset.card = (keys.map pair_code).toFinset.card := by
  have hdec : texture_pair = (fun q : Nat => (q / 256, q % 256)) ∘ pair_code := by
    funext k
    unfold texture_pair pair_code
    simp only [and_0xFFF, and_0xFF, Nat.shiftRight_eq_div_pow, Function.comp_apply,
      Prod.mk.injEq]
    omega
  have hinj : Function.Injective (fun q : Nat => (q / 256, q % 256)) := by
    intro a b h
    simp only [Prod.mk.injEq] at h
    omega
  have himg : ((keys.map pair_code).map fun q : Nat => (q / 256, q % 256)).toFinset
      = (keys.map pair_code).toFinset.image fun q : Nat => (q / 256, q % 256) := by
    ext x
    simp
  rw [hdec, ← List.map_map, himg, Finset.card_image_of_injective _ hinj]

theorem sort_key_lt (b s : Nat) (d : Int) (m : Nat) : sort_key b s d m < 2 ^ 44 := by
  rw [sort_key_eq_sum]
  have hm : m % 2 ^ 8 < 2 ^ 8 := Nat.mod_lt _ (by norm_num)
  have hd : u64_of_int d % 2 ^ 12 < 2 ^ 12 := Nat.mod_lt _ (by norm_num)
  have hs : s % 2 ^ 8 < 2 ^ 8 := Nat.mod_lt _ (by norm_num)
  have hb : b % 2 ^ 12 < 2 ^ 12 := Nat.mod_lt _ (by norm_num)
  omega

theorem pair_code_mono (k p : Nat) (hk : k < 2 ^ 44) (hp : p < 2 ^ 44) (h : k ≤ p) :
    pair_code k ≤ pair_code p := by
  unfold pair_code
  simp only [Nat.shiftRight_eq_div_pow]
  omega

theorem pair_codes_sorted (keys : List Nat) (hs : keys.Pairwise (· < ·))
    (hk : ∀ k ∈ keys, k < 2 ^ 44) : (keys.map pair_code).Pairwise (· ≤ ·) := by
  rw [List.pairwise_map]
  exact List.Pairwise.imp_of_mem
    (fun {a b} ha hb hab => pair_code_mono a b (hk a ha) (hk b hb) (Nat.le_of_lt hab)) hs

theorem sorted_getD_le (keys : List Nat) (hs : keys.Pairwise (· < ·)) (i j : Nat) (hij : i ≤ j)
    (hj : j < keys.length) : keys.getD i 0 ≤ keys.getD j 0 := by
  have hi : i < keys.length := Nat.lt_of_le_of_lt hij hj
  rw [List.getD_eq_getElem _ _ hi, List.getD_eq_getElem _ _ hj]
  rcases Nat.eq_or_lt_of_le hij with h | h
  · subst h
    exact Nat.le_refl _
  · exact Nat.le_of_lt ((List.pairwise_iff_getElem.mp hs) i j hi hj h)

theorem getD_mem_of_lt (keys : List Nat) (i : Nat) (hi : i < keys.length) :
    keys.getD i 0 ∈ keys := by
  rw [List.getD_eq_getElem _ _ hi]
  exact List.getElem_mem hi

theorem TEXTURE_ARRAY_MASK_testBit (i : Nat) :
    TEXTURE_ARRAY_MASK.testBit i = decide (24 ≤ i ∧ i < 44) := by
  have hm : TEXTURE_ARRAY_MASK = (2 ^ 20 - 1) <<< 24 := by decide
  rw [hm, Nat.testBit_shiftLeft, Nat.testBit_two_pow_sub_one]
  by_cases h : 24 ≤ i
  · have e : (i - 24 < 20) = (i < 44) := by
      apply propext
      omega
    simp [h, e]
  · have h2 : ¬ i ≥ 24 := h
    simp [h, h2]

/-- C21: for draw calls in ascending key order whose keys are sort keys (below
2^44) and none of which has bucket field 0xFFF together with slice field 0xFF (the
value the renderer's previous key starts with; bucket keys of in-range lookups are at
most 0x644): the mask 0xFFFFF000000 has exactly bits 24..43 set, the bucket and slice
fields; the draw calls with equal (bucket, slice) pair form one contiguous run; the
test (key XOR previous key) AND mask is non-zero at draw call i exactly when i is 0 or
its pair differs from the pair of draw call i - 1, that is at the first draw call
of each run; and the number of glBindTexture calls of the fallback render loop is the
number of distinct (bucket, slice) pairs. -/
theorem texture_switches_eq_distinct_pairs (ordered_draw_calls : List (Nat × DrawCall))
    (hsorted : (ordered_draw_calls.map Prod.fst).Pairwise (· < ·))
    (hkeys : ∀ p ∈ ordered_draw_calls, p.1 < 2 ^ 44)
    (hsent : ∀ p ∈ ordered_draw_calls, texture_pair p.1 ≠ (0xFFF, 0xFF)) :
    (∀ i : Nat, TEXTURE_ARRAY_MASK.testBit i = decide (24 ≤ i ∧ i < 44))
      ∧ (∀ i j l : Nat, i ≤ j → j ≤ l → l < ordered_draw_calls.length →
          texture_pair ((ordered_draw_calls.map Prod.fst).getD i 0)
            = texture_pair ((ordered_draw_calls.map Prod.fst).getD l 0) →
          texture_pair ((ordered_draw_calls.map Prod.fst).getD j 0)
            = texture_pair ((ordered_draw_calls.map Prod.fst).getD i 0))
      ∧ (∀ i : Nat, i < ordered_draw_calls.length →
          ((state_change_flags UINT64_MAX (ordered_draw_calls.map Prod.fst)).getD i false = true
            ↔ (i = 0 ∨ texture_pair ((ordered_draw_calls.map Prod.fst).getD i 0)
                  ≠ texture_pair ((ordered_draw_calls.map Prod.fst).getD (i - 1) 0))))
      ∧ texture_switches ordered_draw_calls
          = ((ordered_draw_calls.map fun p => texture_pair p.1).toFinset).card := by
  have hk : ∀ k ∈ ordered_draw_calls.map Prod.fst, k < 2 ^ 44 := by
    intro k hk
    obtain ⟨p, hp, rfl⟩ := List.mem_map.mp hk
    exact hkeys p hp
  have hse : ∀ k ∈ ordered_draw_calls.map Prod.fst, texture_pair k ≠ texture_pair UINT64_MAX := by
    intro k hk
    obtain ⟨p, hp, rfl⟩ := List.mem_map.mp hk
    have : texture_pair UINT64_MAX = (0xFFF, 0xFF) := by decide
    rw [this]
    exact hsent p hp
  have hlen : (ordered_draw_calls.map Prod.fst).length = ordered_draw_calls.length :=
    List.length_map _ _
  have hsw : texture_switches ordered_draw_calls
      = (state_change_flags UINT64_MAX (ordered_draw_calls.map Prod.fst)).count true :=
    render_fallback_binds UINT64_MAX ordered_draw_calls
  have hpairs : (ordered_draw_calls.map fun p => texture_pair p.1)
      = (ordered_draw_calls.map Prod.fst).map texture_pair := by
    rw [List.map_map]
    rfl
  rw [hsw, hpairs]
  generalize ordered_draw_calls.map Prod.fst = keys at hsorted hk hse hlen
  refine ⟨TEXTURE_ARRAY_MASK_testBit, ?_, ?_, ?_⟩
  · intro i j l hij hjl hl heq
    rw [← hlen] at hl
    have hj : j < keys.length := Nat.lt_of_le_of_lt hjl hl
    have hi : i < keys.length := Nat.lt_of_le_of_lt hij hj
    have h1 := pair_code_mono _ _ (hk _ (getD_mem_of_lt keys i hi))
      (hk _ (getD_mem_of_lt keys j hj)) (sorted_getD_le keys hsorted i j hij hj)
    have h2 := pair_code_mono _ _ (hk _ (getD_mem_of_lt keys j hj))
      (hk _ (getD_mem_of_lt keys l hl)) (sorted_getD_le keys hsorted j l hjl hl)
    have h3 := (texture_pair_eq_iff _ _).mp heq
    exact (texture_pair_eq_iff _ _).mpr (by omega)
  · intro i hi
    rw [← hlen] at hi
    rw [state_change_flags_getD UINT64_MAX keys i hi]
    by_cases h0 : i = 0
    · subst h0
      simp only [if_true, decide_eq_true_eq, true_or, iff_true]
      exact hse _ (getD_mem_of_lt keys 0 hi)
    · simp [h0]
  · rw [card_texture_pairs]
    exact count_changes_from_sentinel UINT64_MAX keys (pair_codes_sorted keys hsorted hk)
      (fun k hk2 h => hse k hk2 ((texture_pair_eq_iff _ _).mpr h))

/-- C21 on three draw calls of two texture arrays: flags true, false, true and two
glBindTexture calls. -/
theorem texture_switches_eq_distinct_pairs_witness :
    (three_draw_calls.map Prod.fst).Pairwise (· < ·)
      ∧ three_draw_calls.map (fun p => texture_pair p.1) = [(0x300, 0), (0x300, 0), (0x644, 0)]
      ∧ state_change_flags UINT64_MAX (three_draw_calls.map Prod.fst) = [true, false, true]
      ∧ texture_switches three_draw_calls = 2
      ∧ texture_switches three_draw_calls
          = ((three_draw_calls.map fun p => texture_pair p.1).toFinset).card :=
  ⟨by decide, by decide, by decide, by decide,
    (texture_switches_eq_distinct_pairs three_draw_calls (by decide) (by decide)
      (by decide)).2.2.2⟩

/-- The case the hypothesis of C21 on the pair (0xFFF, 0xFF) leaves out: a first
draw call with all bits 24..43 set does not differ from the initial previous key
UINT64_MAX under the mask, so no texture array is bound for it. -/
theorem all_ones_pair_not_bound :
    texture_pair (sort_key 0xFFF 0xFF 1 0) = (0xFFF, 0xFF)
      ∧ state_change_flags UINT64_MAX [sort_key 0xFFF 0xFF 1 0] = [false]
      ∧ texture_switches [(sort_key 0xFFF 0xFF 1 0, sample_draw_call 1 3)] = 0 := by
  decide

theorem batch_splits_eq_foldl (named_textures : List (String × TextureRef))
    (texture_buckets : List (Nat × TextureBucket)) (def_id : Int) (mesh : MeshTableEntry)
    (inst : Instance) (splits : List MaterialSplit) :
    ∀ (idx : Nat) (offset : Int) (odc : List (Nat × DrawCall)),
      batch_splits named_textures texture_buckets def_id mesh inst splits idx offset odc
        = (emitted_draw_calls named_textures texture_buckets def_id mesh inst splits idx
            offset).foldl (fun m p => map_set m p.1 p.2) odc := by
  induction splits with
  | nil => intro idx offset odc; rfl
  | cons batch rest ih =>
    intro idx offset odc
    unfold batch_splits emitted_draw_calls
    cases h : resolve_split named_textures texture_buckets batch with
    | none => exact ih _ _ _
    | some rb =>
      obtain ⟨ref, bucket⟩ := rb
      simp only [List.foldl_cons]
      exact ih _ _ _

theorem mem_map_set_any {K V : Type} [LT K] [DecidableRel (fun a b : K => a < b)]
    [DecidableEq K] (m : List (K × V)) (key : K) (v : V) (p : K × V)
    (hp : p ∈ map_set m key v) : p = (key, v) ∨ p ∈ m := by
  induction m with
  | nil => simpa [map_set] using hp
  | cons q rest ih =>
    obtain ⟨k, w⟩ := q
    unfold map_set at hp
    split at hp
    · rcases List.mem_cons.mp hp with h | h
      · exact Or.inl h
      · exact Or.inr h
    · split at hp
      · rcases List.mem_cons.mp hp with h | h
        · rename_i hk
          exact Or.inl (by rw [h, hk])
        · exact Or.inr (List.mem_cons_of_mem _ h)
      · rcases List.mem_cons.mp hp with h | h
        · exact Or.inr (by rw [h]; exact List.mem_cons_self _ _)
        · rcases ih h with h2 | h2
          · exact Or.inl h2
          · exact Or.inr (List.mem_cons_of_mem _ h2)

theorem mem_foldl_map_set (writes : List (Nat × DrawCall)) :
    ∀ (odc : List (Nat × DrawCall)) (p : Nat × DrawCall),
      p ∈ writes.foldl (fun m q => map_set m q.1 q.2) odc → p ∈ odc ∨ p ∈ writes := by
  induction writes with
  | nil => intro odc p hp; exact Or.inl hp
  | cons w ws ih =>
    intro odc p hp
    simp only [List.foldl_cons] at hp
    rcases ih _ p hp with h | h
    · rcases mem_map_set_any odc w.1 w.2 p h with h2 | h2
      · exact Or.inr (by rw [h2]; exact List.mem_cons_self _ _)
      · exact Or.inl h2
    · exact Or.inr (List.mem_cons_of_mem _ h)

theorem u32_of_offset (m R : Nat) (h : m + 2 * R < 2 ^ 32) :
    u32_of_int ((m : Int) + i32_of_int (2 * (R : Int))) = m + 2 * R := by
  unfold u32_of_int i32_of_int
  omega

theorem i32_of_int_add (a b : Int) : i32_of_int (i32_of_int a + b) = i32_of_int (a + b) := by
  unfold i32_of_int
  omega

/-- Every write of the inner batching loop stays inside the index range of the mesh,
as long as the running offset is twice a count `R` of indices that, together with the
splits still to come, does not exceed the total of the mesh. -/
theorem emitted_draw_calls_in_range (named_textures : List (String × TextureRef))
    (texture_buckets : List (Nat × TextureBucket)) (def_id : Int) (mesh : MeshTableEntry)
    (inst : Instance) (total : Nat) (hfit : mesh.offset + 2 * total < 2 ^ 32)
    (heven : mesh.offset % 2 = 0) (splits : List MaterialSplit) :
    ∀ (idx R : Nat), R + (splits.map fun b => b.num_indices).sum ≤ total →
      ∀ p ∈ emitted_draw_calls named_textures texture_buckets def_id mesh inst splits idx
          (i32_of_int (2 * (R : Int))),
        index_range_ok mesh total p.2 := by
  induction splits with
  | nil => intro idx R _ p hp; simp [emitted_draw_calls] at hp
  | cons batch rest ih =>
    intro idx R hR p hp
    simp only [List.map_cons, List.sum_cons] at hR
    unfold emitted_draw_calls at hp
    cases h : resolve_split named_textures texture_buckets batch with
    | none =>
      rw [h] at hp
      exact ih (idx + 1) R (by omega) p hp
    | some rb =>
      obtain ⟨ref, bucket⟩ := rb
      rw [h] at hp
      simp only [List.mem_cons] at hp
      rcases hp with hp | hp
      · subst hp
        unfold index_range_ok
        simp only []
        rw [u32_of_offset mesh.offset R (by omega)]
        omega
      · rw [i32_of_int_add] at hp
        have e : (2 * (R : Int) + (batch.num_indices : Int) * 2)
            = 2 * ((R + batch.num_indices : Nat) : Int) := by
          push_cast
          ring
        rw [e] at hp
        exact ih (idx + 1) (R + batch.num_indices) (by omega) p hp

theorem bake_geometry_tables (id : Nat) (geo : Geometry) (st : MeshState)
    (hV : 0 < geo.vertexCount) :
    map_find (bake_geometry id geo st).mesh_table id
        = some { id := id
                 num_splits := geo.splits.length % 2 ^ 32
                 base_vertex := st.baked_vert_pos.length % 2 ^ 32
                 offset := (2 * st.baked_indices.length) % 2 ^ 32 }
      ∧ (bake_geometry id geo st).baked_indices.length
          = st.baked_indices.length + (geo.splits.map (fun s => s.indices.length)).sum
      ∧ map_find (bake_geometry id geo st).material_splits id
          = some ((map_find st.material_splits id).getD []
              ++ geo.splits.map (material_split_of geo)) := by
  have hne : ¬ 0 = geo.vertexCount := by omega
  obtain ⟨h1, -, -, -, -, h6⟩ := bake_splits_eq id geo geo.splits
    { st with
      baked_vert_pos := st.baked_vert_pos ++ (List.range geo.vertexCount).map (vertex_pos geo)
      baked_vert_rgba := st.baked_vert_rgba ++ (List.range geo.vertexCount).map (vertex_rgba geo)
      baked_vert_uv := st.baked_vert_uv ++ (List.range geo.vertexCount).map (vertex_uv geo)
      material_splits :=
        map_set st.material_splits id ((map_find st.material_splits id).getD []) }
  unfold bake_geometry
  rw [if_neg hne]
  refine ⟨?_, ?_, ?_⟩
  · simp only [map_find_map_set_any, if_true]
  · simp only []
    rw [h1, List.length_append, length_flatten_map_indices]
  · exact h6 _ (by simp only [map_find_map_set_any, if_true])

theorem sum_num_indices_le (geo : Geometry) (splits : List Split) :
    ((splits.map (material_split_of geo)).map fun b => b.num_indices).sum
      ≤ (splits.map fun s => s.indices.length).sum := by
  induction splits with
  | nil => exact Nat.le_refl _
  | cons s rest ih =>
    simp only [List.map_cons, List.sum_cons, material_split_of]
    have : s.indices.length % 2 ^ 32 ≤ s.indices.length := Nat.mod_le _ _
    omega

/-- C28: for a mesh baked by one read_dff_mesh call (V > 0 vertices, no earlier
records under its id) and an index buffer below 2^32 bytes, every draw call the
batching loop writes for an instance of that mesh has an even index_offset with
mesh.offset <= index_offset and index_offset + 2 * num_vertices <= mesh.offset + 2 * T,
T being the total number of indices of the mesh, and mesh.offset + 2 * T is
2 * length of baked_indices right after the call (the buffer only grows afterwards);
every entry of the draw-call map after the instance is an earlier entry or such a
draw call. -/
theorem draw_call_index_range (id : Nat) (geo : Geometry) (st : MeshState) (t : BakedTables)
    (inst : Instance) (hV : 0 < geo.vertexCount)
    (hfresh : map_find st.material_splits id = none)
    (hfit : 2 * (bake_geometry id geo st).baked_indices.length < 2 ^ 32)
    (hid : u32_of_int inst.id = id)
    (hmesh : map_find t.mesh_table id = map_find (bake_geometry id geo st).mesh_table id)
    (hsplits : map_find t.material_splits id
      = map_find (bake_geometry id geo st).material_splits id) :
    (∀ p ∈ emitted_draw_calls t.named_textures t.texture_buckets
          (definition_id t.item_definitions inst.id) (mesh_of t.mesh_table inst.id) inst
          (mesh_splits_of t.material_splits inst.id) 0 0,
        index_range_ok (mesh_of t.mesh_table inst.id)
          (geo.splits.map fun s => s.indices.length).sum p.2)
      ∧ (∀ (odc : List (Nat × DrawCall)) (p : Nat × DrawCall), p ∈ batch_instance t inst odc →
          p ∈ odc ∨ index_range_ok (mesh_of t.mesh_table inst.id)
            (geo.splits.map fun s => s.indices.length).sum p.2)
      ∧ (mesh_of t.mesh_table inst.id).offset = 2 * st.baked_indices.length
      ∧ (mesh_of t.mesh_table inst.id).offset + 2 * (geo.splits.map fun s => s.indices.length).sum
          = 2 * (bake_geometry id geo st).baked_indices.length
      ∧ (∀ later : List Nat,
          (mesh_of t.mesh_table inst.id).offset + 2 * (geo.splits.map fun s => s.indices.length).sum
            ≤ 2 * ((bake_geometry id geo st).baked_indices ++ later).length) := by
  obtain ⟨hentry, hlen, hrec⟩ := bake_geometry_tables id geo st hV
  have hoff : (mesh_of t.mesh_table inst.id).offset = 2 * st.baked_indices.length := by
    unfold mesh_of
    rw [hid, hmesh, hentry]
    simp only [Option.getD_some]
    exact Nat.mod_eq_of_lt (by omega)
  have hsp : mesh_splits_of t.material_splits inst.id
      = geo.splits.map (material_split_of geo) := by
    unfold mesh_splits_of
    rw [hid, hsplits, hrec, hfresh]
    simp
  have hsum : (mesh_of t.mesh_table inst.id).offset
      + 2 * (geo.splits.map fun s => s.indices.length).sum
      = 2 * (bake_geometry id geo st).baked_indices.length := by
    rw [hoff, hlen]
    omega
  have hall : ∀ p ∈ emitted_draw_calls t.named_textures t.texture_buckets
      (definition_id t.item_definitions inst.id) (mesh_of t.mesh_table inst.id) inst
      (mesh_splits_of t.material_splits inst.id) 0 0,
      index_range_ok (mesh_of t.mesh_table inst.id)
        (geo.splits.map fun s => s.indices.length).sum p.2 := by
    intro p hp
    rw [hsp] at hp
    have h0 : (0 : Int) = i32_of_int (2 * ((0 : Nat) : Int)) := by decide
    rw [h0] at hp
    exact emitted_draw_calls_in_range t.named_textures t.texture_buckets _ _ inst _
      (by omega) (by omega) _ 0 0
      (by rw [Nat.zero_add]; exact sum_num_indices_le geo geo.splits) p hp
  refine ⟨hall, ?_, hoff, hsum, ?_⟩
  · intro odc p hp
    unfold batch_instance at hp
    rw [batch_splits_eq_foldl] at hp
    rcases mem_foldl_map_set _ odc p hp with h | h
    · exact Or.inl h
    · exact Or.inr (hall p h)
  · intro later
    rw [hsum, List.length_append]
    omega

/-- C28 on the triangle baked under id 7 after the one under id 5: the mesh starts at
byte 6, its draw call has index_offset 6 and 3 vertices, and 6 + 2 * 3 is the 12 bytes
of the index buffer. -/
theorem draw_call_index_range_witness :
    emitted_draw_calls baked_triangle_tables.named_textures baked_triangle_tables.texture_buckets
        (definition_id baked_triangle_tables.item_definitions 7)
        (mesh_of baked_triangle_tables.mesh_table 7)
        { id := 7, num_instances := 1, base_instance := 0 }
        (mesh_splits_of baked_triangle_tables.material_splits 7) 0 0
      = [(sort_key 0x644 0 7 0,
          { texture_array := 1, tex_index := 0, index_offset := 6, num_vertices := 3,
            base_vertex := 3, num_instances := 1, base_instance := 0 })]
      ∧ (mesh_of baked_triangle_tables.mesh_table 7).offset = 6
      ∧ (bake_geometry 7 sample_geometry
          (bake_geometry 5 sample_geometry MeshState.empty)).baked_indices.length = 6
      ∧ ∀ p ∈ emitted_draw_calls baked_triangle_tables.named_textures
          baked_triangle_tables.texture_buckets
          (definition_id baked_triangle_tables.item_definitions 7)
          (mesh_of baked_triangle_tables.mesh_table 7)
          { id := 7, num_instances := 1, base_instance := 0 }
          (mesh_splits_of baked_triangle_tables.material_splits 7) 0 0,
        index_range_ok (mesh_of baked_triangle_tables.mesh_table 7)
          (sample_geometry.splits.map fun s => s.indices.length).sum p.2 :=
  ⟨by decide, by decide, by decide,
    (draw_call_index_range 7 sample_geometry (bake_geometry 5 sample_geometry MeshState.empty)
      baked_triangle_tables { id := 7, num_instances := 1, base_instance := 0 } (by decide) rfl
      (by decide) (by decide) rfl rfl).1⟩

theorem sample_glm_exact_on_identity : glm_exact_on_identity sample_glm := by
  refine ⟨rfl, rfl, rfl, rfl, rfl, rfl, rfl, fun _ _ => rfl, fun _ _ _ => rfl⟩

theorem compose_world_from_object_identity (glm : Glm) (hglm : glm_exact_on_identity glm)
    (x y z : ℚ) :
    compose_world_from_object glm ⟨F32.fin x, F32.fin y, F32.fin z⟩
        (glm.normalize ⟨F32.fin 0, F32.fin 0, F32.fin 0, F32.fin 1⟩)
      = [F32.fin 1, F32.fin 0, F32.fin 0, F32.fin 0, F32.fin 0, F32.fin 1, F32.fin 0, F32.fin 0,
         F32.fin 0, F32.fin 0, F32.fin 1, F32.fin 0, F32.fin x, F32.fin y, F32.fin z,
         F32.fin 1] := by
  obtain ⟨hn, he, hneg, hid, hrx, hry, hrz, hmul, htr⟩ := hglm
  have hfin_id : ∀ e ∈ glm.identity, ∃ q : ℚ, e = F32.fin q := by
    rw [hid]
    intro e he
    simp only [List.mem_cons, List.mem_singleton, List.not_mem_nil, or_false] at he
    rcases he with h | h | h | h | h | h | h | h | h | h | h | h | h | h | h | h <;>
      exact ⟨_, h⟩
  have hfin_tr : ∀ e ∈ glm.translate glm.identity ⟨F32.fin x, F32.fin y, F32.fin z⟩,
      ∃ q : ℚ, e = F32.fin q := by
    rw [htr]
    intro e he
    simp only [List.mem_cons, List.mem_singleton, List.not_mem_nil, or_false] at he
    rcases he with h | h | h | h | h | h | h | h | h | h | h | h | h | h | h | h <;>
      exact ⟨_, h⟩
  unfold compose_world_from_object
  simp only [hn, he, hneg, hrx, hry, hrz]
  rw [hmul _ hfin_id, hmul _ hfin_id, hmul _ hfin_tr, htr]

/-- C25: with glm exact on the identity rotation, the scenario of one static
definition (id 5, model "foo", txd "bar", 1 mesh, distance 50, flags 0) and one
placement line (id 5, "foo", interior 0, position (1, 2, 3), rotation (0, 0, 0, 1)):
add_item_definition_objs accepts the definition, parse_ipl accepts the placement
(one entry parsed), and the instance buffer built from the placements holds exactly
one Instance with id 5, num_instances 1, base_instance 0 and one matrix, the pure
translation by (1, 2, 3). -/
theorem end_to_end_scenario (glm : Glm) (hglm : glm_exact_on_identity glm) :
    add_item_definition_objs Catalog.empty (sample_definition 5 "foo")
        = (true, scenario_catalog)
      ∧ map_find scenario_catalog.item_definitions 5 = some (sample_definition 5 "foo")
      ∧ (parse_ipl glm scenario_catalog scenario_ipl).2 = 1
      ∧ (parse_ipl glm scenario_catalog scenario_ipl).1.item_placements.map
            (fun pair => (pair.1, pair.2.length)) = [(5, 1)]
      ∧ build_instances (parse_ipl glm scenario_catalog scenario_ipl).1.item_placements
          = ([{ id := 5, num_instances := 1, base_instance := 0 }],
             [[F32.fin 1, F32.fin 0, F32.fin 0, F32.fin 0,
               F32.fin 0, F32.fin 1, F32.fin 0, F32.fin 0,
               F32.fin 0, F32.fin 0, F32.fin 1, F32.fin 0,
               F32.fin 1, F32.fin 2, F32.fin 3, F32.fin 1]]) := by
  have hb : build_instances (parse_ipl glm scenario_catalog scenario_ipl).1.item_placements
      = ([{ id := 5, num_instances := 1, base_instance := 0 }],
         [compose_world_from_object glm ⟨F32.fin 1, F32.fin 2, F32.fin 3⟩
           (glm.normalize ⟨F32.fin 0, F32.fin 0, F32.fin 0, F32.fin 1⟩)]) := rfl
  refine ⟨rfl, rfl, rfl, rfl, ?_⟩
  rw [hb, compose_world_from_object_identity glm hglm 1 2 3]

/-- C25 with the stand-in that is exact on identity rotations. -/
theorem end_to_end_scenario_witness :
    glm_exact_on_identity sample_glm
      ∧ build_instances (parse_ipl sample_glm scenario_catalog scenario_ipl).1.item_placements
          = ([{ id := 5, num_instances := 1, base_instance := 0 }],
             [[F32.fin 1, F32.fin 0, F32.fin 0, F32.fin 0,
               F32.fin 0, F32.fin 1, F32.fin 0, F32.fin 0,
               F32.fin 0, F32.fin 0, F32.fin 1, F32.fin 0,
               F32.fin 1, F32.fin 2, F32.fin 3, F32.fin 1]]) :=
  ⟨sample_glm_exact_on_identity,
    (end_to_end_scenario sample_glm sample_glm_exact_on_identity).2.2.2.2⟩

end GtaBaker
